import Mathlib

/-!
Verification of the cuckoo-filter implementation (`cuckoo/filter.py`,
`cuckoo/bucket.py`, `cuckoo/exception.py`).

The Python code is shallowly embedded as follows.

* A fingerprint (`bitarray` of `fingerprint_size` bits) is a `List Bool`.
* The bit-packed table of `BCuckooFilter` is a `bitarray` of
  `capacity * bucket_size * fingerprint_size` bits; every access the code
  performs on it is aligned to a fingerprint slot (`_bit_index` produces the
  bucket's bit range and all loops step by `fingerprint_size`), so the table
  is represented as `List (List FP)`: a list of `capacity` buckets, each a
  list of `bucket_size` slots of `fingerprint_size` bits.  The flat bit
  vector of the Python object is recovered by `BCuckooFilter.bitVector`
  (the double join), and slot `(i, j)` of the model occupies exactly the bit
  range `[(i*bucket_size + j)*f, (i*bucket_size + j + 1)*f)` of that vector.
* `mmh3.hash_bytes(item)` is an opaque 128-bit digest; it is modelled by a
  parameter `digest : α → List Bool` giving the digest's bits in
  most-significant-first order (the order `bitarray.frombytes` produces).
  `int(codecs.encode(h, 'hex'), 16)` is the big-endian integer of those bits
  (`natOfBits`).  The hash of a fingerprint's serialized bytes
  (`self.index(fingerprint.tobytes())` before its `% capacity`) is modelled
  by a second parameter `hFp : List Bool → ℕ`.
* `random.choice(seq)` is modelled by an oracle `rand : ℕ → ℕ` together with
  a draw counter `t`: a call returns `seq[rand t % seq.length]` and bumps the
  counter.  `random.choice([])` raises `IndexError` (modelled as a distinct
  outcome) without consuming a draw.
* Python exceptions leave the mutated object behind, so every operation
  returns its outcome together with the post-call state.
* `size` is a Python integer and may go negative, hence `size : ℤ`.
* `fingerprint_size` is computed at construction from `error_rate` by
  floating-point logarithms; that computation is not modelled — the model
  takes the resulting `fingerprint_size` as a parameter, which is the only
  way the constructor uses `error_rate` besides storing it.
-/

namespace Cuckoo

/-- A fingerprint: a bit string (`bitarray` in the source). -/
abbrev FP := List Bool

/-- Big-endian integer value of a bit string: models
`int(codecs.encode(item_hash, 'hex'), 16)` applied to the digest whose bits
(msb first) are the given list. -/
def natOfBits (l : List Bool) : ℕ :=
  l.foldl (fun n b => 2 * n + (if b then 1 else 0)) 0

/-- The all-zero fingerprint of width `f` (an empty slot). -/
def zeroFp (f : ℕ) : FP := List.replicate f false

/-- `stored_fingerprint.count(True)` is nonzero: the slot is occupied. -/
def occupied (s : FP) : Bool := s.count true != 0

/-- Replace the first element satisfying `p` by `new`; `none` when no element
satisfies `p`.  This is the shape of the linear scans in `_delete`,
`_find_and_replace` and `_insert`: each walks the bucket's slots in order and
rewrites the first hit. -/
def replaceFirst (p : FP → Bool) (new : FP) : List FP → Option (List FP)
  | [] => none
  | s :: rest =>
    if p s then some (new :: rest)
    else (replaceFirst p new rest).map (s :: ·)

/-- State of `BCuckooFilter` (class `BCuckooFilter`, `filter.py`). -/
structure BCuckooFilter where
  capacity : ℕ
  bucket_size : ℕ
  fingerprint_size : ℕ
  max_kicks : ℕ
  size : ℤ
  buckets : List (List FP)
  deriving DecidableEq, Repr

namespace BCuckooFilter

/-- Constructor: `buckets` is a zeroed bit array of
`capacity * bucket_size * fingerprint_size` bits (`setall(False)`), i.e.
every slot of every bucket is the all-zero fingerprint; `size = 0`. -/
def mk0 (capacity bucket_size fingerprint_size max_kicks : ℕ) : BCuckooFilter :=
  ⟨capacity, bucket_size, fingerprint_size, max_kicks, 0,
    List.replicate capacity (List.replicate bucket_size (zeroFp fingerprint_size))⟩

/-- The flat bit vector of the Python `bitarray` (`self.buckets`). -/
def bitVector (F : BCuckooFilter) : List Bool := F.buckets.flatten.flatten

/-- The bucket at `index`: the slots in the bit range `_bit_index(index)`. -/
def bucketOf (F : BCuckooFilter) (i : ℕ) : List FP := F.buckets.getD i []

/-- Write back the bucket at `index`. -/
def setBucket (F : BCuckooFilter) (i : ℕ) (bk : List FP) : BCuckooFilter :=
  { F with buckets := F.buckets.set i bk }

/-- `CuckooTemplate.index(item)`: big-endian integer of the item's digest,
`% capacity`. -/
def index (digest : α → List Bool) (F : BCuckooFilter) (x : α) : ℕ :=
  natOfBits (digest x) % F.capacity

/-- The second index produced by `CuckooTemplate.indices`:
`(index ^ self.index(fingerprint.tobytes())) % capacity`, where the inner
`self.index` hashes the fingerprint's bytes (`hFp fp`) and reduces
`% capacity`. -/
def altIndex (hFp : FP → ℕ) (F : BCuckooFilter) (i : ℕ) (fp : FP) : ℕ :=
  (i ^^^ (hFp fp % F.capacity)) % F.capacity

/-- `CuckooTemplate.fingerprint(item)`: the first `fingerprint_size` bits of
the item's digest. -/
def fingerprint (digest : α → List Bool) (F : BCuckooFilter) (x : α) : FP :=
  (digest x).take F.fingerprint_size

/-- `CuckooTemplate.load_factor()`:
`round(float(self.size) / (self.capacity * self.bucket_size), 4)`.
The float division is modelled by exact rational division and Python's
`round(_, 4)` by `round (q * 10^4) / 10^4` on rationals (the two agree except
within one double-precision ulp of a `.00005` tie, and no claim is settled at
such a tie). -/
def load_factor (F : BCuckooFilter) : ℚ :=
  (round ((F.size : ℚ) / ((F.capacity : ℚ) * (F.bucket_size : ℚ)) * 10000) : ℚ) / 10000

/-- `BCuckooFilter._delete(fingerprint, index)`: zero out the first slot of
the bucket equal to `fingerprint`; `False` when there is none.  Returns the
flag and the post-call state. -/
def deleteFp (F : BCuckooFilter) (fp : FP) (i : ℕ) : Bool × BCuckooFilter :=
  match replaceFirst (· == fp) (zeroFp F.fingerprint_size) (F.bucketOf i) with
  | some bk => (true, F.setBucket i bk)
  | none => (false, F)

/-- `BCuckooFilter._find_and_replace(look_for, replace_with, index)`:
overwrite the first slot equal to `look_for` with `replace_with`; `none`
models returning `False` (no state change in that case). -/
def findAndReplace (F : BCuckooFilter) (look_for replace_with : FP) (i : ℕ) :
    Option BCuckooFilter :=
  match replaceFirst (· == look_for) replace_with (F.bucketOf i) with
  | some bk => some (F.setBucket i bk)
  | none => none

/-- `BCuckooFilter._include(fingerprint, index)`: linear scan of the bucket
for an exact match. -/
def includeFp (F : BCuckooFilter) (fp : FP) (i : ℕ) : Bool :=
  decide (fp ∈ F.bucketOf i)

/-- `BCuckooFilter._insert(fingerprint, index)`: write `fingerprint` into the
first slot with no set bit; `none` models returning `False` (bucket full). -/
def insertFp (F : BCuckooFilter) (fp : FP) (i : ℕ) : Option BCuckooFilter :=
  match replaceFirst (fun s => !occupied s) fp (F.bucketOf i) with
  | some bk => some (F.setBucket i bk)
  | none => none

/-- `BCuckooFilter._swap(fingerprint, index)`: pick uniformly a slot of the
bucket whose contents differ from `fingerprint` (`random.choice` over the
positions), exchange, and return the displaced value.  `none` models the
`IndexError` that `random.choice` raises on the empty candidate list. -/
def swap (F : BCuckooFilter) (fp : FP) (i : ℕ) (rand : ℕ → ℕ) (t : ℕ) :
    Option (FP × BCuckooFilter × ℕ) :=
  let bk := F.bucketOf i
  match (List.range F.bucket_size).filter (fun k => bk.getD k [] != fp) with
  | [] => none
  | c :: cs =>
    let k := (c :: cs).get ⟨rand t % (c :: cs).length, Nat.mod_lt _ (Nat.succ_pos _)⟩
    some (bk.getD k [], F.setBucket i (bk.set k fp), t + 1)

end BCuckooFilter

/-- Outcome of an `insert`, always carrying the post-call state (of type `σ`)
and the post-call draw counter.  `ok` is a normal return of a bucket index;
`capacity` is `CapacityException`; `inconsist` is `InconsistencyException`;
`idxErr` is the `IndexError` escaping from `random.choice([])` on an empty
candidate list in the swap. -/
inductive IRes (σ : Type) where
  | ok (idx : ℕ) (F : σ) (t : ℕ)
  | capacity (F : σ) (t : ℕ)
  | inconsist (F : σ) (t : ℕ)
  | idxErr (F : σ) (t : ℕ)
  deriving DecidableEq, Repr

/-- The post-call state carried by an insert outcome. -/
def IRes.stateOf : IRes σ → σ
  | .ok _ F _ => F
  | .capacity F _ => F
  | .inconsist F _ => F
  | .idxErr F _ => F

/-- Whether the outcome is `CapacityException`. -/
def IRes.isCapacity : IRes σ → Bool
  | .capacity _ _ => true
  | _ => false

/-- Whether the outcome is the `IndexError` from `random.choice([])`. -/
def IRes.isIdxErr : IRes σ → Bool
  | .idxErr _ _ => true
  | _ => false

/-- Result of the kick loop (`for _ in range(self.max_kicks)`): success
(with `size` already incremented), exhaustion of the budget with the pairs
`(fingerprint, index)` pushed onto the two stacks (in push order, the initial
pair excluded), or the `IndexError` from the swap. -/
inductive KickRes (σ : Type) where
  | success (F : σ) (t : ℕ)
  | exhausted (F : σ) (pairs : List (FP × ℕ)) (t : ℕ)
  | fail (F : σ) (t : ℕ)
  deriving DecidableEq, Repr

namespace BCuckooFilter

/-- The relocation loop of `BCuckooFilter.insert`: swap, push the displaced
fingerprint and its alternate index, retry `_insert`, at most `n` times. -/
def kickLoop (hFp : FP → ℕ) (rand : ℕ → ℕ) :
    ℕ → FP → ℕ → BCuckooFilter → ℕ → KickRes BCuckooFilter
  | 0, _, _, F, t => .exhausted F [] t
  | n + 1, fp, i, F, t =>
    match F.swap fp i rand t with
    | none => .fail F t
    | some (disp, F1, t1) =>
      let i2 := F1.altIndex hFp i disp
      match F1.insertFp disp i2 with
      | some F2 => .success { F2 with size := F2.size + 1 } t1
      | none =>
        match kickLoop hFp rand n disp i2 F1 t1 with
        | .exhausted Fe ps te => .exhausted Fe ((disp, i2) :: ps) te
        | r => r

/-- The rollback (`while len(fingerprint_stack) > 1`), applied to the stack
in pop order (most recently pushed first): pop `(fp, i)`, then
`_find_and_replace(look_for = fp', replace_with = fp, index = i')` where
`(fp', i')` is the new stack top.  `false` models the
`InconsistencyException` raised when a replace fails, together with the state
reached so far. -/
def rollback : List (FP × ℕ) → BCuckooFilter → Bool × BCuckooFilter
  | [], F => (true, F)
  | [_], F => (true, F)
  | (fpT, _) :: (fpP, iP) :: rest, F =>
    match F.findAndReplace fpP fpT iP with
    | some F1 => rollback ((fpP, iP) :: rest) F1
    | none => (false, F)

/-- `BCuckooFilter.insert(item)`: probe the two candidate buckets, otherwise
run the kick loop from a random one of them, rolling the table back and
raising `CapacityException` when the kick budget is exhausted.  (The source's
guard comparing the lengths of the two stacks never fires — the model keeps
the stacks as one list of pairs.) -/
def insert (digest : α → List Bool) (hFp : FP → ℕ) (rand : ℕ → ℕ)
    (F : BCuckooFilter) (x : α) (t : ℕ) : IRes BCuckooFilter :=
  let fp := F.fingerprint digest x
  let i1 := F.index digest x
  let i2 := F.altIndex hFp i1 fp
  match F.insertFp fp i1 with
  | some F1 => .ok i1 { F1 with size := F1.size + 1 } t
  | none =>
    match F.insertFp fp i2 with
    | some F1 => .ok i2 { F1 with size := F1.size + 1 } t
    | none =>
      let idx := [i1, i2].get ⟨rand t % 2, by simp only [List.length_cons, List.length_nil]; omega⟩
      match kickLoop hFp rand F.max_kicks fp idx F (t + 1) with
      | .success Fs ts => .ok idx Fs ts
      | .fail Ff tf => .idxErr Ff tf
      | .exhausted Fe ps te =>
        match rollback (((fp, idx) :: ps).reverse) Fe with
        | (true, Fr) => .capacity Fr te
        | (false, Fr) => .inconsist Fr te

/-- `BCuckooFilter.contains(item)`: `_include` on the first index, then on
the second (the generator `indices` yields them in that order and the loop
returns on the first hit). -/
def contains (digest : α → List Bool) (hFp : FP → ℕ)
    (F : BCuckooFilter) (x : α) : Bool :=
  let fp := F.fingerprint digest x
  let i1 := F.index digest x
  F.includeFp fp i1 || F.includeFp fp (F.altIndex hFp i1 fp)

/-- `BCuckooFilter.contains` as a state transformer: the method performs no
write to `self`, so its translation returns the state unchanged. -/
def containsOp (digest : α → List Bool) (hFp : FP → ℕ)
    (F : BCuckooFilter) (x : α) : Bool × BCuckooFilter :=
  (F.contains digest hFp x, F)

/-- `BCuckooFilter.delete(item)`: `_delete` on the first index, then on the
second; `size` decremented on the first success. -/
def delete (digest : α → List Bool) (hFp : FP → ℕ)
    (F : BCuckooFilter) (x : α) : Bool × BCuckooFilter :=
  let fp := F.fingerprint digest x
  let i1 := F.index digest x
  match F.deleteFp fp i1 with
  | (true, F1) => (true, { F1 with size := F1.size - 1 })
  | (false, _) =>
    match F.deleteFp fp (F.altIndex hFp i1 fp) with
    | (true, F1) => (true, { F1 with size := F1.size - 1 })
    | (false, _) => (false, F)

/-- Number of occupied slots of a bucket (a measure used by the proofs, not a
function of the source). -/
def occB (bk : List FP) : ℕ := bk.countP occupied

/-- Number of occupied slots of the whole table. -/
def occCount (F : BCuckooFilter) : ℕ := (F.buckets.map occB).sum

/-- The multiset of slot values of the bucket at `i` (a measure used by the
proofs). -/
def bucketMS (F : BCuckooFilter) (i : ℕ) : Multiset FP := (F.bucketOf i : List FP)

/-- Shape of a filter state: the table the constructor establishes and every
operation preserves — `capacity` buckets of `bucket_size` slots each. -/
def BucketShape (F : BCuckooFilter) : Prop :=
  F.buckets.length = F.capacity ∧
  ∀ bk ∈ F.buckets, bk.length = F.bucket_size

/-- The number of slots among the candidate buckets of item `x` that hold
exactly `x`'s fingerprint (the two buckets coincide when the alternate index
equals the primary one). -/
def candCountX (digest : α → List Bool) (hFp : FP → ℕ) (x : α)
    (F : BCuckooFilter) : ℕ :=
  let fp := F.fingerprint digest x
  let i1 := F.index digest x
  let i2 := F.altIndex hFp i1 fp
  if i1 = i2 then (F.bucketOf i1).count fp
  else (F.bucketOf i1).count fp + (F.bucketOf i2).count fp

/-- Invariant of a filter operated only on the single item `x`: candidate
buckets of full width holding only empty slots or `x`'s fingerprint — `c` of
them — and all other buckets untouched. -/
def XInv (digest : α → List Bool) (hFp : FP → ℕ) (x : α)
    (F : BCuckooFilter) (c : ℕ) : Prop :=
  0 < F.capacity ∧
  occupied (F.fingerprint digest x) = true ∧
  F.buckets.length = F.capacity ∧
  (∀ j < F.capacity, j ≠ F.index digest x →
    j ≠ F.altIndex hFp (F.index digest x) (F.fingerprint digest x) →
    F.bucketOf j = List.replicate F.bucket_size (zeroFp F.fingerprint_size)) ∧
  (∀ j, (j = F.index digest x ∨
      j = F.altIndex hFp (F.index digest x) (F.fingerprint digest x)) →
    (F.bucketOf j).length = F.bucket_size ∧
    ∀ s ∈ F.bucketOf j, s = zeroFp F.fingerprint_size ∨ s = F.fingerprint digest x) ∧
  candCountX digest hFp x F = c

end BCuckooFilter

/-- Remove the first element equal to `fp`
(`del self.bucket[self.bucket.index(fingerprint)]` in `Bucket.delete`);
`none` when there is no such element. -/
def removeFirst (fp : FP) : List FP → Option (List FP)
  | [] => none
  | s :: rest =>
    if s == fp then some rest
    else (removeFirst fp rest).map (s :: ·)

/-- State of the list-of-buckets variant (class `CuckooFilter`, `filter.py`,
over class `Bucket`, `bucket.py`).  `self.buckets = [None] * capacity` with
buckets created lazily, so an entry is `none` (uninitialized) or the `Bucket`
object's fingerprint list. -/
structure CuckooFilter where
  capacity : ℕ
  bucket_size : ℕ
  fingerprint_size : ℕ
  max_kicks : ℕ
  size : ℤ
  buckets : List (Option (List FP))
  deriving DecidableEq, Repr

namespace CuckooFilter

/-- Constructor: `[None] * capacity`, `size = 0`. -/
def mk0 (capacity bucket_size fingerprint_size max_kicks : ℕ) : CuckooFilter :=
  ⟨capacity, bucket_size, fingerprint_size, max_kicks, 0, List.replicate capacity none⟩

/-- The fingerprint list of the bucket at `i` (`[]` when uninitialized: an
uninitialized bucket and a fresh empty `Bucket` hold the same list). -/
def bucketOf (F : CuckooFilter) (i : ℕ) : List FP := (F.buckets.getD i none).getD []

/-- `if self.buckets[index] is None: self.buckets[index] = Bucket(...)`. -/
def ensureBucket (F : CuckooFilter) (i : ℕ) : CuckooFilter :=
  if F.buckets.getD i none = none then
    { F with buckets := F.buckets.set i (some []) }
  else F

/-- Write back the bucket at `i`. -/
def setBucket (F : CuckooFilter) (i : ℕ) (bk : List FP) : CuckooFilter :=
  { F with buckets := F.buckets.set i (some bk) }

/-- `CuckooTemplate.index(item)` for this variant. -/
def index (digest : α → List Bool) (F : CuckooFilter) (x : α) : ℕ :=
  natOfBits (digest x) % F.capacity

/-- The second index of `CuckooTemplate.indices` for this variant. -/
def altIndex (hFp : FP → ℕ) (F : CuckooFilter) (i : ℕ) (fp : FP) : ℕ :=
  (i ^^^ (hFp fp % F.capacity)) % F.capacity

/-- `CuckooTemplate.fingerprint(item)` for this variant. -/
def fingerprint (digest : α → List Bool) (F : CuckooFilter) (x : α) : FP :=
  (digest x).take F.fingerprint_size

/-- `CuckooTemplate.load_factor()` for this variant. -/
def load_factor (F : CuckooFilter) : ℚ :=
  (round ((F.size : ℚ) / ((F.capacity : ℚ) * (F.bucket_size : ℚ)) * 10000) : ℚ) / 10000

/-- `Bucket.insert`: append unless `is_full` (`len(self.bucket) >= self.size`,
the bucket size). -/
def bucketInsert (F : CuckooFilter) (fp : FP) (i : ℕ) : Option CuckooFilter :=
  let bk := F.bucketOf i
  if bk.length < F.bucket_size then some (F.setBucket i (bk ++ [fp]))
  else none

/-- `Bucket.swap`: `random.choice` over the positions of the bucket's list
whose entry differs from `fingerprint`; exchange; return the displaced value.
`none` models the `IndexError` on an empty candidate list. -/
def swap (F : CuckooFilter) (fp : FP) (i : ℕ) (rand : ℕ → ℕ) (t : ℕ) :
    Option (FP × CuckooFilter × ℕ) :=
  let bk := F.bucketOf i
  match (List.range bk.length).filter (fun k => bk.getD k [] != fp) with
  | [] => none
  | c :: cs =>
    let k := (c :: cs).get ⟨rand t % (c :: cs).length, Nat.mod_lt _ (Nat.succ_pos _)⟩
    some (bk.getD k [], F.setBucket i (bk.set k fp), t + 1)

/-- The relocation loop of `CuckooFilter.insert`: swap on the current bucket,
compute the displaced fingerprint's alternate bucket, initialize it if
needed, retry `Bucket.insert`. -/
def kickLoop (hFp : FP → ℕ) (rand : ℕ → ℕ) :
    ℕ → FP → ℕ → CuckooFilter → ℕ → KickRes CuckooFilter
  | 0, _, _, F, t => .exhausted F [] t
  | n + 1, fp, i, F, t =>
    match F.swap fp i rand t with
    | none => .fail F t
    | some (disp, F1, t1) =>
      let i2 := F1.altIndex hFp i disp
      let F2 := F1.ensureBucket i2
      match F2.bucketInsert disp i2 with
      | some F3 => .success { F3 with size := F3.size + 1 } t1
      | none =>
        match kickLoop hFp rand n disp i2 F2 t1 with
        | .exhausted Fe ps te => .exhausted Fe ((disp, i2) :: ps) te
        | r => r

/-- The rollback of `CuckooFilter.insert`, via `Bucket.find_and_replace`
(replace the first occurrence of `look_for`). -/
def rollback : List (FP × ℕ) → CuckooFilter → Bool × CuckooFilter
  | [], F => (true, F)
  | [_], F => (true, F)
  | (fpT, _) :: (fpP, iP) :: rest, F =>
    match replaceFirst (· == fpP) fpT (F.bucketOf iP) with
    | some bk => rollback ((fpP, iP) :: rest) (F.setBucket iP bk)
    | none => (false, F)

/-- `CuckooFilter.insert(item)`: initialize-and-probe the two candidate
buckets in order, otherwise run the kick loop from a random one of them with
rollback on exhaustion. -/
def insert (digest : α → List Bool) (hFp : FP → ℕ) (rand : ℕ → ℕ)
    (F : CuckooFilter) (x : α) (t : ℕ) : IRes CuckooFilter :=
  let fp := F.fingerprint digest x
  let i1 := F.index digest x
  let i2 := F.altIndex hFp i1 fp
  let F0 := F.ensureBucket i1
  match F0.bucketInsert fp i1 with
  | some F' => .ok i1 { F' with size := F'.size + 1 } t
  | none =>
    let F1 := F0.ensureBucket i2
    match F1.bucketInsert fp i2 with
    | some F' => .ok i2 { F' with size := F'.size + 1 } t
    | none =>
      let idx := [i1, i2].get ⟨rand t % 2, by simp only [List.length_cons, List.length_nil]; omega⟩
      match kickLoop hFp rand F.max_kicks fp idx F1 (t + 1) with
      | .success Fs ts => .ok idx Fs ts
      | .fail Ff tf => .idxErr Ff tf
      | .exhausted Fe ps te =>
        match rollback (((fp, idx) :: ps).reverse) Fe with
        | (true, Fr) => .capacity Fr te
        | (false, Fr) => .inconsist Fr te

/-- `CuckooFilter.contains(item)`: initialize-and-scan the two candidate
buckets in order; this variant's `contains` mutates `self.buckets` (bucket
initialization), so it returns the post-call state. -/
def contains (digest : α → List Bool) (hFp : FP → ℕ)
    (F : CuckooFilter) (x : α) : Bool × CuckooFilter :=
  let fp := F.fingerprint digest x
  let i1 := F.index digest x
  let F0 := F.ensureBucket i1
  if fp ∈ F0.bucketOf i1 then (true, F0)
  else
    let F1 := F0.ensureBucket (F.altIndex hFp i1 fp)
    (decide (fp ∈ F1.bucketOf (F.altIndex hFp i1 fp)), F1)

/-- `CuckooFilter.delete(item)`: initialize-and-`Bucket.delete` the two
candidate buckets in order; `size` decremented on the first success. -/
def delete (digest : α → List Bool) (hFp : FP → ℕ)
    (F : CuckooFilter) (x : α) : Bool × CuckooFilter :=
  let fp := F.fingerprint digest x
  let i1 := F.index digest x
  let F0 := F.ensureBucket i1
  match removeFirst fp (F0.bucketOf i1) with
  | some bk => (true, { (F0.setBucket i1 bk) with size := F0.size - 1 })
  | none =>
    let i2 := F.altIndex hFp i1 fp
    let F1 := F0.ensureBucket i2
    match removeFirst fp (F1.bucketOf i2) with
    | some bk => (true, { (F1.setBucket i2 bk) with size := F1.size - 1 })
    | none => (false, F1)

end CuckooFilter

/-- Correspondence between a `Bucket` object's fingerprint list and a
bit-packed bucket: the packed slots are the list followed by empty slots, and
every listed fingerprint is occupied (has a set bit). -/
def SimBucket (b f : ℕ) (lb bb : List FP) : Prop :=
  bb = lb ++ List.replicate (b - lb.length) (zeroFp f) ∧
  lb.length ≤ b ∧
  ∀ s ∈ lb, occupied s = true

/-- Simulation relation between the list-of-buckets filter and the bit-packed
filter: equal scalar state and bucketwise `SimBucket`. -/
def Sim (Fl : CuckooFilter) (Fb : BCuckooFilter) : Prop :=
  Fl.capacity = Fb.capacity ∧
  Fl.bucket_size = Fb.bucket_size ∧
  Fl.fingerprint_size = Fb.fingerprint_size ∧
  Fl.max_kicks = Fb.max_kicks ∧
  Fl.size = Fb.size ∧
  Fl.buckets.length = Fb.capacity ∧
  Fb.buckets.length = Fb.capacity ∧
  ∀ j < Fb.capacity,
    SimBucket Fb.bucket_size Fb.fingerprint_size (Fl.bucketOf j) (Fb.bucketOf j)

/-- Correspondence of kick-loop results of the two variants: same outcome,
same stacks and draw counter, related states; displaced fingerprints on the
stack are occupied. -/
def KickResSim : KickRes CuckooFilter → KickRes BCuckooFilter → Prop
  | .success Fl tl, .success Fb tb => Sim Fl Fb ∧ tl = tb
  | .exhausted Fl psl tl, .exhausted Fb psb tb =>
    Sim Fl Fb ∧ psl = psb ∧ tl = tb ∧ ∀ p ∈ psb, occupied p.1 = true
  | .fail Fl tl, .fail Fb tb => Sim Fl Fb ∧ tl = tb
  | _, _ => False

/-- Correspondence of insert results of the two variants. -/
def IResSim : IRes CuckooFilter → IRes BCuckooFilter → Prop
  | .ok il Fl tl, .ok ib Fb tb => Sim Fl Fb ∧ il = ib ∧ tl = tb
  | .capacity Fl tl, .capacity Fb tb => Sim Fl Fb ∧ tl = tb
  | .inconsist Fl tl, .inconsist Fb tb => Sim Fl Fb ∧ tl = tb
  | .idxErr Fl tl, .idxErr Fb tb => Sim Fl Fb ∧ tl = tb
  | _, _ => False

/-- State of `ScalableCuckooFilter` (`filter.py`): the list of member
`BCuckooFilter`s in creation order (oldest first). -/
structure ScalableCuckooFilter where
  filters : List BCuckooFilter
  deriving DecidableEq, Repr

namespace ScalableCuckooFilter

/-- `SCALE_FACTOR = 2`. -/
def SCALE_FACTOR : ℕ := 2

/-- `THRESHOLD_LOAD_FACTOR = 0.90`. -/
def THRESHOLD_LOAD_FACTOR : ℚ := 9 / 10

/-- Constructor: one initial `BCuckooFilter`. -/
def mk0 (initial_capacity bucket_size fingerprint_size max_kicks : ℕ) :
    ScalableCuckooFilter :=
  ⟨[BCuckooFilter.mk0 initial_capacity bucket_size fingerprint_size max_kicks]⟩

/-- Result of the `for cuckoo in reversed(self.filters)` loop of
`ScalableCuckooFilter.insert`, over the reversed list: a successful insert
(`hit`), every filter skipped or failed with `CapacityException` (`through`),
or a propagating error (`err true` = `IndexError`, `err false` =
`InconsistencyException`).  The carried list is the reversed filter list with
the in-place mutations performed so far. -/
inductive ScanRes where
  | hit (idx : ℕ) (rev : List BCuckooFilter) (t : ℕ)
  | through (rev : List BCuckooFilter) (t : ℕ)
  | err (e : Bool) (rev : List BCuckooFilter) (t : ℕ)
  deriving DecidableEq, Repr

/-- The loop body of `ScalableCuckooFilter.insert`: skip a member whose
`load_factor()` exceeds the threshold, otherwise attempt `insert`, swallowing
only `CapacityException`. -/
def scanFilters (digest : α → List Bool) (hFp : FP → ℕ) (rand : ℕ → ℕ) (x : α) :
    List BCuckooFilter → ℕ → ScanRes
  | [], t => .through [] t
  | g :: gs, t =>
    if THRESHOLD_LOAD_FACTOR < g.load_factor then
      match scanFilters digest hFp rand x gs t with
      | .hit i rev tr => .hit i (g :: rev) tr
      | .through rev tr => .through (g :: rev) tr
      | .err e rev tr => .err e (g :: rev) tr
    else
      match g.insert digest hFp rand x t with
      | .ok i g1 tr => .hit i (g1 :: gs) tr
      | .capacity g1 tr =>
        match scanFilters digest hFp rand x gs tr with
        | .hit i rev ts => .hit i (g1 :: rev) ts
        | .through rev ts => .through (g1 :: rev) ts
        | .err e rev ts => .err e (g1 :: rev) ts
      | .idxErr g1 tr => .err true (g1 :: gs) tr
      | .inconsist g1 tr => .err false (g1 :: gs) tr

/-- The (reversed) filter list carried by a scan result. -/
def ScanRes.revOf : ScanRes → List BCuckooFilter
  | .hit _ rev _ => rev
  | .through rev _ => rev
  | .err _ rev _ => rev

/-- `ScalableCuckooFilter.insert(item)`: scan newest-to-oldest; if no member
accepts, append a fresh filter of capacity
`self.filters[-1].capacity * SCALE_FACTOR` (same bucket size, error rate —
hence same fingerprint size — and kick budget) and insert into it. -/
def insert (digest : α → List Bool) (hFp : FP → ℕ) (rand : ℕ → ℕ)
    (S : ScalableCuckooFilter) (x : α) (t : ℕ) : IRes ScalableCuckooFilter :=
  match scanFilters digest hFp rand x S.filters.reverse t with
  | .hit i rev tr => .ok i ⟨rev.reverse⟩ tr
  | .err true rev tr => .idxErr ⟨rev.reverse⟩ tr
  | .err false rev tr => .inconsist ⟨rev.reverse⟩ tr
  | .through rev tr =>
    let fs := rev.reverse
    let lastF := fs.getLastD (BCuckooFilter.mk0 0 0 0 0)
    let newF := BCuckooFilter.mk0 (lastF.capacity * SCALE_FACTOR)
      lastF.bucket_size lastF.fingerprint_size lastF.max_kicks
    match newF.insert digest hFp rand x tr with
    | .ok i nf ts => .ok i ⟨fs ++ [nf]⟩ ts
    | .capacity nf ts => .capacity ⟨fs ++ [nf]⟩ ts
    | .idxErr nf ts => .idxErr ⟨fs ++ [nf]⟩ ts
    | .inconsist nf ts => .inconsist ⟨fs ++ [nf]⟩ ts

end ScalableCuckooFilter

/-- The ways the `for cuckoo in reversed(self.filters)` loop of
`ScalableCuckooFilter.insert` passes over a run of members without
returning, pairing each passed member (newest first) with its post-loop
state and threading the draw counter: a member is either skipped because its
`load_factor()` exceeds the threshold (left untouched, no draws), or
attempted and failing with `CapacityException`, which the loop swallows
before moving to the next older member (the member keeps its post-exception
state). -/
def ScanSteps (digest : α → List Bool) (hFp : FP → ℕ) (rand : ℕ → ℕ) (x : α) :
    List BCuckooFilter → List BCuckooFilter → ℕ → ℕ → Prop
  | [], [], t, t2 => t = t2
  | g :: gs, g2 :: gs2, t, t2 =>
    (ScalableCuckooFilter.THRESHOLD_LOAD_FACTOR < g.load_factor ∧ g2 = g ∧
      ScanSteps digest hFp rand x gs gs2 t t2) ∨
    (¬ ScalableCuckooFilter.THRESHOLD_LOAD_FACTOR < g.load_factor ∧
      ∃ t1, g.insert digest hFp rand x t = .capacity g2 t1 ∧
        ScanSteps digest hFp rand x gs gs2 t1 t2)
  | _, _, _, _ => False

/-- Kind of a public filter operation. -/
inductive OpK where
  | ins
  | del
  | qry
  deriving DecidableEq, Repr

/-- Accumulated result of running a list of operations: final state, final
draw counter, number of inserts that returned normally (`k`), number of
deletes that returned `True` (`d`). -/
structure RunAcc (σ : Type) where
  st : σ
  t : ℕ
  k : ℕ
  d : ℕ
  deriving DecidableEq, Repr

/-- Run a list of operations (on arbitrary items) against a `BCuckooFilter`,
counting the inserts that returned normally and the deletes that returned
`True`; exceptional inserts and false deletes keep the state the operation
left behind and count nothing. -/
def runB (digest : α → List Bool) (hFp : FP → ℕ) (rand : ℕ → ℕ) :
    BCuckooFilter → List (OpK × α) → ℕ → RunAcc BCuckooFilter
  | F, [], t => ⟨F, t, 0, 0⟩
  | F, (op, x) :: rest, t =>
    match op with
    | .qry => runB digest hFp rand F rest t
    | .ins =>
      match F.insert digest hFp rand x t with
      | .ok _ F1 t1 =>
        let r := runB digest hFp rand F1 rest t1
        { r with k := r.k + 1 }
      | .capacity F1 t1 => runB digest hFp rand F1 rest t1
      | .inconsist F1 t1 => runB digest hFp rand F1 rest t1
      | .idxErr F1 t1 => runB digest hFp rand F1 rest t1
    | .del =>
      match F.delete digest hFp x with
      | (true, F1) =>
        let r := runB digest hFp rand F1 rest t
        { r with d := r.d + 1 }
      | (false, F1) => runB digest hFp rand F1 rest t

/-- Run a list of operations all on the single item `x`, requiring every
insert to return normally and every delete to return `True` (`none`
otherwise), counting them. -/
def runX (digest : α → List Bool) (hFp : FP → ℕ) (rand : ℕ → ℕ) (x : α) :
    BCuckooFilter → List OpK → ℕ → Option (RunAcc BCuckooFilter)
  | F, [], t => some ⟨F, t, 0, 0⟩
  | F, op :: rest, t =>
    match op with
    | .qry => runX digest hFp rand x F rest t
    | .ins =>
      match F.insert digest hFp rand x t with
      | .ok _ F1 t1 => (runX digest hFp rand x F1 rest t1).map fun r => { r with k := r.k + 1 }
      | _ => none
    | .del =>
      match F.delete digest hFp x with
      | (true, F1) => (runX digest hFp rand x F1 rest t).map fun r => { r with d := r.d + 1 }
      | (false, _) => none

/-- Observable outcome of one public operation, for comparing the two filter
variants. -/
inductive OpOut where
  | insOk (i : ℕ)
  | insCap
  | insInc
  | insIdx
  | qryR (b : Bool)
  | delR (b : Bool)
  deriving DecidableEq, Repr

/-- Trace semantics of the bit-packed variant: the list of observable
outcomes of a list of operations. -/
def traceB (digest : α → List Bool) (hFp : FP → ℕ) (rand : ℕ → ℕ) :
    BCuckooFilter → List (OpK × α) → ℕ → List OpOut × BCuckooFilter × ℕ
  | F, [], t => ([], F, t)
  | F, (op, x) :: rest, t =>
    match op with
    | .qry =>
      let r := traceB digest hFp rand F rest t
      (.qryR (F.contains digest hFp x) :: r.1, r.2)
    | .ins =>
      match F.insert digest hFp rand x t with
      | .ok i F1 t1 =>
        let r := traceB digest hFp rand F1 rest t1
        (.insOk i :: r.1, r.2)
      | .capacity F1 t1 =>
        let r := traceB digest hFp rand F1 rest t1
        (.insCap :: r.1, r.2)
      | .inconsist F1 t1 =>
        let r := traceB digest hFp rand F1 rest t1
        (.insInc :: r.1, r.2)
      | .idxErr F1 t1 =>
        let r := traceB digest hFp rand F1 rest t1
        (.insIdx :: r.1, r.2)
    | .del =>
      match F.delete digest hFp x with
      | (b, F1) =>
        let r := traceB digest hFp rand F1 rest t
        (.delR b :: r.1, r.2)

/-- Trace semantics of the list-of-buckets variant. -/
def traceL (digest : α → List Bool) (hFp : FP → ℕ) (rand : ℕ → ℕ) :
    CuckooFilter → List (OpK × α) → ℕ → List OpOut × CuckooFilter × ℕ
  | F, [], t => ([], F, t)
  | F, (op, x) :: rest, t =>
    match op with
    | .qry =>
      match F.contains digest hFp x with
      | (b, F1) =>
        let r := traceL digest hFp rand F1 rest t
        (.qryR b :: r.1, r.2)
    | .ins =>
      match F.insert digest hFp rand x t with
      | .ok i F1 t1 =>
        let r := traceL digest hFp rand F1 rest t1
        (.insOk i :: r.1, r.2)
      | .capacity F1 t1 =>
        let r := traceL digest hFp rand F1 rest t1
        (.insCap :: r.1, r.2)
      | .inconsist F1 t1 =>
        let r := traceL digest hFp rand F1 rest t1
        (.insInc :: r.1, r.2)
      | .idxErr F1 t1 =>
        let r := traceL digest hFp rand F1 rest t1
        (.insIdx :: r.1, r.2)
    | .del =>
      match F.delete digest hFp x with
      | (b, F1) =>
        let r := traceL digest hFp rand F1 rest t
        (.delR b :: r.1, r.2)

/-! ### Helper lemmas -/

theorem getD_set_self {β : Type _} (l : List β) (i : ℕ) (b d : β) (h : i < l.length) :
    (l.set i b).getD i d = b := by
  unfold List.getD
  rw [List.get?_eq_getElem?, List.getElem?_set_eq_of_lt b h]
  rfl

theorem getD_set_ne {β : Type _} (l : List β) (i j : ℕ) (b d : β) (h : i ≠ j) :
    (l.set i b).getD j d = l.getD j d := by
  unfold List.getD
  rw [List.get?_eq_getElem?, List.get?_eq_getElem?, List.getElem?_set_ne h]

theorem getD_replicate {β : Type _} (n i : ℕ) (a d : β) (h : i < n) :
    (List.replicate n a).getD i d = a := by
  unfold List.getD
  rw [List.get?_eq_getElem?, List.getElem?_replicate]
  simp [h]

theorem length_set_eq {β : Type _} (l : List β) (i : ℕ) (b : β) :
    (l.set i b).length = l.length := List.length_set l i b

theorem replaceFirst_none_iff (p : FP → Bool) (new : FP) (l : List FP) :
    replaceFirst p new l = none ↔ ∀ u ∈ l, p u = false := by
  induction l with
  | nil => simp [replaceFirst]
  | cons s rest ih =>
    by_cases hs : p s = true
    · simp [replaceFirst, hs]
    · have hs' : p s = false := by simpa using hs
      rw [replaceFirst, if_neg hs]
      constructor
      · intro h
        have hnone : replaceFirst p new rest = none := by
          cases hre : replaceFirst p new rest with
          | none => rfl
          | some r => rw [hre] at h; simp at h
        intro u hu
        rcases List.mem_cons.mp hu with rfl | hu
        · exact hs'
        · exact (ih.mp hnone) u hu
      · intro h
        have hnone : replaceFirst p new rest = none :=
          ih.mpr (fun u hu => h u (List.mem_cons_of_mem _ hu))
        rw [hnone]
        rfl

theorem replaceFirst_some (p : FP → Bool) (new : FP) (l l' : List FP)
    (h : replaceFirst p new l = some l') :
    ∃ pre s post, l = pre ++ s :: post ∧ (∀ u ∈ pre, p u = false) ∧ p s = true ∧
      l' = pre ++ new :: post := by
  induction l generalizing l' with
  | nil => simp [replaceFirst] at h
  | cons s rest ih =>
    by_cases hs : p s = true
    · refine ⟨[], s, rest, rfl, by simp, hs, ?_⟩
      rw [replaceFirst, if_pos hs] at h
      simpa using h.symm
    · have hs' : p s = false := by simpa using hs
      rw [replaceFirst, if_neg hs] at h
      cases hre : replaceFirst p new rest with
      | none => rw [hre] at h; simp at h
      | some r =>
        rw [hre] at h
        have heq : l' = s :: r := by simpa using h.symm
        obtain ⟨pre, u, post, hrest, hpre, hu, hr⟩ := ih r hre
        subst heq
        refine ⟨s :: pre, u, post, by rw [hrest]; rfl, ?_, hu, by rw [hr]; rfl⟩
        intro v hv
        rcases List.mem_cons.mp hv with rfl | hv
        · exact hs'
        · exact hpre v hv

theorem replaceFirst_length (p : FP → Bool) (new : FP) (l l' : List FP)
    (h : replaceFirst p new l = some l') : l'.length = l.length := by
  obtain ⟨pre, s, post, rfl, _, _, rfl⟩ := replaceFirst_some p new l l' h
  simp

theorem replaceFirst_ms (p : FP → Bool) (new : FP) (l l' : List FP)
    (h : replaceFirst p new l = some l') :
    ∃ (s : FP) (rest : Multiset FP), p s = true ∧
      (l : Multiset FP) = s ::ₘ rest ∧ (l' : Multiset FP) = new ::ₘ rest := by
  obtain ⟨pre, s, post, rfl, _, hs, rfl⟩ := replaceFirst_some p new l l' h
  refine ⟨s, (pre ++ post : List FP), hs, ?_, ?_⟩
  · show ((pre ++ s :: post : List FP) : Multiset FP) = _
    simp only [← Multiset.coe_add, ← Multiset.cons_coe]
    rw [Multiset.add_cons]
  · show ((pre ++ new :: post : List FP) : Multiset FP) = _
    simp only [← Multiset.coe_add, ← Multiset.cons_coe]
    rw [Multiset.add_cons]

theorem set_ms (l : List FP) (a : FP) (k : ℕ) (h : k < l.length) :
    ∃ rest : Multiset FP, (l : Multiset FP) = l.get ⟨k, h⟩ ::ₘ rest ∧
      ((l.set k a : List FP) : Multiset FP) = a ::ₘ rest := by
  induction l generalizing k with
  | nil => simp at h
  | cons x xs ih =>
    cases k with
    | zero => exact ⟨(xs : Multiset FP), by simp, by simp⟩
    | succ k =>
      obtain ⟨rest, h1, h2⟩ := ih k (by simpa using h)
      refine ⟨x ::ₘ rest, ?_, ?_⟩
      · rw [← Multiset.cons_coe, h1]
        simp [Multiset.cons_swap]
      · rw [List.set_cons_succ, ← Multiset.cons_coe, h2, Multiset.cons_swap]

@[simp] theorem setBucket_capacity (F : BCuckooFilter) (i : ℕ) (bk : List FP) :
    (F.setBucket i bk).capacity = F.capacity := rfl

@[simp] theorem setBucket_bucket_size (F : BCuckooFilter) (i : ℕ) (bk : List FP) :
    (F.setBucket i bk).bucket_size = F.bucket_size := rfl

@[simp] theorem setBucket_fingerprint_size (F : BCuckooFilter) (i : ℕ) (bk : List FP) :
    (F.setBucket i bk).fingerprint_size = F.fingerprint_size := rfl

@[simp] theorem setBucket_max_kicks (F : BCuckooFilter) (i : ℕ) (bk : List FP) :
    (F.setBucket i bk).max_kicks = F.max_kicks := rfl

@[simp] theorem setBucket_size (F : BCuckooFilter) (i : ℕ) (bk : List FP) :
    (F.setBucket i bk).size = F.size := rfl

@[simp] theorem setBucket_buckets_length (F : BCuckooFilter) (i : ℕ) (bk : List FP) :
    (F.setBucket i bk).buckets.length = F.buckets.length := by
  simp [BCuckooFilter.setBucket]

theorem bucketOf_setBucket_self (F : BCuckooFilter) (i : ℕ) (bk : List FP)
    (h : i < F.buckets.length) : (F.setBucket i bk).bucketOf i = bk :=
  getD_set_self F.buckets i bk [] h

theorem bucketOf_setBucket_ne (F : BCuckooFilter) (i j : ℕ) (bk : List FP)
    (h : i ≠ j) : (F.setBucket i bk).bucketOf j = F.bucketOf j :=
  getD_set_ne F.buckets i j bk [] h

@[simp] theorem mk0_capacity (cap b f mk : ℕ) : (BCuckooFilter.mk0 cap b f mk).capacity = cap := rfl

@[simp] theorem mk0_bucket_size (cap b f mk : ℕ) : (BCuckooFilter.mk0 cap b f mk).bucket_size = b := rfl

@[simp] theorem mk0_fingerprint_size (cap b f mk : ℕ) :
    (BCuckooFilter.mk0 cap b f mk).fingerprint_size = f := rfl

@[simp] theorem mk0_size (cap b f mk : ℕ) : (BCuckooFilter.mk0 cap b f mk).size = 0 := rfl

theorem bucketOf_mk0 (cap b f mk j : ℕ) (h : j < cap) :
    (BCuckooFilter.mk0 cap b f mk).bucketOf j = List.replicate b (zeroFp f) :=
  getD_replicate cap j _ [] h

@[simp] theorem occupied_zeroFp (f : ℕ) : occupied (zeroFp f) = false := by
  simp [occupied, zeroFp, List.count_replicate]

theorem index_lt (digest : α → List Bool) (F : BCuckooFilter) (x : α)
    (h : 0 < F.capacity) : F.index digest x < F.capacity :=
  Nat.mod_lt _ h

theorem altIndex_lt (hFp : FP → ℕ) (F : BCuckooFilter) (i : ℕ) (fp : FP)
    (h : 0 < F.capacity) : F.altIndex hFp i fp < F.capacity :=
  Nat.mod_lt _ h

/-! ### C8: behavior on the all-zero fingerprint -/

/-- C8: for any item whose computed fingerprint is the all-zero bit string,
`contains` returns `True` on a freshly constructed empty filter, and `delete`
on the empty filter returns `True` and decrements `size`. -/
theorem c8_all_zero_fingerprint {α : Type} (digest : α → List Bool) (hFp : FP → ℕ)
    (cap b f mk : ℕ) (x : α) (hcap : 0 < cap) (hb : 0 < b)
    (hfp : (BCuckooFilter.mk0 cap b f mk).fingerprint digest x = zeroFp f) :
    (BCuckooFilter.mk0 cap b f mk).contains digest hFp x = true ∧
    ((BCuckooFilter.mk0 cap b f mk).delete digest hFp x).1 = true ∧
    ((BCuckooFilter.mk0 cap b f mk).delete digest hFp x).2.size =
      (BCuckooFilter.mk0 cap b f mk).size - 1 := by
  set F0 := BCuckooFilter.mk0 cap b f mk with hF0
  have hi1 : F0.index digest x < cap := index_lt digest F0 x hcap
  have hbk : F0.bucketOf (F0.index digest x) = List.replicate b (zeroFp f) :=
    bucketOf_mk0 cap b f mk _ hi1
  obtain ⟨m, rfl⟩ : ∃ m, b = m + 1 := ⟨b - 1, (Nat.succ_pred_eq_of_pos hb).symm⟩
  have hinc : F0.includeFp (F0.fingerprint digest x) (F0.index digest x) = true := by
    rw [BCuckooFilter.includeFp, hbk, hfp]
    simp [List.mem_replicate]
  have hdel : F0.deleteFp (F0.fingerprint digest x) (F0.index digest x) =
      (true, F0.setBucket (F0.index digest x) (zeroFp f :: List.replicate m (zeroFp f))) := by
    rw [BCuckooFilter.deleteFp, hbk, hfp, List.replicate_succ, replaceFirst,
      if_pos (by simp)]
    rfl
  refine ⟨?_, ?_, ?_⟩
  · rw [BCuckooFilter.contains]
    simp [hinc]
  · rw [BCuckooFilter.delete, hdel]
  · rw [BCuckooFilter.delete, hdel]
    rfl

/-- Witness for C8 at a concrete instance. -/
theorem c8_all_zero_fingerprint_witness :
    ((BCuckooFilter.mk0 1 1 1 0).fingerprint (fun _ : ℕ => [false]) 0 = zeroFp 1) ∧
    ((BCuckooFilter.mk0 1 1 1 0).contains (fun _ : ℕ => [false]) (fun _ => 0) 0 = true ∧
     ((BCuckooFilter.mk0 1 1 1 0).delete (fun _ : ℕ => [false]) (fun _ => 0) 0).1 = true ∧
     ((BCuckooFilter.mk0 1 1 1 0).delete (fun _ : ℕ => [false]) (fun _ => 0) 0).2.size =
       (BCuckooFilter.mk0 1 1 1 0).size - 1) :=
  ⟨by decide,
   c8_all_zero_fingerprint (fun _ : ℕ => [false]) (fun _ => 0) 1 1 1 0 0
     (by decide) (by decide) (by decide)⟩

/-! ### C9: frame property of contains and failed delete -/

/-- C9: `BCuckooFilter.contains` leaves the state (bit vector and size)
unchanged — the method performs no write, so its state-transformer embedding
returns the state as is — and a `BCuckooFilter.delete` call that returns
`False` also leaves the state unchanged. -/
theorem c9_contains_delete_frame {α : Type} (digest : α → List Bool) (hFp : FP → ℕ)
    (F : BCuckooFilter) (x : α) :
    (F.containsOp digest hFp x).2 = F ∧
    ((F.delete digest hFp x).1 = false → (F.delete digest hFp x).2 = F) := by
  refine ⟨rfl, ?_⟩
  intro h
  cases h1 : F.deleteFp (F.fingerprint digest x) (F.index digest x) with
  | mk b1 F1 =>
    cases b1 with
    | true =>
      have : (F.delete digest hFp x).1 = true := by
        rw [BCuckooFilter.delete, h1]
      rw [h] at this
      exact absurd this (by simp)
    | false =>
      cases h2 : F.deleteFp (F.fingerprint digest x)
          (F.altIndex hFp (F.index digest x) (F.fingerprint digest x)) with
      | mk b2 F2 =>
        cases b2 with
        | true =>
          have : (F.delete digest hFp x).1 = true := by
            rw [BCuckooFilter.delete, h1, h2]
          rw [h] at this
          exact absurd this (by simp)
        | false =>
          rw [BCuckooFilter.delete, h1, h2]

/-- Witness for C9 at a concrete instance. -/
theorem c9_contains_delete_frame_witness :
    ((BCuckooFilter.mk0 1 1 1 0).delete (fun _ : ℕ => [true]) (fun _ => 0) 0).1 = false ∧
    ((BCuckooFilter.mk0 1 1 1 0).delete (fun _ : ℕ => [true]) (fun _ => 0) 0).2 =
      BCuckooFilter.mk0 1 1 1 0 ∧
    ((BCuckooFilter.mk0 1 1 1 0).containsOp (fun _ : ℕ => [true]) (fun _ => 0) 0).2 =
      BCuckooFilter.mk0 1 1 1 0 :=
  ⟨by decide,
   (c9_contains_delete_frame (fun _ : ℕ => [true]) (fun _ => 0)
     (BCuckooFilter.mk0 1 1 1 0) 0).2 (by decide),
   (c9_contains_delete_frame (fun _ : ℕ => [true]) (fun _ => 0)
     (BCuckooFilter.mk0 1 1 1 0) 0).1⟩

/-! ### C7: load_factor -/

/-- C7 counterexample: `load_factor` does not return exactly
`size / (capacity * bucket_size)` — at `size = 1`, `capacity = 3`,
`bucket_size = 4` the code rounds `1/12` to four decimal places
(`round(..., 4)`), and no integer over `10^4` equals `1/12`. -/
theorem c7_counterexample :
    (⟨3, 4, 1, 500, 1, List.replicate 3 (List.replicate 4 (zeroFp 1))⟩ :
        BCuckooFilter).load_factor ≠
    ((⟨3, 4, 1, 500, 1, List.replicate 3 (List.replicate 4 (zeroFp 1))⟩ :
        BCuckooFilter).size : ℚ) /
      (((⟨3, 4, 1, 500, 1, List.replicate 3 (List.replicate 4 (zeroFp 1))⟩ :
        BCuckooFilter).capacity : ℚ) *
       ((⟨3, 4, 1, 500, 1, List.replicate 3 (List.replicate 4 (zeroFp 1))⟩ :
        BCuckooFilter).bucket_size : ℚ)) := by
  intro h
  rw [BCuckooFilter.load_factor] at h
  have key : ∀ z : ℤ, ((z : ℚ) / 10000) ≠ 1 / 12 := by
    intro z hz
    rw [div_eq_div_iff (by norm_num) (by norm_num)] at hz
    have hz12 : (z * 12 : ℤ) = 10000 := by exact_mod_cast hz
    omega
  apply key (round
    (((⟨3, 4, 1, 500, 1, List.replicate 3 (List.replicate 4 (zeroFp 1))⟩ :
        BCuckooFilter).size : ℚ) /
      (((⟨3, 4, 1, 500, 1, List.replicate 3 (List.replicate 4 (zeroFp 1))⟩ :
        BCuckooFilter).capacity : ℚ) *
       ((⟨3, 4, 1, 500, 1, List.replicate 3 (List.replicate 4 (zeroFp 1))⟩ :
        BCuckooFilter).bucket_size : ℚ)) * 10000))
  rw [h]
  norm_num

/-- C7 (amended): `load_factor()` returns `size / (capacity * bucket_size)`
rounded to four decimal places — hence within `1/20000` of the exact ratio —
and the returned value lies in `[0, 1]` whenever
`0 ≤ size ≤ capacity * bucket_size`. -/
theorem c7_load_factor_rounded (F : BCuckooFilter) (h0 : 0 ≤ F.size)
    (h1 : F.size ≤ (F.capacity : ℤ) * (F.bucket_size : ℤ)) :
    0 ≤ F.load_factor ∧ F.load_factor ≤ 1 ∧
    |F.load_factor - (F.size : ℚ) / ((F.capacity : ℚ) * (F.bucket_size : ℚ))| ≤
      1 / 20000 := by
  have hd0 : (0 : ℚ) ≤ (F.capacity : ℚ) * (F.bucket_size : ℚ) := by positivity
  set q : ℚ := (F.size : ℚ) / ((F.capacity : ℚ) * (F.bucket_size : ℚ)) with hq
  have hq0 : 0 ≤ q := by
    rcases hd0.eq_or_lt with hd | hd
    · rw [hq, ← hd, div_zero]
    · exact div_nonneg (by exact_mod_cast h0) hd.le
  have hq1 : q ≤ 1 := by
    rcases hd0.eq_or_lt with hd | hd
    · rw [hq, ← hd, div_zero]
      norm_num
    · rw [hq, div_le_one hd]
      exact_mod_cast h1
  have hlf : F.load_factor = ((round (q * 10000) : ℤ) : ℚ) / 10000 := rfl
  have hr0 : (0 : ℤ) ≤ round (q * 10000) := by
    rw [round_eq]
    apply Int.floor_nonneg.mpr
    nlinarith
  have hr1 : round (q * 10000) ≤ 10000 := by
    rw [round_eq]
    have hflt : ⌊q * 10000 + 1 / 2⌋ < 10001 := by
      apply Int.floor_lt.mpr
      push_cast
      nlinarith
    omega
  refine ⟨?_, ?_, ?_⟩
  · rw [hlf]
    apply div_nonneg _ (by norm_num)
    exact_mod_cast hr0
  · rw [hlf]
    rw [div_le_one (by norm_num)]
    exact_mod_cast hr1
  · have hdiff : F.load_factor - q =
        (((round (q * 10000) : ℤ) : ℚ) - q * 10000) / 10000 := by
      rw [hlf]
      field_simp
      ring
    rw [hdiff, abs_div]
    have habs : |(((round (q * 10000) : ℤ) : ℚ)) - q * 10000| ≤ 1 / 2 := by
      rw [abs_sub_comm]
      exact abs_sub_round (q * 10000)
    rw [abs_of_pos (by norm_num : (0 : ℚ) < 10000)]
    linarith

/-- Witness for the amended C7 at a concrete instance. -/
theorem c7_load_factor_rounded_witness :
    (0 ≤ (BCuckooFilter.mk0 2 4 1 500).size ∧
     (BCuckooFilter.mk0 2 4 1 500).size ≤
       ((BCuckooFilter.mk0 2 4 1 500).capacity : ℤ) *
         ((BCuckooFilter.mk0 2 4 1 500).bucket_size : ℤ)) ∧
    (0 ≤ (BCuckooFilter.mk0 2 4 1 500).load_factor ∧
     (BCuckooFilter.mk0 2 4 1 500).load_factor ≤ 1 ∧
     |(BCuckooFilter.mk0 2 4 1 500).load_factor -
       ((BCuckooFilter.mk0 2 4 1 500).size : ℚ) /
         (((BCuckooFilter.mk0 2 4 1 500).capacity : ℚ) *
          ((BCuckooFilter.mk0 2 4 1 500).bucket_size : ℚ))| ≤ 1 / 20000) :=
  ⟨⟨by decide, by decide⟩,
   c7_load_factor_rounded (BCuckooFilter.mk0 2 4 1 500) (by decide) (by decide)⟩

/-! ### Effect of the primitives on the state, and C6 (size accounting) -/

theorem swap_some (F : BCuckooFilter) (fp : FP) (i : ℕ) (rand : ℕ → ℕ)
    (t : ℕ) (d : FP) (F1 : BCuckooFilter) (t1 : ℕ)
    (h : F.swap fp i rand t = some (d, F1, t1)) :
    (∃ bk : List FP, F1 = F.setBucket i bk) ∧ t1 = t + 1 := by
  rw [BCuckooFilter.swap] at h
  cases hc : (List.range F.bucket_size).filter
      (fun k => (F.bucketOf i).getD k [] != fp) with
  | nil =>
    rw [hc] at h
    simp at h
  | cons c cs =>
    rw [hc] at h
    simp only [Option.some_inj, Prod.mk.injEq] at h
    exact ⟨⟨_, h.2.1.symm⟩, h.2.2.symm⟩

theorem insertFp_some (F : BCuckooFilter) (fp : FP) (i : ℕ) (F1 : BCuckooFilter)
    (h : F.insertFp fp i = some F1) : ∃ bk : List FP, F1 = F.setBucket i bk := by
  rw [BCuckooFilter.insertFp] at h
  cases hc : replaceFirst (fun s => !occupied s) fp (F.bucketOf i) with
  | none => rw [hc] at h; simp at h
  | some bk =>
    rw [hc] at h
    exact ⟨bk, by simpa using h.symm⟩

theorem findAndReplace_some (F : BCuckooFilter) (lk rp : FP) (i : ℕ)
    (F1 : BCuckooFilter) (h : F.findAndReplace lk rp i = some F1) :
    ∃ bk : List FP, F1 = F.setBucket i bk := by
  rw [BCuckooFilter.findAndReplace] at h
  cases hc : replaceFirst (· == lk) rp (F.bucketOf i) with
  | none => rw [hc] at h; simp at h
  | some bk =>
    rw [hc] at h
    exact ⟨bk, by simpa using h.symm⟩

theorem rollback_size (ps : List (FP × ℕ)) (F : BCuckooFilter) :
    (BCuckooFilter.rollback ps F).2.size = F.size := by
  induction ps generalizing F with
  | nil => rfl
  | cons a rest ih =>
    obtain ⟨fpT, iT⟩ := a
    cases rest with
    | nil => rfl
    | cons b rest2 =>
      obtain ⟨fpP, iP⟩ := b
      rw [BCuckooFilter.rollback]
      cases hf : F.findAndReplace fpP fpT iP with
      | none => rfl
      | some F1 =>
        obtain ⟨bk, rfl⟩ := findAndReplace_some F fpP fpT iP F1 hf
        rw [ih]
        simp

theorem kickLoop_size (hFp : FP → ℕ) (rand : ℕ → ℕ) (n : ℕ) (fp : FP) (i : ℕ)
    (F : BCuckooFilter) (t : ℕ) :
    (∀ Fs ts, BCuckooFilter.kickLoop hFp rand n fp i F t = .success Fs ts →
      Fs.size = F.size + 1) ∧
    (∀ Fe ps te, BCuckooFilter.kickLoop hFp rand n fp i F t = .exhausted Fe ps te →
      Fe.size = F.size) ∧
    (∀ Ff tf, BCuckooFilter.kickLoop hFp rand n fp i F t = .fail Ff tf →
      Ff.size = F.size) := by
  induction n generalizing fp i F t with
  | zero =>
    refine ⟨?_, ?_, ?_⟩
    · intro Fs ts h
      rw [BCuckooFilter.kickLoop] at h
      cases h
    · intro Fe ps te h
      rw [BCuckooFilter.kickLoop] at h
      cases h
      rfl
    · intro Ff tf h
      rw [BCuckooFilter.kickLoop] at h
      cases h
  | succ n ih =>
    refine ⟨?_, ?_, ?_⟩
    · intro Fs ts h
      rw [BCuckooFilter.kickLoop] at h
      cases hs : F.swap fp i rand t with
      | none => rw [hs] at h; cases h
      | some v =>
        obtain ⟨d, F1, t1⟩ := v
        rw [hs] at h
        obtain ⟨⟨bk, rfl⟩, rfl⟩ := swap_some F fp i rand t d F1 t1 hs
        simp only at h
        cases hi : (F.setBucket i bk).insertFp d
            ((F.setBucket i bk).altIndex hFp i d) with
        | some F2 =>
          rw [hi] at h
          cases h
          obtain ⟨bk2, rfl⟩ := insertFp_some _ d _ F2 hi
          simp
        | none =>
          rw [hi] at h
          cases hk : BCuckooFilter.kickLoop hFp rand n d
              ((F.setBucket i bk).altIndex hFp i d) (F.setBucket i bk) (t + 1) with
          | success Fs' ts' =>
            rw [hk] at h
            cases h
            have := (ih d _ (F.setBucket i bk) (t + 1)).1 _ _ hk
            simpa using this
          | exhausted Fe' ps' te' => rw [hk] at h; cases h
          | fail Ff' tf' => rw [hk] at h; cases h
    · intro Fe ps te h
      rw [BCuckooFilter.kickLoop] at h
      cases hs : F.swap fp i rand t with
      | none => rw [hs] at h; cases h
      | some v =>
        obtain ⟨d, F1, t1⟩ := v
        rw [hs] at h
        obtain ⟨⟨bk, rfl⟩, rfl⟩ := swap_some F fp i rand t d F1 t1 hs
        simp only at h
        cases hi : (F.setBucket i bk).insertFp d
            ((F.setBucket i bk).altIndex hFp i d) with
        | some F2 => rw [hi] at h; cases h
        | none =>
          rw [hi] at h
          cases hk : BCuckooFilter.kickLoop hFp rand n d
              ((F.setBucket i bk).altIndex hFp i d) (F.setBucket i bk) (t + 1) with
          | success Fs' ts' => rw [hk] at h; cases h
          | exhausted Fe' ps' te' =>
            rw [hk] at h
            cases h
            have := (ih d _ (F.setBucket i bk) (t + 1)).2.1 _ _ _ hk
            simpa using this
          | fail Ff' tf' => rw [hk] at h; cases h
    · intro Ff tf h
      rw [BCuckooFilter.kickLoop] at h
      cases hs : F.swap fp i rand t with
      | none =>
        rw [hs] at h
        cases h
        rfl
      | some v =>
        obtain ⟨d, F1, t1⟩ := v
        rw [hs] at h
        obtain ⟨⟨bk, rfl⟩, rfl⟩ := swap_some F fp i rand t d F1 t1 hs
        simp only at h
        cases hi : (F.setBucket i bk).insertFp d
            ((F.setBucket i bk).altIndex hFp i d) with
        | some F2 => rw [hi] at h; cases h
        | none =>
          rw [hi] at h
          cases hk : BCuckooFilter.kickLoop hFp rand n d
              ((F.setBucket i bk).altIndex hFp i d) (F.setBucket i bk) (t + 1) with
          | success Fs' ts' => rw [hk] at h; cases h
          | exhausted Fe' ps' te' => rw [hk] at h; cases h
          | fail Ff' tf' =>
            rw [hk] at h
            cases h
            have := (ih d _ (F.setBucket i bk) (t + 1)).2.2 _ _ hk
            simpa using this

theorem insert_path {α : Type} (digest : α → List Bool) (hFp : FP → ℕ)
    (rand : ℕ → ℕ) (F : BCuckooFilter) (x : α) (t : ℕ) :
    (∃ F1, F.insertFp (F.fingerprint digest x) (F.index digest x) = some F1 ∧
      F.insert digest hFp rand x t =
        .ok (F.index digest x) { F1 with size := F1.size + 1 } t) ∨
    (F.insertFp (F.fingerprint digest x) (F.index digest x) = none ∧
     ∃ F1, F.insertFp (F.fingerprint digest x)
        (F.altIndex hFp (F.index digest x) (F.fingerprint digest x)) = some F1 ∧
      F.insert digest hFp rand x t =
        .ok (F.altIndex hFp (F.index digest x) (F.fingerprint digest x))
          { F1 with size := F1.size + 1 } t) ∨
    (F.insertFp (F.fingerprint digest x) (F.index digest x) = none ∧
     F.insertFp (F.fingerprint digest x)
       (F.altIndex hFp (F.index digest x) (F.fingerprint digest x)) = none ∧
     ∃ idx, idx = [F.index digest x,
         F.altIndex hFp (F.index digest x) (F.fingerprint digest x)].get
           ⟨rand t % 2, by simp only [List.length_cons, List.length_nil]; omega⟩ ∧
     ((∃ Fs ts, BCuckooFilter.kickLoop hFp rand F.max_kicks
          (F.fingerprint digest x) idx F (t + 1) = .success Fs ts ∧
        F.insert digest hFp rand x t = .ok idx Fs ts) ∨
      (∃ Ff tf, BCuckooFilter.kickLoop hFp rand F.max_kicks
          (F.fingerprint digest x) idx F (t + 1) = .fail Ff tf ∧
        F.insert digest hFp rand x t = .idxErr Ff tf) ∨
      (∃ Fe ps te, BCuckooFilter.kickLoop hFp rand F.max_kicks
          (F.fingerprint digest x) idx F (t + 1) = .exhausted Fe ps te ∧
        ((∃ Fr, BCuckooFilter.rollback (((F.fingerprint digest x, idx) :: ps).reverse) Fe =
            (true, Fr) ∧ F.insert digest hFp rand x t = .capacity Fr te) ∨
         (∃ Fr, BCuckooFilter.rollback (((F.fingerprint digest x, idx) :: ps).reverse) Fe =
            (false, Fr) ∧ F.insert digest hFp rand x t = .inconsist Fr te))))) := by
  cases hp1 : F.insertFp (F.fingerprint digest x) (F.index digest x) with
  | some F1 =>
    left
    exact ⟨F1, rfl, by rw [BCuckooFilter.insert, hp1]⟩
  | none =>
    cases hp2 : F.insertFp (F.fingerprint digest x)
        (F.altIndex hFp (F.index digest x) (F.fingerprint digest x)) with
    | some F1 =>
      right; left
      exact ⟨rfl, F1, rfl, by rw [BCuckooFilter.insert, hp1, hp2]⟩
    | none =>
      right; right
      refine ⟨rfl, rfl, _, rfl, ?_⟩
      cases hk : BCuckooFilter.kickLoop hFp rand F.max_kicks (F.fingerprint digest x)
          ([F.index digest x,
            F.altIndex hFp (F.index digest x) (F.fingerprint digest x)].get
              ⟨rand t % 2, by simp only [List.length_cons, List.length_nil]; omega⟩)
          F (t + 1) with
      | success Fs ts =>
        left
        refine ⟨Fs, ts, rfl, ?_⟩
        rw [BCuckooFilter.insert, hp1, hp2]
        dsimp only
        rw [hk]
      | fail Ff tf =>
        right; left
        refine ⟨Ff, tf, rfl, ?_⟩
        rw [BCuckooFilter.insert, hp1, hp2]
        dsimp only
        rw [hk]
      | exhausted Fe ps te =>
        right; right
        refine ⟨Fe, ps, te, rfl, ?_⟩
        cases hr : BCuckooFilter.rollback
            (((F.fingerprint digest x,
              [F.index digest x,
               F.altIndex hFp (F.index digest x) (F.fingerprint digest x)].get
                ⟨rand t % 2, by simp only [List.length_cons, List.length_nil]; omega⟩) ::
              ps).reverse) Fe with
        | mk b Fr =>
          cases b with
          | true =>
            left
            refine ⟨Fr, rfl, ?_⟩
            rw [BCuckooFilter.insert, hp1, hp2]
            dsimp only
            rw [hk]
            dsimp only
            rw [hr]
          | false =>
            right
            refine ⟨Fr, rfl, ?_⟩
            rw [BCuckooFilter.insert, hp1, hp2]
            dsimp only
            rw [hk]
            dsimp only
            rw [hr]

theorem deleteFp_true (F : BCuckooFilter) (fp : FP) (i : ℕ) (F1 : BCuckooFilter)
    (h : F.deleteFp fp i = (true, F1)) : ∃ bk : List FP, F1 = F.setBucket i bk := by
  rw [BCuckooFilter.deleteFp] at h
  cases hc : replaceFirst (· == fp) (zeroFp F.fingerprint_size) (F.bucketOf i) with
  | none => rw [hc] at h; cases h
  | some bk =>
    rw [hc] at h
    cases h
    exact ⟨bk, rfl⟩

theorem deleteFp_false (F : BCuckooFilter) (fp : FP) (i : ℕ) (F1 : BCuckooFilter)
    (h : F.deleteFp fp i = (false, F1)) : F1 = F := by
  rw [BCuckooFilter.deleteFp] at h
  cases hc : replaceFirst (· == fp) (zeroFp F.fingerprint_size) (F.bucketOf i) with
  | none => rw [hc] at h; cases h; rfl
  | some bk => rw [hc] at h; cases h

theorem delete_path {α : Type} (digest : α → List Bool) (hFp : FP → ℕ)
    (F : BCuckooFilter) (x : α) :
    (∃ F1, F.deleteFp (F.fingerprint digest x) (F.index digest x) = (true, F1) ∧
      F.delete digest hFp x = (true, { F1 with size := F1.size - 1 })) ∨
    ((F.deleteFp (F.fingerprint digest x) (F.index digest x)).1 = false ∧
     ∃ F1, F.deleteFp (F.fingerprint digest x)
        (F.altIndex hFp (F.index digest x) (F.fingerprint digest x)) = (true, F1) ∧
      F.delete digest hFp x = (true, { F1 with size := F1.size - 1 })) ∨
    ((F.deleteFp (F.fingerprint digest x) (F.index digest x)).1 = false ∧
     (F.deleteFp (F.fingerprint digest x)
        (F.altIndex hFp (F.index digest x) (F.fingerprint digest x))).1 = false ∧
     F.delete digest hFp x = (false, F)) := by
  cases h1 : F.deleteFp (F.fingerprint digest x) (F.index digest x) with
  | mk b1 F1 =>
    cases b1 with
    | true =>
      left
      exact ⟨F1, rfl, by rw [BCuckooFilter.delete, h1]⟩
    | false =>
      cases h2 : F.deleteFp (F.fingerprint digest x)
          (F.altIndex hFp (F.index digest x) (F.fingerprint digest x)) with
      | mk b2 F2 =>
        cases b2 with
        | true =>
          right; left
          exact ⟨by simp [h1], F2, rfl, by rw [BCuckooFilter.delete, h1, h2]⟩
        | false =>
          right; right
          exact ⟨by simp [h1], by simp [h2], by rw [BCuckooFilter.delete, h1, h2]⟩

theorem insert_size_ok {α : Type} (digest : α → List Bool) (hFp : FP → ℕ)
    (rand : ℕ → ℕ) (F : BCuckooFilter) (x : α) (t : ℕ) (i : ℕ)
    (F1 : BCuckooFilter) (t1 : ℕ)
    (h : F.insert digest hFp rand x t = .ok i F1 t1) : F1.size = F.size + 1 := by
  rcases insert_path digest hFp rand F x t with
    ⟨F2, hp, he⟩ | ⟨_, F2, hp, he⟩ | ⟨_, _, idx, hidx, hk⟩
  · rw [he] at h
    cases h
    obtain ⟨bk, rfl⟩ := insertFp_some _ _ _ _ hp
    simp
  · rw [he] at h
    cases h
    obtain ⟨bk, rfl⟩ := insertFp_some _ _ _ _ hp
    simp
  · rcases hk with ⟨Fs, ts, hks, he⟩ | ⟨Ff, tf, hkf, he⟩ | ⟨Fe, ps, te, hke, hr⟩
    · rw [he] at h
      cases h
      exact (kickLoop_size hFp rand F.max_kicks _ _ F (t + 1)).1 _ _ hks
    · rw [he] at h
      cases h
    · rcases hr with ⟨Fr, _, he⟩ | ⟨Fr, _, he⟩ <;> rw [he] at h <;> cases h

theorem insert_size_err {α : Type} (digest : α → List Bool) (hFp : FP → ℕ)
    (rand : ℕ → ℕ) (F : BCuckooFilter) (x : α) (t : ℕ) (r : IRes BCuckooFilter)
    (h : F.insert digest hFp rand x t = r) (hnok : ∀ i F1 t1, r ≠ .ok i F1 t1) :
    r.stateOf.size = F.size := by
  rcases insert_path digest hFp rand F x t with
    ⟨F2, hp, he⟩ | ⟨_, F2, hp, he⟩ | ⟨_, _, idx, hidx, hk⟩
  · rw [he] at h
    exact absurd h.symm (hnok _ _ _)
  · rw [he] at h
    exact absurd h.symm (hnok _ _ _)
  · rcases hk with ⟨Fs, ts, hks, he⟩ | ⟨Ff, tf, hkf, he⟩ | ⟨Fe, ps, te, hke, hr⟩
    · rw [he] at h
      exact absurd h.symm (hnok _ _ _)
    · rw [he] at h
      subst h
      exact (kickLoop_size hFp rand F.max_kicks _ _ F (t + 1)).2.2 _ _ hkf
    · have heq : Fe.size = F.size :=
        (kickLoop_size hFp rand F.max_kicks _ _ F (t + 1)).2.1 _ _ _ hke
      rcases hr with ⟨Fr, hrr, he⟩ | ⟨Fr, hrr, he⟩ <;> rw [he] at h <;> subst h
      · have : Fr.size = Fe.size := by
          have := rollback_size (((F.fingerprint digest x, idx) :: ps).reverse) Fe
          rw [hrr] at this
          exact this
        rw [IRes.stateOf, this, heq]
      · have : Fr.size = Fe.size := by
          have := rollback_size (((F.fingerprint digest x, idx) :: ps).reverse) Fe
          rw [hrr] at this
          exact this
        rw [IRes.stateOf, this, heq]

theorem delete_size {α : Type} (digest : α → List Bool) (hFp : FP → ℕ)
    (F : BCuckooFilter) (x : α) :
    ((F.delete digest hFp x).1 = true →
      (F.delete digest hFp x).2.size = F.size - 1) ∧
    ((F.delete digest hFp x).1 = false → (F.delete digest hFp x).2 = F) := by
  rcases delete_path digest hFp F x with
    ⟨F1, hd, he⟩ | ⟨_, F1, hd, he⟩ | ⟨_, _, he⟩
  · rw [he]
    obtain ⟨bk, rfl⟩ := deleteFp_true _ _ _ _ hd
    refine ⟨fun _ => by simp, fun h => by cases h⟩
  · rw [he]
    obtain ⟨bk, rfl⟩ := deleteFp_true _ _ _ _ hd
    refine ⟨fun _ => by simp, fun h => by cases h⟩
  · rw [he]
    refine ⟨fun h => ?_, fun _ => rfl⟩
    simp at h

theorem runB_size {α : Type} (digest : α → List Bool) (hFp : FP → ℕ)
    (rand : ℕ → ℕ) (ops : List (OpK × α)) (F : BCuckooFilter) (t : ℕ) :
    (runB digest hFp rand F ops t).st.size =
      F.size + ((runB digest hFp rand F ops t).k : ℤ) -
        ((runB digest hFp rand F ops t).d : ℤ) := by
  induction ops generalizing F t with
  | nil =>
    simp [runB]
  | cons p rest ih =>
    obtain ⟨op, x⟩ := p
    cases op with
    | qry =>
      simp only [runB]
      have hrec := ih F t
      omega
    | ins =>
      cases hi : F.insert digest hFp rand x t with
      | ok i F1 t1 =>
        have hs : F1.size = F.size + 1 := insert_size_ok digest hFp rand F x t i F1 t1 hi
        have hrec := ih F1 t1
        simp only [runB, hi]
        push_cast
        omega
      | capacity F1 t1 =>
        have hs : F1.size = F.size := by
          have := insert_size_err digest hFp rand F x t _ hi (by intro a b c h; cases h)
          simpa [IRes.stateOf] using this
        have hrec := ih F1 t1
        simp only [runB, hi]
        omega
      | inconsist F1 t1 =>
        have hs : F1.size = F.size := by
          have := insert_size_err digest hFp rand F x t _ hi (by intro a b c h; cases h)
          simpa [IRes.stateOf] using this
        have hrec := ih F1 t1
        simp only [runB, hi]
        omega
      | idxErr F1 t1 =>
        have hs : F1.size = F.size := by
          have := insert_size_err digest hFp rand F x t _ hi (by intro a b c h; cases h)
          simpa [IRes.stateOf] using this
        have hrec := ih F1 t1
        simp only [runB, hi]
        omega
    | del =>
      cases hd : F.delete digest hFp x with
      | mk b F1 =>
        cases b with
        | true =>
          have hs : F1.size = F.size - 1 := by
            have := (delete_size digest hFp F x).1
            rw [hd] at this
            exact this rfl
          have hrec := ih F1 t
          simp only [runB, hd]
          push_cast
          omega
        | false =>
          have hs : F1 = F := by
            have := (delete_size digest hFp F x).2
            rw [hd] at this
            exact this rfl
          subst hs
          simp only [runB, hd]
          exact ih _ t

/-- C6: after any sequence of operations from construction, `size` equals the
number of `insert` calls that returned normally minus the number of `delete`
calls that returned `True`; in particular inserts that raise
(`CapacityExhausted`, or any other way out) and deletes that return `False`
leave `size` unchanged. -/
theorem c6_size_accounting {α : Type} (digest : α → List Bool) (hFp : FP → ℕ)
    (rand : ℕ → ℕ) (ops : List (OpK × α)) (cap b f mk t0 : ℕ) :
    (runB digest hFp rand (BCuckooFilter.mk0 cap b f mk) ops t0).st.size =
      ((runB digest hFp rand (BCuckooFilter.mk0 cap b f mk) ops t0).k : ℤ) -
        ((runB digest hFp rand (BCuckooFilter.mk0 cap b f mk) ops t0).d : ℤ) := by
  have := runB_size digest hFp rand ops (BCuckooFilter.mk0 cap b f mk) t0
  simpa using this

/-! ### C1: state restoration on the capacity-exhausted path -/

theorem shape_setBucket (F : BCuckooFilter) (hS : F.BucketShape) (i : ℕ)
    (bk : List FP) (h : bk.length = F.bucket_size) :
    (F.setBucket i bk).BucketShape := by
  obtain ⟨h1, h2⟩ := hS
  refine ⟨by simpa using h1, ?_⟩
  intro bk' hmem
  rcases List.mem_or_eq_of_mem_set hmem with hmem | rfl
  · simpa using h2 bk' hmem
  · simpa using h

theorem shape_bucketOf_length (F : BCuckooFilter) (hS : F.BucketShape) (i : ℕ)
    (hi : i < F.capacity) : (F.bucketOf i).length = F.bucket_size := by
  obtain ⟨h1, h2⟩ := hS
  have hlt : i < F.buckets.length := by rw [h1]; exact hi
  have : F.bucketOf i ∈ F.buckets := by
    rw [BCuckooFilter.bucketOf]
    unfold List.getD
    rw [List.get?_eq_getElem?, List.getElem?_eq_getElem hlt]
    exact List.getElem_mem _
  exact h2 _ this

theorem swap_ms (F : BCuckooFilter) (fp : FP) (i : ℕ) (rand : ℕ → ℕ) (t : ℕ)
    (d : FP) (F1 : BCuckooFilter) (t1 : ℕ)
    (hlen : (F.bucketOf i).length = F.bucket_size)
    (h : F.swap fp i rand t = some (d, F1, t1)) :
    (∃ rest : Multiset FP, F.bucketMS i = d ::ₘ rest ∧ F1.bucketMS i = fp ::ₘ rest) ∧
    (∀ j, j ≠ i → F1.bucketOf j = F.bucketOf j) ∧
    (F1.bucketOf i).length = F.bucket_size := by
  rw [BCuckooFilter.swap] at h
  cases hc : (List.range F.bucket_size).filter
      (fun k => (F.bucketOf i).getD k [] != fp) with
  | nil =>
    rw [hc] at h
    simp at h
  | cons c cs =>
    rw [hc] at h
    simp only [Option.some_inj, Prod.mk.injEq] at h
    obtain ⟨hd, hF1, ht⟩ := h
    set k := (c :: cs).get ⟨rand t % (c :: cs).length, Nat.mod_lt _ (Nat.succ_pos _)⟩ with hk
    have hkmem : k ∈ c :: cs := List.get_mem _ _ _
    have hkr : k ∈ (List.range F.bucket_size).filter
        (fun k => (F.bucketOf i).getD k [] != fp) := by rw [hc]; exact hkmem
    have hklt : k < F.bucket_size := by
      have := List.mem_filter.mp hkr
      simpa using List.mem_range.mp this.1
    have hklen : k < (F.bucketOf i).length := by rw [hlen]; exact hklt
    have hilt : i < F.buckets.length := by
      by_contra hge
      have : F.bucketOf i = [] := by
        rw [BCuckooFilter.bucketOf]
        exact List.getD_eq_default _ _ (by omega)
      rw [this] at hklen
      simp at hklen
    have hget : (F.bucketOf i).getD k [] = (F.bucketOf i).get ⟨k, hklen⟩ := by
      unfold List.getD
      rw [List.get?_eq_getElem?, List.getElem?_eq_getElem hklen]
      rfl
    obtain ⟨rest, hr1, hr2⟩ := set_ms (F.bucketOf i) fp k hklen
    refine ⟨⟨rest, ?_, ?_⟩, ?_, ?_⟩
    · rw [BCuckooFilter.bucketMS, hr1, ← hd, hget]
    · rw [BCuckooFilter.bucketMS, ← hF1, bucketOf_setBucket_self _ _ _ hilt, hr2]
    · intro j hj
      rw [← hF1, bucketOf_setBucket_ne _ _ _ _ (fun hij => hj hij.symm)]
    · rw [← hF1, bucketOf_setBucket_self _ _ _ hilt]
      rw [List.length_set]
      exact hlen

theorem findAndReplace_ms (F : BCuckooFilter) (lk rp : FP) (i : ℕ)
    (F1 : BCuckooFilter) (h : F.findAndReplace lk rp i = some F1) :
    (∃ rest : Multiset FP, F.bucketMS i = lk ::ₘ rest ∧ F1.bucketMS i = rp ::ₘ rest) ∧
    (∀ j, j ≠ i → F1.bucketOf j = F.bucketOf j) := by
  rw [BCuckooFilter.findAndReplace] at h
  cases hc : replaceFirst (· == lk) rp (F.bucketOf i) with
  | none => rw [hc] at h; simp at h
  | some bk =>
    rw [hc] at h
    have hF1 : F1 = F.setBucket i bk := by simpa using h.symm
    obtain ⟨s, rest, hs, hms1, hms2⟩ := replaceFirst_ms _ _ _ _ hc
    have hslk : s = lk := by simpa using hs
    subst hslk
    have hne : F.bucketOf i ≠ [] := by
      intro hnil
      rw [hnil] at hc
      simp [replaceFirst] at hc
    have hilt : i < F.buckets.length := by
      by_contra hge
      exact hne (by
        rw [BCuckooFilter.bucketOf]
        exact List.getD_eq_default _ _ (by omega))
    refine ⟨⟨rest, hms1, ?_⟩, ?_⟩
    · rw [hF1, BCuckooFilter.bucketMS, bucketOf_setBucket_self _ _ _ hilt]
      exact hms2
    · intro j hj
      rw [hF1, bucketOf_setBucket_ne _ _ _ _ (fun hij => hj hij.symm)]

theorem rollback_cons2 (p q : FP × ℕ) (rest : List (FP × ℕ)) (F : BCuckooFilter) :
    BCuckooFilter.rollback (p :: q :: rest) F =
      match F.findAndReplace q.1 p.1 q.2 with
      | some F1 => BCuckooFilter.rollback (q :: rest) F1
      | none => (false, F) := by
  obtain ⟨a, b⟩ := p
  obtain ⟨c, d⟩ := q
  rfl

theorem rollback_single (p : FP × ℕ) (F : BCuckooFilter) :
    BCuckooFilter.rollback [p] F = (true, F) := rfl

theorem rollback_snoc (l : List (FP × ℕ)) (a b : FP × ℕ) (F : BCuckooFilter) :
    BCuckooFilter.rollback (l ++ [a, b]) F =
      match BCuckooFilter.rollback (l ++ [a]) F with
      | (true, F1) =>
        match F1.findAndReplace b.1 a.1 b.2 with
        | some F2 => (true, F2)
        | none => (false, F1)
      | (false, F1) => (false, F1) := by
  induction l generalizing F with
  | nil =>
    simp only [List.nil_append]
    rw [rollback_cons2, rollback_single]
    dsimp only
    cases hf : F.findAndReplace b.1 a.1 b.2 with
    | some F2 => rfl
    | none => rfl
  | cons c l ih =>
    cases l with
    | nil =>
      simp only [List.nil_append, List.cons_append]
      conv_lhs => rw [rollback_cons2]
      conv_rhs => rw [rollback_cons2]
      cases hf : F.findAndReplace a.1 c.1 a.2 with
      | some F1 =>
        dsimp only
        have hih := ih F1
        simp only [List.nil_append] at hih
        rw [hih]
      | none => rfl
    | cons d l2 =>
      simp only [List.cons_append]
      conv_lhs => rw [rollback_cons2]
      conv_rhs => rw [rollback_cons2]
      cases hf : F.findAndReplace d.1 c.1 d.2 with
      | some F1 =>
        dsimp only
        have hih := ih F1
        simp only [List.cons_append] at hih
        rw [hih]
      | none => rfl

theorem kick_roll (hFp : FP → ℕ) (rand : ℕ → ℕ) :
    ∀ (n : ℕ) (fp : FP) (i : ℕ) (F : BCuckooFilter) (t : ℕ)
      (Fe : BCuckooFilter) (ps : List (FP × ℕ)) (te : ℕ) (G : BCuckooFilter),
    F.BucketShape → 0 < F.capacity → i < F.capacity →
    BCuckooFilter.kickLoop hFp rand n fp i F t = .exhausted Fe ps te →
    BCuckooFilter.rollback (((fp, i) :: ps).reverse) Fe = (true, G) →
    ∀ j, G.bucketMS j = F.bucketMS j := by
  intro n
  induction n with
  | zero =>
    intro fp i F t Fe ps te G hS hcap hi hk hr j
    rw [BCuckooFilter.kickLoop] at hk
    cases hk
    simp only [List.reverse_cons, List.reverse_nil, List.nil_append] at hr
    rw [rollback_single] at hr
    cases hr
    rfl
  | succ n ih =>
    intro fp i F t Fe ps te G hS hcap hi hk hr j
    rw [BCuckooFilter.kickLoop] at hk
    cases hs : F.swap fp i rand t with
    | none =>
      rw [hs] at hk
      cases hk
    | some v =>
      obtain ⟨disp, F1, t1⟩ := v
      rw [hs] at hk
      dsimp only at hk
      cases hins : F1.insertFp disp (F1.altIndex hFp i disp) with
      | some F2 =>
        rw [hins] at hk
        cases hk
      | none =>
        rw [hins] at hk
        cases hrec : BCuckooFilter.kickLoop hFp rand n disp
            (F1.altIndex hFp i disp) F1 t1 with
        | success Fs ts => rw [hrec] at hk; cases hk
        | fail Ff tf => rw [hrec] at hk; cases hk
        | exhausted Fe2 ps2 te2 =>
          rw [hrec] at hk
          cases hk
          obtain ⟨⟨bk, hF1eq⟩, ht1⟩ := swap_some F fp i rand t disp F1 t1 hs
          have hlen : (F.bucketOf i).length = F.bucket_size :=
            shape_bucketOf_length F hS i hi
          obtain ⟨⟨rest, hms1, hms2⟩, hframe, hlen1⟩ :=
            swap_ms F fp i rand t disp F1 t1 hlen hs
          have hilt : i < F.buckets.length := by
            rw [hS.1]
            exact hi
          have hbklen : bk.length = F.bucket_size := by
            have hb := bucketOf_setBucket_self F i bk hilt
            rw [← hF1eq] at hb
            rw [← hb]
            exact hlen1
          have hS1 : F1.BucketShape := by
            rw [hF1eq]
            exact shape_setBucket F hS i bk hbklen
          have hcap1 : 0 < F1.capacity := by
            rw [hF1eq]
            simpa using hcap
          have hi2lt : F1.altIndex hFp i disp < F1.capacity :=
            altIndex_lt hFp F1 i disp hcap1
          rw [List.reverse_cons, List.reverse_cons, List.append_assoc] at hr
          have happ : ([(disp, F1.altIndex hFp i disp)] ++ [(fp, i)] : List (FP × ℕ)) =
              [(disp, F1.altIndex hFp i disp), (fp, i)] := rfl
          rw [happ, rollback_snoc] at hr
          cases hroll : BCuckooFilter.rollback
              (ps2.reverse ++ [(disp, F1.altIndex hFp i disp)]) Fe with
          | mk bflag F1r =>
            rw [hroll] at hr
            cases bflag with
            | false =>
              dsimp only at hr
              cases hr
            | true =>
              dsimp only at hr
              cases hfr : F1r.findAndReplace fp disp i with
              | none =>
                rw [hfr] at hr
                cases hr
              | some F2r =>
                rw [hfr] at hr
                cases hr
                have hihroll : BCuckooFilter.rollback
                    (((disp, F1.altIndex hFp i disp) :: ps2).reverse) Fe = (true, F1r) := by
                  rw [List.reverse_cons]
                  exact hroll
                have hmsF1r : ∀ j, F1r.bucketMS j = F1.bucketMS j :=
                  ih disp (F1.altIndex hFp i disp) F1 t1 Fe ps2 te F1r
                    hS1 hcap1 hi2lt hrec hihroll
                obtain ⟨⟨rest2, hr1, hr2⟩, hframe2⟩ :=
                  findAndReplace_ms F1r fp disp i G hfr
                by_cases hji : j = i
                · subst hji
                  have hcc : fp ::ₘ rest2 = fp ::ₘ rest := by
                    rw [← hr1, hmsF1r j, hms2]
                  have hrr : rest2 = rest := (Multiset.cons_inj_right fp).mp hcc
                  rw [hr2, hrr, ← hms1]
                · have h1 : G.bucketMS j = F1r.bucketMS j := by
                    rw [BCuckooFilter.bucketMS, BCuckooFilter.bucketMS, hframe2 j hji]
                  rw [h1, hmsF1r j, BCuckooFilter.bucketMS, BCuckooFilter.bucketMS,
                    hframe j hji]

/-- C1 counterexample: an insert that raises `CapacityException` can leave
the bit vector different from its pre-call value.  Bucket 0 holds `[A, B]`;
inserting an item with fingerprint `A` kicks `B` out of slot 1 (the only
eligible slot), and the rollback's `_find_and_replace` puts `B` back into the
first slot matching `A` — slot 0 — leaving bucket 0 as `[B, A]`. -/
theorem c1_counterexample :
    ((⟨2, 2, 2, 1, 4, [[[true, false], [false, true]], [[true, true], [true, true]]]⟩ :
        BCuckooFilter).insert (fun _ : ℕ => [true, false])
        (fun fp => if fp = [false, true] then 0 else 1) (fun _ => 0) 0 0).isCapacity = true ∧
    ((⟨2, 2, 2, 1, 4, [[[true, false], [false, true]], [[true, true], [true, true]]]⟩ :
        BCuckooFilter).insert (fun _ : ℕ => [true, false])
        (fun fp => if fp = [false, true] then 0 else 1) (fun _ => 0) 0 0).stateOf.bitVector ≠
      (⟨2, 2, 2, 1, 4, [[[true, false], [false, true]], [[true, true], [true, true]]]⟩ :
        BCuckooFilter).bitVector := by
  decide

/-- C1 (amended): when `insert` raises `CapacityException`, every bucket of
the table holds the same multiset of slot values as before the call (the bit
vector may be permuted within a bucket), and `size` is unchanged. -/
theorem c1_capacity_rollback {α : Type} (digest : α → List Bool) (hFp : FP → ℕ)
    (rand : ℕ → ℕ) (F : BCuckooFilter) (x : α) (t : ℕ) (F' : BCuckooFilter)
    (t' : ℕ) (hS : F.BucketShape) (hcap : 0 < F.capacity)
    (h : F.insert digest hFp rand x t = .capacity F' t') :
    (∀ j, F'.bucketMS j = F.bucketMS j) ∧ F'.size = F.size := by
  constructor
  · rcases insert_path digest hFp rand F x t with
      ⟨F2, hp, he⟩ | ⟨_, F2, hp, he⟩ | ⟨_, _, idx, hidx, hk⟩
    · rw [he] at h; cases h
    · rw [he] at h; cases h
    · rcases hk with ⟨Fs, ts, hks, he⟩ | ⟨Ff, tf, hkf, he⟩ | ⟨Fe, ps, te, hke, hrr⟩
      · rw [he] at h; cases h
      · rw [he] at h; cases h
      · rcases hrr with ⟨Fr, hrb, he⟩ | ⟨Fr, hrb, he⟩
        · rw [he] at h
          cases h
          have hmem : idx ∈ [F.index digest x,
              F.altIndex hFp (F.index digest x) (F.fingerprint digest x)] := by
            rw [hidx]
            exact List.get_mem _ _ _
          have hidxlt : idx < F.capacity := by
            rcases List.mem_cons.mp hmem with rfl | hmem2
            · exact index_lt digest F x hcap
            · rcases List.mem_cons.mp hmem2 with rfl | hmem3
              · exact altIndex_lt hFp F _ _ hcap
              · simp at hmem3
          exact fun j => kick_roll hFp rand F.max_kicks (F.fingerprint digest x)
            idx F (t + 1) Fe ps t' F' hS hcap hidxlt hke hrb j
        · rw [he] at h; cases h
  · have := insert_size_err digest hFp rand F x t _ h (by intro a b c hh; cases hh)
    simpa [IRes.stateOf] using this

/-- Witness for the amended C1 at the concrete capacity-exhausted run of
`c1_counterexample`. -/
theorem c1_capacity_rollback_witness :
    ((⟨2, 2, 2, 1, 4, [[[true, false], [false, true]], [[true, true], [true, true]]]⟩ :
        BCuckooFilter).BucketShape ∧
     0 < (⟨2, 2, 2, 1, 4, [[[true, false], [false, true]], [[true, true], [true, true]]]⟩ :
        BCuckooFilter).capacity ∧
     (⟨2, 2, 2, 1, 4, [[[true, false], [false, true]], [[true, true], [true, true]]]⟩ :
        BCuckooFilter).insert (fun _ : ℕ => [true, false])
        (fun fp => if fp = [false, true] then 0 else 1) (fun _ => 0) 0 0 =
       .capacity (⟨2, 2, 2, 1, 4,
         [[[false, true], [true, false]], [[true, true], [true, true]]]⟩ : BCuckooFilter) 2) ∧
    ((∀ j, (⟨2, 2, 2, 1, 4,
        [[[false, true], [true, false]], [[true, true], [true, true]]]⟩ :
          BCuckooFilter).bucketMS j =
        (⟨2, 2, 2, 1, 4, [[[true, false], [false, true]], [[true, true], [true, true]]]⟩ :
          BCuckooFilter).bucketMS j) ∧
     (⟨2, 2, 2, 1, 4, [[[false, true], [true, false]], [[true, true], [true, true]]]⟩ :
        BCuckooFilter).size =
       (⟨2, 2, 2, 1, 4, [[[true, false], [false, true]], [[true, true], [true, true]]]⟩ :
        BCuckooFilter).size) :=
  ⟨⟨⟨by decide, by decide⟩, by decide, by decide⟩,
   c1_capacity_rollback (fun _ : ℕ => [true, false])
     (fun fp => if fp = [false, true] then 0 else 1) (fun _ => 0)
     (⟨2, 2, 2, 1, 4, [[[true, false], [false, true]], [[true, true], [true, true]]]⟩ :
        BCuckooFilter) 0 0 _ 2 ⟨by decide, by decide⟩ (by decide) (by decide)⟩

/-! ### C4: over-insertion of one item hits the degenerate swap -/

/-- C4: with `capacity = 2`, `bucket_size = 1`, inserting the same item
`2 * bucket_size = 2` times fills both candidate buckets with its
fingerprint; the next insert of that item does NOT raise `CapacityException`
after rollback as the claim states — the candidate list of `_swap` is empty
and `random.choice([])` raises `IndexError` (the code's own comment calls
this \"a tricky bug\").  `contains` does still return `true` for the prior
insertions. -/
theorem c4_swap_degenerate :
    ((((BCuckooFilter.mk0 2 1 1 500).insert (fun _ : ℕ => [true, false])
          (fun fp => if fp = [true] then 1 else 0) (fun _ => 0) 0 0).stateOf.insert
          (fun _ : ℕ => [true, false]) (fun fp => if fp = [true] then 1 else 0)
          (fun _ => 0) 0 0).stateOf.insert (fun _ : ℕ => [true, false])
          (fun fp => if fp = [true] then 1 else 0) (fun _ => 0) 0 0).isIdxErr = true ∧
    ((((BCuckooFilter.mk0 2 1 1 500).insert (fun _ : ℕ => [true, false])
          (fun fp => if fp = [true] then 1 else 0) (fun _ => 0) 0 0).stateOf.insert
          (fun _ : ℕ => [true, false]) (fun fp => if fp = [true] then 1 else 0)
          (fun _ => 0) 0 0).stateOf.insert (fun _ : ℕ => [true, false])
          (fun fp => if fp = [true] then 1 else 0) (fun _ => 0) 0 0).isCapacity = false ∧
    ((((BCuckooFilter.mk0 2 1 1 500).insert (fun _ : ℕ => [true, false])
          (fun fp => if fp = [true] then 1 else 0) (fun _ => 0) 0 0).stateOf.insert
          (fun _ : ℕ => [true, false]) (fun fp => if fp = [true] then 1 else 0)
          (fun _ => 0) 0 0).stateOf.insert (fun _ : ℕ => [true, false])
          (fun fp => if fp = [true] then 1 else 0) (fun _ => 0) 0
          0).stateOf.contains (fun _ : ℕ => [true, false])
          (fun fp => if fp = [true] then 1 else 0) 0 = true := by
  refine ⟨by decide, by decide, by decide⟩

/-! ### C2: no false negatives (single-item sequences) -/

@[simp] theorem fingerprint_setBucket {α : Type} (digest : α → List Bool)
    (F : BCuckooFilter) (i : ℕ) (bk : List FP) (x : α) :
    BCuckooFilter.fingerprint digest (F.setBucket i bk) x =
      BCuckooFilter.fingerprint digest F x := rfl

@[simp] theorem index_setBucket {α : Type} (digest : α → List Bool)
    (F : BCuckooFilter) (i : ℕ) (bk : List FP) (x : α) :
    BCuckooFilter.index digest (F.setBucket i bk) x =
      BCuckooFilter.index digest F x := rfl

@[simp] theorem altIndex_setBucket (hFp : FP → ℕ) (F : BCuckooFilter)
    (i j : ℕ) (bk : List FP) (fp : FP) :
    BCuckooFilter.altIndex hFp (F.setBucket i bk) j fp =
      BCuckooFilter.altIndex hFp F j fp := rfl

@[simp] theorem fingerprint_withSize {α : Type} (digest : α → List Bool)
    (F : BCuckooFilter) (s : ℤ) (x : α) :
    BCuckooFilter.fingerprint digest { F with size := s } x =
      BCuckooFilter.fingerprint digest F x := rfl

@[simp] theorem index_withSize {α : Type} (digest : α → List Bool)
    (F : BCuckooFilter) (s : ℤ) (x : α) :
    BCuckooFilter.index digest { F with size := s } x =
      BCuckooFilter.index digest F x := rfl

@[simp] theorem altIndex_withSize (hFp : FP → ℕ) (F : BCuckooFilter)
    (s : ℤ) (j : ℕ) (fp : FP) :
    BCuckooFilter.altIndex hFp { F with size := s } j fp =
      BCuckooFilter.altIndex hFp F j fp := rfl

@[simp] theorem bucketOf_withSize (F : BCuckooFilter) (s : ℤ) (j : ℕ) :
    ({ F with size := s } : BCuckooFilter).bucketOf j = F.bucketOf j := rfl

@[simp] theorem capacity_withSize (F : BCuckooFilter) (s : ℤ) :
    ({ F with size := s } : BCuckooFilter).capacity = F.capacity := rfl

@[simp] theorem bucket_size_withSize (F : BCuckooFilter) (s : ℤ) :
    ({ F with size := s } : BCuckooFilter).bucket_size = F.bucket_size := rfl

@[simp] theorem fingerprint_size_withSize (F : BCuckooFilter) (s : ℤ) :
    ({ F with size := s } : BCuckooFilter).fingerprint_size = F.fingerprint_size := rfl

@[simp] theorem buckets_withSize (F : BCuckooFilter) (s : ℤ) :
    ({ F with size := s } : BCuckooFilter).buckets = F.buckets := rfl

theorem ne_zeroFp_of_occupied (s : FP) (f : ℕ) (h : occupied s = true) :
    s ≠ zeroFp f := by
  intro heq
  rw [heq, occupied_zeroFp] at h
  cases h

theorem candCountX_eq {α : Type} (digest : α → List Bool) (hFp : FP → ℕ)
    (x : α) (F : BCuckooFilter) :
    BCuckooFilter.candCountX digest hFp x F =
      if BCuckooFilter.index digest F x =
          BCuckooFilter.altIndex hFp F (BCuckooFilter.index digest F x)
            (BCuckooFilter.fingerprint digest F x) then
        (F.bucketOf (BCuckooFilter.index digest F x)).count
          (BCuckooFilter.fingerprint digest F x)
      else
        (F.bucketOf (BCuckooFilter.index digest F x)).count
            (BCuckooFilter.fingerprint digest F x) +
          (F.bucketOf (BCuckooFilter.altIndex hFp F (BCuckooFilter.index digest F x)
            (BCuckooFilter.fingerprint digest F x))).count
            (BCuckooFilter.fingerprint digest F x) := rfl

theorem xinv_mk0 {α : Type} (digest : α → List Bool) (hFp : FP → ℕ) (x : α)
    (cap b f mk : ℕ) (hcap : 0 < cap)
    (hocc : occupied ((BCuckooFilter.mk0 cap b f mk).fingerprint digest x) = true) :
    BCuckooFilter.XInv digest hFp x (BCuckooFilter.mk0 cap b f mk) 0 := by
  have hfpne : (BCuckooFilter.mk0 cap b f mk).fingerprint digest x ≠ zeroFp f :=
    ne_zeroFp_of_occupied _ f hocc
  refine ⟨hcap, hocc, by simp [BCuckooFilter.mk0], ?_, ?_, ?_⟩
  · intro j hj _ _
    exact bucketOf_mk0 cap b f mk j hj
  · intro j hj
    have hjlt : j < cap := by
      rcases hj with rfl | rfl
      · exact index_lt digest _ x hcap
      · exact altIndex_lt hFp _ _ _ hcap
    rw [bucketOf_mk0 cap b f mk j hjlt]
    exact ⟨by simp, fun s hs => Or.inl (List.eq_of_mem_replicate hs)⟩
  · rw [candCountX_eq]
    have hcnt : ∀ j < cap, ((BCuckooFilter.mk0 cap b f mk).bucketOf j).count
        ((BCuckooFilter.mk0 cap b f mk).fingerprint digest x) = 0 := by
      intro j hj
      rw [bucketOf_mk0 cap b f mk j hj, List.count_replicate]
      rw [if_neg (fun heq => hfpne (eq_of_beq heq).symm)]
    by_cases h12 : BCuckooFilter.index digest (BCuckooFilter.mk0 cap b f mk) x =
        BCuckooFilter.altIndex hFp (BCuckooFilter.mk0 cap b f mk)
          (BCuckooFilter.index digest (BCuckooFilter.mk0 cap b f mk) x)
          ((BCuckooFilter.mk0 cap b f mk).fingerprint digest x)
    · rw [if_pos h12]
      exact hcnt _ (index_lt digest _ x hcap)
    · rw [if_neg h12]
      rw [hcnt _ (index_lt digest _ x hcap), hcnt _ (altIndex_lt hFp _ _ _ hcap)]

theorem xinv_contains {α : Type} (digest : α → List Bool) (hFp : FP → ℕ) (x : α)
    (F : BCuckooFilter) (c : ℕ) (hinv : BCuckooFilter.XInv digest hFp x F c) :
    (F.contains digest hFp x = true ↔ 0 < c) := by
  obtain ⟨hcap, hocc, hlen, hoff, hcand, hcnt⟩ := hinv
  rw [candCountX_eq] at hcnt
  rw [BCuckooFilter.contains]
  rw [BCuckooFilter.includeFp, BCuckooFilter.includeFp]
  by_cases h12 : BCuckooFilter.index digest F x =
      BCuckooFilter.altIndex hFp F (BCuckooFilter.index digest F x)
        (BCuckooFilter.fingerprint digest F x)
  · rw [if_pos h12] at hcnt
    rw [← h12]
    subst hcnt
    rw [Bool.or_self]
    rw [decide_eq_true_iff]
    exact (List.count_pos_iff_mem).symm
  · rw [if_neg h12] at hcnt
    subst hcnt
    rw [Bool.or_eq_true, decide_eq_true_iff, decide_eq_true_iff]
    rw [← List.count_pos_iff_mem, ← List.count_pos_iff_mem]
    omega

theorem insertFp_xinv {α : Type} (digest : α → List Bool) (hFp : FP → ℕ) (x : α)
    (F : BCuckooFilter) (c : ℕ) (hinv : BCuckooFilter.XInv digest hFp x F c)
    (j : ℕ)
    (hj : j = BCuckooFilter.index digest F x ∨
      (j = BCuckooFilter.altIndex hFp F (BCuckooFilter.index digest F x)
          (BCuckooFilter.fingerprint digest F x) ∧
       BCuckooFilter.index digest F x ≠ BCuckooFilter.altIndex hFp F
         (BCuckooFilter.index digest F x) (BCuckooFilter.fingerprint digest F x)))
    (F1 : BCuckooFilter)
    (hp : F.insertFp (BCuckooFilter.fingerprint digest F x) j = some F1) :
    BCuckooFilter.XInv digest hFp x ({ F1 with size := F1.size + 1 }) (c + 1) := by
  obtain ⟨hcap, hocc, hlen, hoff, hcand, hcnt⟩ := hinv
  have hfpne : BCuckooFilter.fingerprint digest F x ≠ zeroFp F.fingerprint_size :=
    ne_zeroFp_of_occupied _ _ hocc
  rw [BCuckooFilter.insertFp] at hp
  cases hrf : replaceFirst (fun s => !occupied s)
      (BCuckooFilter.fingerprint digest F x) (F.bucketOf j) with
  | none => rw [hrf] at hp; cases hp
  | some bk =>
    rw [hrf] at hp
    have hF1 : F1 = F.setBucket j bk := by simpa using hp.symm
    obtain ⟨pre, s, post, hdecomp, hpre, hs, hbk⟩ := replaceFirst_some _ _ _ _ hrf
    have hjc : j = BCuckooFilter.index digest F x ∨
        j = BCuckooFilter.altIndex hFp F (BCuckooFilter.index digest F x)
          (BCuckooFilter.fingerprint digest F x) := by
      rcases hj with rfl | ⟨rfl, _⟩
      · exact Or.inl rfl
      · exact Or.inr rfl
    obtain ⟨hblen, hslots⟩ := hcand j hjc
    have hs_mem : s ∈ F.bucketOf j := by rw [hdecomp]; simp
    have hs_zero : s = zeroFp F.fingerprint_size := by
      rcases hslots s hs_mem with h | h
      · exact h
      · exfalso
        rw [h] at hs
        simp only [Bool.not_eq_true'] at hs
        rw [hocc] at hs
        cases hs
    have hjlt : j < F.capacity := by
      rcases hjc with rfl | rfl
      · exact index_lt digest F x hcap
      · exact altIndex_lt hFp F _ _ hcap
    have hjlen : j < F.buckets.length := by rw [hlen]; exact hjlt
    have hbkself : (F.setBucket j bk).bucketOf j = bk :=
      bucketOf_setBucket_self F j bk hjlen
    have hcountbk : bk.count (BCuckooFilter.fingerprint digest F x) =
        (F.bucketOf j).count (BCuckooFilter.fingerprint digest F x) + 1 := by
      rw [hbk, hdecomp, List.count_append, List.count_append,
        List.count_cons, List.count_cons]
      have h1 : (BCuckooFilter.fingerprint digest F x ==
          BCuckooFilter.fingerprint digest F x) = true := by simp
      have h2 : (s == BCuckooFilter.fingerprint digest F x) = false := by
        rw [hs_zero]
        exact beq_false_of_ne (fun h => hfpne h.symm)
      rw [h1, h2]
      simp only [reduceIte, Bool.false_eq_true, if_false]
      omega
    subst hF1
    refine ⟨by simpa using hcap, by simpa using hocc, by simpa using hlen,
      ?_, ?_, ?_⟩
    · intro j2 hj2 hne1 hne2
      simp only [capacity_withSize] at hj2
      simp only [setBucket_capacity] at hj2
      simp only [index_withSize] at hne1
      simp only [index_setBucket] at hne1
      simp only [altIndex_withSize, fingerprint_withSize] at hne2
      simp only [altIndex_setBucket, fingerprint_setBucket] at hne2
      have hj2j : j2 ≠ j := by
        rcases hjc with rfl | rfl
        · exact hne1
        · exact hne2
      rw [bucketOf_withSize, bucketOf_setBucket_ne F j j2 bk (fun h => hj2j h.symm)]
      simp only [bucket_size_withSize, fingerprint_size_withSize]
      simp only [setBucket_bucket_size, setBucket_fingerprint_size]
      exact hoff j2 hj2 hne1 hne2
    · intro j2 hj2
      simp only [index_withSize, altIndex_withSize, fingerprint_withSize] at hj2
      simp only [index_setBucket, altIndex_setBucket, fingerprint_setBucket] at hj2
      simp only [bucketOf_withSize, bucket_size_withSize,
        fingerprint_size_withSize, fingerprint_withSize]
      simp only [setBucket_bucket_size, setBucket_fingerprint_size,
        fingerprint_setBucket]
      by_cases hj2j : j2 = j
      · subst hj2j
        rw [hbkself]
        constructor
        · rw [hbk, hdecomp] at *
          simp only [List.length_append, List.length_cons] at hblen ⊢
          exact hblen
        · intro u hu
          rw [hbk] at hu
          rcases List.mem_append.mp hu with hu | hu
          · exact hslots u (by rw [hdecomp]; exact List.mem_append.mpr (Or.inl hu))
          · rcases List.mem_cons.mp hu with rfl | hu
            · exact Or.inr rfl
            · exact hslots u (by
                rw [hdecomp]
                exact List.mem_append.mpr (Or.inr (List.mem_cons_of_mem _ hu)))
      · rw [bucketOf_setBucket_ne F j j2 bk (fun h => hj2j h.symm)]
        exact hcand j2 hj2
    · rw [candCountX_eq]
      rw [candCountX_eq] at hcnt
      simp only [index_withSize, altIndex_withSize, fingerprint_withSize,
        bucketOf_withSize]
      simp only [index_setBucket, altIndex_setBucket, fingerprint_setBucket]
      rcases hj with rfl | ⟨rfl, hne⟩
      · by_cases h12 : BCuckooFilter.index digest F x =
            BCuckooFilter.altIndex hFp F (BCuckooFilter.index digest F x)
              (BCuckooFilter.fingerprint digest F x)
        · rw [if_pos h12] at hcnt ⊢
          rw [hbkself, hcountbk, hcnt]
        · rw [if_neg h12] at hcnt ⊢
          rw [hbkself, hcountbk,
            bucketOf_setBucket_ne F _ _ bk h12]
          omega
      · rw [if_neg hne] at hcnt ⊢
        rw [hbkself, hcountbk, bucketOf_setBucket_ne F _ _ bk (fun h => hne h.symm)]
        omega

theorem deleteFp_xinv {α : Type} (digest : α → List Bool) (hFp : FP → ℕ) (x : α)
    (F : BCuckooFilter) (c : ℕ) (hinv : BCuckooFilter.XInv digest hFp x F c)
    (j : ℕ)
    (hj : j = BCuckooFilter.index digest F x ∨
      (j = BCuckooFilter.altIndex hFp F (BCuckooFilter.index digest F x)
          (BCuckooFilter.fingerprint digest F x) ∧
       BCuckooFilter.index digest F x ≠ BCuckooFilter.altIndex hFp F
         (BCuckooFilter.index digest F x) (BCuckooFilter.fingerprint digest F x)))
    (F1 : BCuckooFilter)
    (hd : F.deleteFp (BCuckooFilter.fingerprint digest F x) j = (true, F1)) :
    ∃ c', c = c' + 1 ∧
      BCuckooFilter.XInv digest hFp x ({ F1 with size := F1.size - 1 }) c' := by
  obtain ⟨hcap, hocc, hlen, hoff, hcand, hcnt⟩ := hinv
  have hfpne : BCuckooFilter.fingerprint digest F x ≠ zeroFp F.fingerprint_size :=
    ne_zeroFp_of_occupied _ _ hocc
  rw [BCuckooFilter.deleteFp] at hd
  cases hrf : replaceFirst (· == BCuckooFilter.fingerprint digest F x)
      (zeroFp F.fingerprint_size) (F.bucketOf j) with
  | none => rw [hrf] at hd; cases hd
  | some bk =>
    rw [hrf] at hd
    have hF1 : F1 = F.setBucket j bk := by
      have := hd
      simp only [Prod.mk.injEq] at this
      exact this.2.symm
    obtain ⟨pre, s, post, hdecomp, hpre, hs, hbk⟩ := replaceFirst_some _ _ _ _ hrf
    have hs_fp : s = BCuckooFilter.fingerprint digest F x := eq_of_beq hs
    have hjc : j = BCuckooFilter.index digest F x ∨
        j = BCuckooFilter.altIndex hFp F (BCuckooFilter.index digest F x)
          (BCuckooFilter.fingerprint digest F x) := by
      rcases hj with rfl | ⟨rfl, _⟩
      · exact Or.inl rfl
      · exact Or.inr rfl
    obtain ⟨hblen, hslots⟩ := hcand j hjc
    have hjlt : j < F.capacity := by
      rcases hjc with rfl | rfl
      · exact index_lt digest F x hcap
      · exact altIndex_lt hFp F _ _ hcap
    have hjlen : j < F.buckets.length := by rw [hlen]; exact hjlt
    have hbkself : (F.setBucket j bk).bucketOf j = bk :=
      bucketOf_setBucket_self F j bk hjlen
    have hcountbk : (F.bucketOf j).count (BCuckooFilter.fingerprint digest F x) =
        bk.count (BCuckooFilter.fingerprint digest F x) + 1 := by
      rw [hbk, hdecomp, List.count_append, List.count_append,
        List.count_cons, List.count_cons]
      have h1 : (s == BCuckooFilter.fingerprint digest F x) = true := hs
      have h2 : (zeroFp F.fingerprint_size ==
          BCuckooFilter.fingerprint digest F x) = false :=
        beq_false_of_ne (fun h => hfpne h.symm)
      rw [h1, h2]
      simp only [reduceIte, Bool.false_eq_true, if_false]
      omega
    subst hF1
    have hxinv : ∀ c', BCuckooFilter.candCountX digest hFp x
        ({ F.setBucket j bk with size := (F.setBucket j bk).size - 1 }) = c' →
        BCuckooFilter.XInv digest hFp x
          ({ F.setBucket j bk with size := (F.setBucket j bk).size - 1 }) c' := by
      intro c' hc'
      refine ⟨by simpa using hcap, by simpa using hocc, by simpa using hlen,
        ?_, ?_, hc'⟩
      · intro j2 hj2 hne1 hne2
        simp only [capacity_withSize] at hj2
        simp only [setBucket_capacity] at hj2
        simp only [index_withSize] at hne1
        simp only [index_setBucket] at hne1
        simp only [altIndex_withSize, fingerprint_withSize] at hne2
        simp only [altIndex_setBucket, fingerprint_setBucket] at hne2
        have hj2j : j2 ≠ j := by
          rcases hjc with rfl | rfl
          · exact hne1
          · exact hne2
        rw [bucketOf_withSize, bucketOf_setBucket_ne F j j2 bk (fun h => hj2j h.symm)]
        simp only [bucket_size_withSize, fingerprint_size_withSize]
        simp only [setBucket_bucket_size, setBucket_fingerprint_size]
        exact hoff j2 hj2 hne1 hne2
      · intro j2 hj2
        simp only [index_withSize, altIndex_withSize, fingerprint_withSize] at hj2
        simp only [index_setBucket, altIndex_setBucket, fingerprint_setBucket] at hj2
        simp only [bucketOf_withSize, bucket_size_withSize,
          fingerprint_size_withSize, fingerprint_withSize]
        simp only [setBucket_bucket_size, setBucket_fingerprint_size,
          fingerprint_setBucket]
        by_cases hj2j : j2 = j
        · subst hj2j
          rw [hbkself]
          constructor
          · rw [hbk, hdecomp] at *
            simp only [List.length_append, List.length_cons] at hblen ⊢
            exact hblen
          · intro u hu
            rw [hbk] at hu
            rcases List.mem_append.mp hu with hu | hu
            · exact hslots u (by rw [hdecomp]; exact List.mem_append.mpr (Or.inl hu))
            · rcases List.mem_cons.mp hu with rfl | hu
              · exact Or.inl rfl
              · exact hslots u (by
                  rw [hdecomp]
                  exact List.mem_append.mpr (Or.inr (List.mem_cons_of_mem _ hu)))
        · rw [bucketOf_setBucket_ne F j j2 bk (fun h => hj2j h.symm)]
          exact hcand j2 hj2
    rw [candCountX_eq] at hcnt
    have hcc : BCuckooFilter.candCountX digest hFp x
        ({ F.setBucket j bk with size := (F.setBucket j bk).size - 1 }) + 1 = c := by
      rw [candCountX_eq]
      simp only [index_withSize, altIndex_withSize, fingerprint_withSize,
        bucketOf_withSize]
      simp only [index_setBucket, altIndex_setBucket, fingerprint_setBucket]
      rcases hj with rfl | ⟨rfl, hne⟩
      · by_cases h12 : BCuckooFilter.index digest F x =
            BCuckooFilter.altIndex hFp F (BCuckooFilter.index digest F x)
              (BCuckooFilter.fingerprint digest F x)
        · rw [if_pos h12] at hcnt ⊢
          rw [hbkself, ← hcnt, hcountbk]
        · rw [if_neg h12] at hcnt ⊢
          rw [hbkself, bucketOf_setBucket_ne F _ _ bk h12]
          omega
      · rw [if_neg hne] at hcnt ⊢
        rw [hbkself, bucketOf_setBucket_ne F _ _ bk (fun h => hne h.symm)]
        omega
    exact ⟨_, hcc.symm, hxinv _ rfl⟩

theorem getD_mem {β : Type _} (l : List β) (k : ℕ) (d : β) (h : k < l.length) :
    l.getD k d ∈ l := by
  unfold List.getD
  rw [List.get?_eq_getElem?, List.getElem?_eq_getElem h]
  exact List.getElem_mem _

theorem insertFp_none_replaceFirst (F : BCuckooFilter) (fp : FP) (i : ℕ)
    (h : F.insertFp fp i = none) :
    replaceFirst (fun s => !occupied s) fp (F.bucketOf i) = none := by
  rw [BCuckooFilter.insertFp] at h
  cases hc : replaceFirst (fun s => !occupied s) fp (F.bucketOf i) with
  | none => rfl
  | some bk => rw [hc] at h; cases h

theorem xinv_insert_ok {α : Type} (digest : α → List Bool) (hFp : FP → ℕ)
    (rand : ℕ → ℕ) (x : α) (F : BCuckooFilter) (t c : ℕ)
    (hinv : BCuckooFilter.XInv digest hFp x F c) :
    ∀ i F' t', F.insert digest hFp rand x t = .ok i F' t' →
      BCuckooFilter.XInv digest hFp x F' (c + 1) := by
  intro i F' t' h
  rcases insert_path digest hFp rand F x t with
    ⟨F1, hp, he⟩ | ⟨hp1, F1, hp, he⟩ | ⟨hp1, hp2, idx, hidx, hk⟩
  · rw [he] at h
    cases h
    exact insertFp_xinv digest hFp x F c hinv _ (Or.inl rfl) F1 hp
  · rw [he] at h
    cases h
    have hne : BCuckooFilter.index digest F x ≠
        BCuckooFilter.altIndex hFp F (BCuckooFilter.index digest F x)
          (BCuckooFilter.fingerprint digest F x) := by
      intro heq
      rw [← heq] at hp
      rw [hp1] at hp
      cases hp
    exact insertFp_xinv digest hFp x F c hinv _ (Or.inr ⟨rfl, hne⟩) F1 hp
  · exfalso
    obtain ⟨hcap, hocc, hlen, hoff, hcand, hcnt⟩ := hinv
    have hmem : idx ∈ [BCuckooFilter.index digest F x,
        BCuckooFilter.altIndex hFp F (BCuckooFilter.index digest F x)
          (BCuckooFilter.fingerprint digest F x)] := by
      rw [hidx]
      exact List.get_mem _ _ _
    have hidxc : idx = BCuckooFilter.index digest F x ∨
        idx = BCuckooFilter.altIndex hFp F (BCuckooFilter.index digest F x)
          (BCuckooFilter.fingerprint digest F x) := by
      rcases List.mem_cons.mp hmem with rfl | hmem2
      · exact Or.inl rfl
      · rcases List.mem_cons.mp hmem2 with rfl | hmem3
        · exact Or.inr rfl
        · simp at hmem3
    have hallfp : ∀ u ∈ F.bucketOf idx, u = BCuckooFilter.fingerprint digest F x := by
      have hrfnone : replaceFirst (fun s => !occupied s)
          (BCuckooFilter.fingerprint digest F x) (F.bucketOf idx) = none := by
        rcases hidxc with rfl | rfl
        · exact insertFp_none_replaceFirst F _ _ hp1
        · exact insertFp_none_replaceFirst F _ _ hp2
      have hallocc := (replaceFirst_none_iff _ _ _).mp hrfnone
      intro u hu
      rcases (hcand idx hidxc).2 u hu with h0 | h0
      · exfalso
        have := hallocc u hu
        rw [h0] at this
        simp at this
      · exact h0
    have hblen : (F.bucketOf idx).length = F.bucket_size := (hcand idx hidxc).1
    have hswapnone : ∀ t2, F.swap (BCuckooFilter.fingerprint digest F x) idx rand t2 = none := by
      intro t2
      rw [BCuckooFilter.swap]
      have hfil : (List.range F.bucket_size).filter
          (fun k => (F.bucketOf idx).getD k [] !=
            BCuckooFilter.fingerprint digest F x) = [] := by
        apply List.filter_eq_nil_iff.mpr
        intro k hk
        have hklt : k < (F.bucketOf idx).length := by
          rw [hblen]
          exact List.mem_range.mp hk
        have heq : (F.bucketOf idx).getD k [] = BCuckooFilter.fingerprint digest F x :=
          hallfp _ (getD_mem _ k [] hklt)
        rw [heq]
        simp
      rw [hfil]
    rcases hk with ⟨Fs, ts, hks, he⟩ | ⟨Ff, tf, hkf, he⟩ | ⟨Fe, ps, te, hke, hrr⟩
    · cases hmk : F.max_kicks with
      | zero =>
        rw [hmk, BCuckooFilter.kickLoop] at hks
        cases hks
      | succ n =>
        rw [hmk, BCuckooFilter.kickLoop, hswapnone (t + 1)] at hks
        cases hks
    · rw [he] at h
      cases h
    · rcases hrr with ⟨Fr, hrb, he⟩ | ⟨Fr, hrb, he⟩ <;> rw [he] at h <;> cases h

theorem xinv_delete_true {α : Type} (digest : α → List Bool) (hFp : FP → ℕ)
    (x : α) (F : BCuckooFilter) (c : ℕ)
    (hinv : BCuckooFilter.XInv digest hFp x F c) :
    ∀ F', F.delete digest hFp x = (true, F') →
      ∃ c', c = c' + 1 ∧ BCuckooFilter.XInv digest hFp x F' c' := by
  intro F' h
  rcases delete_path digest hFp F x with
    ⟨F1, hd, he⟩ | ⟨hd1, F1, hd, he⟩ | ⟨_, _, he⟩
  · rw [he] at h
    cases h
    exact deleteFp_xinv digest hFp x F c hinv _ (Or.inl rfl) F1 hd
  · rw [he] at h
    cases h
    have hne : BCuckooFilter.index digest F x ≠
        BCuckooFilter.altIndex hFp F (BCuckooFilter.index digest F x)
          (BCuckooFilter.fingerprint digest F x) := by
      intro heq
      rw [← heq] at hd
      rw [hd] at hd1
      cases hd1
    exact deleteFp_xinv digest hFp x F c hinv _ (Or.inr ⟨rfl, hne⟩) F1 hd
  · rw [he] at h
    cases h

theorem runX_cons_qry {α : Type} (digest : α → List Bool) (hFp : FP → ℕ)
    (rand : ℕ → ℕ) (x : α) (F : BCuckooFilter) (rest : List OpK) (t : ℕ) :
    runX digest hFp rand x F (OpK.qry :: rest) t =
      runX digest hFp rand x F rest t := by
  rw [runX]

theorem runX_cons_ins_ok {α : Type} (digest : α → List Bool) (hFp : FP → ℕ)
    (rand : ℕ → ℕ) (x : α) (F : BCuckooFilter) (rest : List OpK) (t : ℕ)
    (i : ℕ) (F1 : BCuckooFilter) (t1 : ℕ)
    (hi : F.insert digest hFp rand x t = .ok i F1 t1) :
    runX digest hFp rand x F (OpK.ins :: rest) t =
      (runX digest hFp rand x F1 rest t1).map fun r => { r with k := r.k + 1 } := by
  rw [runX, hi]

theorem runX_cons_ins_err {α : Type} (digest : α → List Bool) (hFp : FP → ℕ)
    (rand : ℕ → ℕ) (x : α) (F : BCuckooFilter) (rest : List OpK) (t : ℕ)
    (r : IRes BCuckooFilter) (hi : F.insert digest hFp rand x t = r)
    (hnok : ∀ i F1 t1, r ≠ .ok i F1 t1) :
    runX digest hFp rand x F (OpK.ins :: rest) t = none := by
  rw [runX, hi]
  cases r with
  | ok i F1 t1 => exact absurd rfl (hnok i F1 t1)
  | capacity F1 t1 => rfl
  | inconsist F1 t1 => rfl
  | idxErr F1 t1 => rfl

theorem runX_cons_del_true {α : Type} (digest : α → List Bool) (hFp : FP → ℕ)
    (rand : ℕ → ℕ) (x : α) (F : BCuckooFilter) (rest : List OpK) (t : ℕ)
    (F1 : BCuckooFilter) (hd : F.delete digest hFp x = (true, F1)) :
    runX digest hFp rand x F (OpK.del :: rest) t =
      (runX digest hFp rand x F1 rest t).map fun r => { r with d := r.d + 1 } := by
  rw [runX, hd]

theorem runX_cons_del_false {α : Type} (digest : α → List Bool) (hFp : FP → ℕ)
    (rand : ℕ → ℕ) (x : α) (F : BCuckooFilter) (rest : List OpK) (t : ℕ)
    (F1 : BCuckooFilter) (hd : F.delete digest hFp x = (false, F1)) :
    runX digest hFp rand x F (OpK.del :: rest) t = none := by
  rw [runX, hd]

theorem runX_inv {α : Type} (digest : α → List Bool) (hFp : FP → ℕ)
    (rand : ℕ → ℕ) (x : α) :
    ∀ (ops : List OpK) (F : BCuckooFilter) (t c : ℕ),
    BCuckooFilter.XInv digest hFp x F c →
    ∀ r, runX digest hFp rand x F ops t = some r →
    ∃ c', BCuckooFilter.XInv digest hFp x r.st c' ∧ c' + r.d = c + r.k := by
  intro ops
  induction ops with
  | nil =>
    intro F t c hinv r h
    rw [runX] at h
    cases h
    exact ⟨c, hinv, rfl⟩
  | cons op rest ih =>
    intro F t c hinv r h
    cases op with
    | qry =>
      rw [runX_cons_qry digest hFp rand x F rest t] at h
      exact ih F t c hinv r h
    | ins =>
      cases hi : F.insert digest hFp rand x t with
      | ok i F1 t1 =>
        rw [runX_cons_ins_ok digest hFp rand x F rest t i F1 t1 hi] at h
        obtain ⟨r1, hr1, hr⟩ := Option.map_eq_some'.mp h
        obtain ⟨c1, hinv1, hc1⟩ := ih F1 t1 (c + 1)
          (xinv_insert_ok digest hFp rand x F t c hinv i F1 t1 hi) r1 hr1
        subst hr
        exact ⟨c1, hinv1, by simp; omega⟩
      | capacity F1 t1 =>
        rw [runX_cons_ins_err digest hFp rand x F rest t _ hi
          (by intro a b c2 hh; cases hh)] at h
        cases h
      | inconsist F1 t1 =>
        rw [runX_cons_ins_err digest hFp rand x F rest t _ hi
          (by intro a b c2 hh; cases hh)] at h
        cases h
      | idxErr F1 t1 =>
        rw [runX_cons_ins_err digest hFp rand x F rest t _ hi
          (by intro a b c2 hh; cases hh)] at h
        cases h
    | del =>
      cases hd : F.delete digest hFp x with
      | mk b1 F1 =>
        cases b1 with
        | true =>
          rw [runX_cons_del_true digest hFp rand x F rest t F1 hd] at h
          obtain ⟨r1, hr1, hr⟩ := Option.map_eq_some'.mp h
          obtain ⟨c2, hceq, hinv2⟩ := xinv_delete_true digest hFp x F c hinv F1 hd
          obtain ⟨c1, hinv1, hc1⟩ := ih F1 t c2 hinv2 r1 hr1
          subst hr
          exact ⟨c1, hinv1, by simp; omega⟩
        | false =>
          rw [runX_cons_del_false digest hFp rand x F rest t F1 hd] at h
          cases h

/-- C2 counterexample: the claim fails once operations on other items are
allowed.  Items `0` and `1` share the fingerprint `[true]` and the single
bucket of a capacity-1 filter; after inserting item `0` once (`k = 1`,
`d = 0`), a successful `delete` of item `1` removes the shared fingerprint
and `contains 0` returns `false` although `d < k`. -/
theorem c2_counterexample :
    (∃ F1 t1, (BCuckooFilter.mk0 1 2 1 0).insert (fun n : ℕ => [true, n == 1])
        (fun _ => 0) (fun _ => 0) 0 0 = .ok 0 F1 t1 ∧
      ((F1.delete (fun n : ℕ => [true, n == 1]) (fun _ => 0) 1).1 = true ∧
       ((F1.delete (fun n : ℕ => [true, n == 1]) (fun _ => 0) 1).2.contains
         (fun n : ℕ => [true, n == 1]) (fun _ => 0) 0) = false)) := by
  refine ⟨⟨1, 2, 1, 0, 1, [[[true], zeroFp 1]]⟩, 0, by decide, by decide, by decide⟩

/-- C2 (amended): for a freshly constructed filter and any sequence of
insert/contains/delete operations applied to the single item `x`, whose
fingerprint is not all-zero, in which every insert returned normally (`k` of
them) and every delete returned `True` (`d` of them), `contains x` returns
`true` iff `d < k`. -/
theorem c2_no_false_negatives {α : Type} (digest : α → List Bool) (hFp : FP → ℕ)
    (rand : ℕ → ℕ) (x : α) (cap b f mk : ℕ) (ops : List OpK) (t0 : ℕ)
    (r : RunAcc BCuckooFilter) (hcap : 0 < cap)
    (hocc : occupied ((BCuckooFilter.mk0 cap b f mk).fingerprint digest x) = true)
    (h : runX digest hFp rand x (BCuckooFilter.mk0 cap b f mk) ops t0 = some r) :
    (r.st.contains digest hFp x = true ↔ r.d < r.k) := by
  obtain ⟨c', hinv, hc⟩ := runX_inv digest hFp rand x ops
    (BCuckooFilter.mk0 cap b f mk) t0 0
    (xinv_mk0 digest hFp x cap b f mk hcap hocc) r h
  rw [xinv_contains digest hFp x r.st c' hinv]
  omega

/-- Witness for the amended C2: insert the item once, then query. -/
theorem c2_no_false_negatives_witness :
    (0 < 1 ∧
     occupied ((BCuckooFilter.mk0 1 1 1 0).fingerprint (fun _ : ℕ => [true]) 0) = true ∧
     runX (fun _ : ℕ => [true]) (fun _ => 0) (fun _ => 0) 0
        (BCuckooFilter.mk0 1 1 1 0) [OpK.ins, OpK.qry] 0 =
       some ⟨⟨1, 1, 1, 0, 1, [[[true]]]⟩, 0, 1, 0⟩) ∧
    (((⟨1, 1, 1, 0, 1, [[[true]]]⟩ : BCuckooFilter).contains
        (fun _ : ℕ => [true]) (fun _ => 0) 0 = true) ↔ (0 : ℕ) < 1) :=
  ⟨⟨by decide, by decide, by decide⟩,
   c2_no_false_negatives (fun _ : ℕ => [true]) (fun _ => 0) (fun _ => 0) 0
     1 1 1 0 [OpK.ins, OpK.qry] 0 ⟨⟨1, 1, 1, 0, 1, [[[true]]]⟩, 0, 1, 0⟩
     (by decide) (by decide) (by decide)⟩

/-! ### C3: bounds on `size` -/

theorem occB_le (bk : List FP) : BCuckooFilter.occB bk ≤ bk.length :=
  List.countP_le_length occupied

theorem occCount_le (F : BCuckooFilter) (hS : F.BucketShape) :
    F.occCount ≤ F.capacity * F.bucket_size := by
  obtain ⟨h1, h2⟩ := hS
  have hb : ∀ y ∈ F.buckets.map BCuckooFilter.occB, y ≤ F.bucket_size := by
    intro y hy
    obtain ⟨bk, hbk, rfl⟩ := List.mem_map.mp hy
    calc BCuckooFilter.occB bk ≤ bk.length := occB_le bk
    _ = F.bucket_size := h2 bk hbk
  have hs := List.sum_le_card_nsmul (F.buckets.map BCuckooFilter.occB) F.bucket_size hb
  rw [BCuckooFilter.occCount]
  simpa [smul_eq_mul, h1] using hs

theorem sum_map_set {β : Type _} (g : β → ℕ) (l : List β) (i : ℕ) (b : β)
    (h : i < l.length) :
    ((l.set i b).map g).sum + g (l.get ⟨i, h⟩) = (l.map g).sum + g b := by
  induction l generalizing i with
  | nil => simp at h
  | cons a l ih =>
    cases i with
    | zero =>
      show (((a :: l).set 0 b).map g).sum + g a = ((a :: l).map g).sum + g b
      simp only [List.set_cons_zero, List.map_cons, List.sum_cons]
      omega
    | succ i =>
      have hlt : i < l.length := by simpa using h
      have hih := ih i hlt
      simp only [List.set_cons_succ, List.map_cons, List.sum_cons, List.get_cons_succ]
      omega

theorem bucketOf_get (F : BCuckooFilter) (i : ℕ) (h : i < F.buckets.length) :
    F.bucketOf i = F.buckets.get ⟨i, h⟩ := by
  rw [BCuckooFilter.bucketOf]
  unfold List.getD
  rw [List.get?_eq_getElem?, List.getElem?_eq_getElem h]
  rfl

theorem occCount_setBucket (F : BCuckooFilter) (i : ℕ) (bk : List FP)
    (h : i < F.buckets.length) :
    (F.setBucket i bk).occCount + BCuckooFilter.occB (F.bucketOf i) =
      F.occCount + BCuckooFilter.occB bk := by
  have hs := sum_map_set BCuckooFilter.occB F.buckets i bk h
  rw [bucketOf_get F i h]
  exact hs

theorem occB_set (bk : List FP) (k : ℕ) (v : FP) (h : k < bk.length) :
    BCuckooFilter.occB (bk.set k v) + (if occupied (bk.get ⟨k, h⟩) then 1 else 0) =
      BCuckooFilter.occB bk + (if occupied v then 1 else 0) := by
  induction bk generalizing k with
  | nil => simp at h
  | cons a l ih =>
    cases k with
    | zero =>
      show BCuckooFilter.occB ((a :: l).set 0 v) + (if occupied a then 1 else 0) =
        BCuckooFilter.occB (a :: l) + (if occupied v then 1 else 0)
      simp only [List.set_cons_zero, BCuckooFilter.occB, List.countP_cons]
      omega
    | succ k =>
      have hlt : k < l.length := by simpa using h
      have hih := ih k hlt
      simp only [List.set_cons_succ, List.get_cons_succ, BCuckooFilter.occB,
        List.countP_cons] at hih ⊢
      omega

theorem occCount_withSize (F : BCuckooFilter) (s : ℤ) :
    ({ F with size := s } : BCuckooFilter).occCount = F.occCount := rfl

theorem shape_withSize (F : BCuckooFilter) (s : ℤ) (h : F.BucketShape) :
    ({ F with size := s } : BCuckooFilter).BucketShape := h

theorem lt_buckets_length_of_bucketOf_ne_nil (F : BCuckooFilter) (i : ℕ)
    (h : F.bucketOf i ≠ []) : i < F.buckets.length := by
  by_contra hge
  exact h (by
    rw [BCuckooFilter.bucketOf]
    exact List.getD_eq_default _ _ (by omega))

theorem insertFp_occ (F : BCuckooFilter) (fp : FP) (i : ℕ) (F1 : BCuckooFilter)
    (h : F.insertFp fp i = some F1) (hfp : occupied fp = true) :
    F1.occCount = F.occCount + 1 ∧ (F.BucketShape → F1.BucketShape) ∧
    F1.capacity = F.capacity ∧ F1.bucket_size = F.bucket_size ∧
    F1.fingerprint_size = F.fingerprint_size := by
  rw [BCuckooFilter.insertFp] at h
  cases hc : replaceFirst (fun s => !occupied s) fp (F.bucketOf i) with
  | none => rw [hc] at h; cases h
  | some bk =>
    rw [hc] at h
    have hF1 : F1 = F.setBucket i bk := by simpa using h.symm
    obtain ⟨pre, s, post, hl, hpre, hs, hbk⟩ := replaceFirst_some _ _ _ _ hc
    have hsocc : occupied s = false := by simpa using hs
    have hne : F.bucketOf i ≠ [] := by rw [hl]; simp
    have hilt : i < F.buckets.length := lt_buckets_length_of_bucketOf_ne_nil F i hne
    have hoccb : BCuckooFilter.occB bk = BCuckooFilter.occB (F.bucketOf i) + 1 := by
      rw [hl, hbk, BCuckooFilter.occB, BCuckooFilter.occB,
        List.countP_append, List.countP_append, List.countP_cons, List.countP_cons,
        hsocc, hfp]
      simp only [reduceIte, Bool.false_eq_true, if_false]
      omega
    have hset := occCount_setBucket F i bk hilt
    subst hF1
    refine ⟨by omega, ?_, rfl, rfl, rfl⟩
    intro hS
    have hmem : F.bucketOf i ∈ F.buckets := by
      rw [bucketOf_get F i hilt]
      exact List.get_mem _ _ _
    have hlen : bk.length = F.bucket_size := by
      rw [replaceFirst_length _ _ _ _ hc]
      exact hS.2 _ hmem
    exact shape_setBucket F hS i bk hlen

theorem deleteFp_occ (F : BCuckooFilter) (fp : FP) (i : ℕ) (F1 : BCuckooFilter)
    (h : F.deleteFp fp i = (true, F1)) (hfp : occupied fp = true) :
    F1.occCount + 1 = F.occCount ∧ (F.BucketShape → F1.BucketShape) ∧
    F1.capacity = F.capacity ∧ F1.bucket_size = F.bucket_size ∧
    F1.fingerprint_size = F.fingerprint_size := by
  rw [BCuckooFilter.deleteFp] at h
  cases hc : replaceFirst (· == fp) (zeroFp F.fingerprint_size) (F.bucketOf i) with
  | none => rw [hc] at h; cases h
  | some bk =>
    rw [hc] at h
    cases h
    obtain ⟨pre, s, post, hl, hpre, hs, hbk⟩ := replaceFirst_some _ _ _ _ hc
    have hseq : s = fp := eq_of_beq hs
    subst hseq
    have hne : F.bucketOf i ≠ [] := by rw [hl]; simp
    have hilt : i < F.buckets.length := lt_buckets_length_of_bucketOf_ne_nil F i hne
    have hoccb : BCuckooFilter.occB bk + 1 = BCuckooFilter.occB (F.bucketOf i) := by
      rw [hl, hbk, BCuckooFilter.occB, BCuckooFilter.occB,
        List.countP_append, List.countP_append, List.countP_cons, List.countP_cons,
        occupied_zeroFp, hfp]
      simp only [reduceIte, Bool.false_eq_true, if_false]
      omega
    have hset := occCount_setBucket F i bk hilt
    refine ⟨by omega, ?_, rfl, rfl, rfl⟩
    intro hS
    have hmem : F.bucketOf i ∈ F.buckets := by
      rw [bucketOf_get F i hilt]
      exact List.get_mem _ _ _
    have hlen : bk.length = F.bucket_size := by
      rw [replaceFirst_length _ _ _ _ hc]
      exact hS.2 _ hmem
    exact shape_setBucket F hS i bk hlen

theorem findAndReplace_occ (F : BCuckooFilter) (lk rp : FP) (i : ℕ)
    (F1 : BCuckooFilter) (h : F.findAndReplace lk rp i = some F1)
    (hlk : occupied lk = true) (hrp : occupied rp = true) :
    F1.occCount = F.occCount ∧ (F.BucketShape → F1.BucketShape) ∧
    F1.capacity = F.capacity ∧ F1.bucket_size = F.bucket_size ∧
    F1.fingerprint_size = F.fingerprint_size := by
  rw [BCuckooFilter.findAndReplace] at h
  cases hc : replaceFirst (· == lk) rp (F.bucketOf i) with
  | none => rw [hc] at h; cases h
  | some bk =>
    rw [hc] at h
    have hF1 : F1 = F.setBucket i bk := by simpa using h.symm
    obtain ⟨pre, s, post, hl, hpre, hs, hbk⟩ := replaceFirst_some _ _ _ _ hc
    have hseq : s = lk := eq_of_beq hs
    subst hseq
    have hne : F.bucketOf i ≠ [] := by rw [hl]; simp
    have hilt : i < F.buckets.length := lt_buckets_length_of_bucketOf_ne_nil F i hne
    have hoccb : BCuckooFilter.occB bk = BCuckooFilter.occB (F.bucketOf i) := by
      rw [hl, hbk, BCuckooFilter.occB, BCuckooFilter.occB,
        List.countP_append, List.countP_append, List.countP_cons, List.countP_cons,
        hlk, hrp]
    have hset := occCount_setBucket F i bk hilt
    subst hF1
    refine ⟨by omega, ?_, rfl, rfl, rfl⟩
    intro hS
    have hmem : F.bucketOf i ∈ F.buckets := by
      rw [bucketOf_get F i hilt]
      exact List.get_mem _ _ _
    have hlen : bk.length = F.bucket_size := by
      rw [replaceFirst_length _ _ _ _ hc]
      exact hS.2 _ hmem
    exact shape_setBucket F hS i bk hlen

theorem swap_occ (F : BCuckooFilter) (fp : FP) (i : ℕ) (rand : ℕ → ℕ) (t : ℕ)
    (d : FP) (F1 : BCuckooFilter) (t1 : ℕ)
    (hlen : (F.bucketOf i).length = F.bucket_size)
    (hfull : ∀ u ∈ F.bucketOf i, occupied u = true) (hfp : occupied fp = true)
    (h : F.swap fp i rand t = some (d, F1, t1)) :
    occupied d = true ∧ F1.occCount = F.occCount ∧
    (F.BucketShape → F1.BucketShape) ∧
    F1.capacity = F.capacity ∧ F1.bucket_size = F.bucket_size ∧
    F1.fingerprint_size = F.fingerprint_size ∧ F1.size = F.size := by
  rw [BCuckooFilter.swap] at h
  cases hc : (List.range F.bucket_size).filter
      (fun k => (F.bucketOf i).getD k [] != fp) with
  | nil =>
    rw [hc] at h
    simp at h
  | cons c cs =>
    rw [hc] at h
    simp only [Option.some_inj, Prod.mk.injEq] at h
    obtain ⟨hd, hF1, ht⟩ := h
    set k := (c :: cs).get ⟨rand t % (c :: cs).length, Nat.mod_lt _ (Nat.succ_pos _)⟩ with hk
    have hkmem : k ∈ c :: cs := List.get_mem _ _ _
    have hkr : k ∈ (List.range F.bucket_size).filter
        (fun k => (F.bucketOf i).getD k [] != fp) := by rw [hc]; exact hkmem
    have hklt : k < F.bucket_size := by
      have := List.mem_filter.mp hkr
      simpa using List.mem_range.mp this.1
    have hklen : k < (F.bucketOf i).length := by rw [hlen]; exact hklt
    have hilt : i < F.buckets.length := lt_buckets_length_of_bucketOf_ne_nil F i
      (by intro hnil; rw [hnil] at hklen; simp at hklen)
    have hget : (F.bucketOf i).getD k [] = (F.bucketOf i).get ⟨k, hklen⟩ := by
      unfold List.getD
      rw [List.get?_eq_getElem?, List.getElem?_eq_getElem hklen]
      rfl
    have hdocc : occupied d = true := by
      rw [← hd, hget]
      exact hfull _ (List.get_mem _ _ _)
    have hob := occB_set (F.bucketOf i) k fp hklen
    rw [hfull _ (List.get_mem _ _ _), hfp] at hob
    have hob' : BCuckooFilter.occB ((F.bucketOf i).set k fp) =
        BCuckooFilter.occB (F.bucketOf i) := by
      simp only [reduceIte] at hob
      omega
    have hset := occCount_setBucket F i ((F.bucketOf i).set k fp) hilt
    refine ⟨hdocc, ?_, ?_, ?_, ?_, ?_, ?_⟩
    · rw [← hF1]
      omega
    · intro hS
      rw [← hF1]
      exact shape_setBucket F hS i _ (by rw [List.length_set]; exact hlen)
    · rw [← hF1]
      rfl
    · rw [← hF1]
      rfl
    · rw [← hF1]
      rfl
    · rw [← hF1]
      rfl

theorem kick_occ (hFp : FP → ℕ) (rand : ℕ → ℕ) :
    ∀ (n : ℕ) (fp : FP) (i : ℕ) (F : BCuckooFilter) (t : ℕ),
    F.BucketShape → 0 < F.capacity → i < F.capacity → occupied fp = true →
    (∀ u ∈ F.bucketOf i, occupied u = true) →
    (∀ Fs ts, BCuckooFilter.kickLoop hFp rand n fp i F t = .success Fs ts →
      Fs.occCount = F.occCount + 1 ∧ Fs.BucketShape ∧ Fs.capacity = F.capacity ∧
      Fs.bucket_size = F.bucket_size ∧ Fs.fingerprint_size = F.fingerprint_size) ∧
    (∀ Fe ps te, BCuckooFilter.kickLoop hFp rand n fp i F t = .exhausted Fe ps te →
      Fe.occCount = F.occCount ∧ Fe.BucketShape ∧ Fe.capacity = F.capacity ∧
      Fe.bucket_size = F.bucket_size ∧ Fe.fingerprint_size = F.fingerprint_size ∧
      ∀ p ∈ ps, occupied p.1 = true) ∧
    (∀ Ff tf, BCuckooFilter.kickLoop hFp rand n fp i F t = .fail Ff tf →
      Ff.occCount = F.occCount ∧ Ff.BucketShape ∧ Ff.capacity = F.capacity ∧
      Ff.bucket_size = F.bucket_size ∧ Ff.fingerprint_size = F.fingerprint_size) := by
  intro n
  induction n with
  | zero =>
    intro fp i F t hS hcap hi hfp hfull
    refine ⟨?_, ?_, ?_⟩
    · intro Fs ts h
      rw [BCuckooFilter.kickLoop] at h
      cases h
    · intro Fe ps te h
      rw [BCuckooFilter.kickLoop] at h
      cases h
      exact ⟨rfl, hS, rfl, rfl, rfl, by intro p hp; simp at hp⟩
    · intro Ff tf h
      rw [BCuckooFilter.kickLoop] at h
      cases h
  | succ n ih =>
    intro fp i F t hS hcap hi hfp hfull
    have hlen : (F.bucketOf i).length = F.bucket_size := shape_bucketOf_length F hS i hi
    cases hs : F.swap fp i rand t with
    | none =>
      refine ⟨?_, ?_, ?_⟩
      · intro Fs ts h
        rw [BCuckooFilter.kickLoop, hs] at h
        cases h
      · intro Fe ps te h
        rw [BCuckooFilter.kickLoop, hs] at h
        cases h
      · intro Ff tf h
        rw [BCuckooFilter.kickLoop, hs] at h
        cases h
        exact ⟨rfl, hS, rfl, rfl, rfl⟩
    | some v =>
      obtain ⟨disp, F1, t1⟩ := v
      obtain ⟨hdocc, hocc1, hshape1, hcap1, hbs1, hfs1, hsz1⟩ :=
        swap_occ F fp i rand t disp F1 t1 hlen hfull hfp hs
      have hS1 : F1.BucketShape := hshape1 hS
      have hcap1p : 0 < F1.capacity := by rw [hcap1]; exact hcap
      have hi2 : F1.altIndex hFp i disp < F1.capacity := altIndex_lt hFp F1 i disp hcap1p
      cases hins : F1.insertFp disp (F1.altIndex hFp i disp) with
      | some F2 =>
        obtain ⟨hocc2, hshape2, hcap2, hbs2, hfs2⟩ := insertFp_occ F1 disp _ F2 hins hdocc
        refine ⟨?_, ?_, ?_⟩
        · intro Fs ts h
          rw [BCuckooFilter.kickLoop, hs] at h
          simp only at h
          rw [hins] at h
          cases h
          refine ⟨?_, ?_, ?_, ?_, ?_⟩
          · rw [occCount_withSize]
            omega
          · exact shape_withSize F2 _ (hshape2 hS1)
          · rw [capacity_withSize, hcap2, hcap1]
          · rw [bucket_size_withSize, hbs2, hbs1]
          · rw [fingerprint_size_withSize, hfs2, hfs1]
        · intro Fe ps te h
          rw [BCuckooFilter.kickLoop, hs] at h
          simp only at h
          rw [hins] at h
          cases h
        · intro Ff tf h
          rw [BCuckooFilter.kickLoop, hs] at h
          simp only at h
          rw [hins] at h
          cases h
      | none =>
        have hfull2 : ∀ u ∈ F1.bucketOf (F1.altIndex hFp i disp), occupied u = true := by
          have hrn := (replaceFirst_none_iff _ _ _).mp
            (insertFp_none_replaceFirst F1 disp _ hins)
          intro u hu
          have hb := hrn u hu
          simpa using hb
        have hrec := ih disp (F1.altIndex hFp i disp) F1 t1 hS1 hcap1p hi2 hdocc hfull2
        refine ⟨?_, ?_, ?_⟩
        · intro Fs ts h
          rw [BCuckooFilter.kickLoop, hs] at h
          simp only at h
          rw [hins] at h
          cases hk : BCuckooFilter.kickLoop hFp rand n disp (F1.altIndex hFp i disp) F1 t1 with
          | success Fs2 ts2 =>
            rw [hk] at h
            cases h
            obtain ⟨ho, hsh, hc2, hb2, hf2⟩ := hrec.1 _ _ hk
            exact ⟨by omega, hsh, by rw [hc2, hcap1], by rw [hb2, hbs1], by rw [hf2, hfs1]⟩
          | exhausted Fe2 ps2 te2 => rw [hk] at h; cases h
          | fail Ff2 tf2 => rw [hk] at h; cases h
        · intro Fe ps te h
          rw [BCuckooFilter.kickLoop, hs] at h
          simp only at h
          rw [hins] at h
          cases hk : BCuckooFilter.kickLoop hFp rand n disp (F1.altIndex hFp i disp) F1 t1 with
          | success Fs2 ts2 => rw [hk] at h; cases h
          | exhausted Fe2 ps2 te2 =>
            rw [hk] at h
            cases h
            obtain ⟨ho, hsh, hc2, hb2, hf2, hps⟩ := hrec.2.1 _ _ _ hk
            refine ⟨by omega, hsh, by rw [hc2, hcap1], by rw [hb2, hbs1],
              by rw [hf2, hfs1], ?_⟩
            intro p hp
            rcases List.mem_cons.mp hp with rfl | hp2
            · exact hdocc
            · exact hps p hp2
          | fail Ff2 tf2 => rw [hk] at h; cases h
        · intro Ff tf h
          rw [BCuckooFilter.kickLoop, hs] at h
          simp only at h
          rw [hins] at h
          cases hk : BCuckooFilter.kickLoop hFp rand n disp (F1.altIndex hFp i disp) F1 t1 with
          | success Fs2 ts2 => rw [hk] at h; cases h
          | exhausted Fe2 ps2 te2 => rw [hk] at h; cases h
          | fail Ff2 tf2 =>
            rw [hk] at h
            cases h
            obtain ⟨ho, hsh, hc2, hb2, hf2⟩ := hrec.2.2 _ _ hk
            exact ⟨by omega, hsh, by rw [hc2, hcap1], by rw [hb2, hbs1], by rw [hf2, hfs1]⟩

theorem rollback_occ : ∀ (ps : List (FP × ℕ)) (F : BCuckooFilter),
    (∀ p ∈ ps, occupied p.1 = true) →
    (BCuckooFilter.rollback ps F).2.occCount = F.occCount ∧
    (F.BucketShape → (BCuckooFilter.rollback ps F).2.BucketShape) ∧
    (BCuckooFilter.rollback ps F).2.capacity = F.capacity ∧
    (BCuckooFilter.rollback ps F).2.bucket_size = F.bucket_size ∧
    (BCuckooFilter.rollback ps F).2.fingerprint_size = F.fingerprint_size := by
  intro ps
  induction ps with
  | nil =>
    intro F hps
    exact ⟨rfl, fun h => h, rfl, rfl, rfl⟩
  | cons a rest ih =>
    intro F hps
    obtain ⟨fpT, iT⟩ := a
    cases rest with
    | nil => exact ⟨rfl, fun h => h, rfl, rfl, rfl⟩
    | cons b rest2 =>
      obtain ⟨fpP, iP⟩ := b
      rw [BCuckooFilter.rollback]
      cases hf : F.findAndReplace fpP fpT iP with
      | none => exact ⟨rfl, fun h => h, rfl, rfl, rfl⟩
      | some F1 =>
        have hlk : occupied fpP = true := hps (fpP, iP) (by simp)
        have hrp : occupied fpT = true := hps (fpT, iT) (by simp)
        obtain ⟨ho, hsh, hc, hb, hfs⟩ := findAndReplace_occ F fpP fpT iP F1 hf hlk hrp
        have hrest : ∀ p ∈ (fpP, iP) :: rest2, occupied p.1 = true := by
          intro p hp
          exact hps p (List.mem_cons_of_mem _ hp)
        obtain ⟨ho2, hsh2, hc2, hb2, hf2⟩ := ih F1 hrest
        exact ⟨by rw [ho2, ho], fun h => hsh2 (hsh h), by rw [hc2, hc],
          by rw [hb2, hb], by rw [hf2, hfs]⟩

theorem insert_occ {α : Type} (digest : α → List Bool) (hFp : FP → ℕ)
    (rand : ℕ → ℕ) (F : BCuckooFilter) (x : α) (t : ℕ)
    (hS : F.BucketShape) (hcap : 0 < F.capacity)
    (hfp : occupied (F.fingerprint digest x) = true) :
    (∀ i F1 t1, F.insert digest hFp rand x t = .ok i F1 t1 →
      F1.occCount = F.occCount + 1 ∧ F1.BucketShape ∧ F1.capacity = F.capacity ∧
      F1.bucket_size = F.bucket_size ∧ F1.fingerprint_size = F.fingerprint_size) ∧
    (∀ r, F.insert digest hFp rand x t = r → (∀ i F1 t1, r ≠ .ok i F1 t1) →
      r.stateOf.occCount = F.occCount ∧ r.stateOf.BucketShape ∧
      r.stateOf.capacity = F.capacity ∧ r.stateOf.bucket_size = F.bucket_size ∧
      r.stateOf.fingerprint_size = F.fingerprint_size) := by
  rcases insert_path digest hFp rand F x t with
    ⟨F2, hp, he⟩ | ⟨hp1, F2, hp, he⟩ | ⟨hp1, hp2, idx, hidx, hk⟩
  · obtain ⟨ho, hsh, hc, hb, hf⟩ := insertFp_occ F _ _ F2 hp hfp
    constructor
    · intro i F1 t1 h
      rw [he] at h
      cases h
      exact ⟨by rw [occCount_withSize]; omega, shape_withSize F2 _ (hsh hS),
        by rw [capacity_withSize, hc], by rw [bucket_size_withSize, hb],
        by rw [fingerprint_size_withSize, hf]⟩
    · intro r hr hnok
      rw [he] at hr
      exact absurd hr.symm (hnok _ _ _)
  · obtain ⟨ho, hsh, hc, hb, hf⟩ := insertFp_occ F _ _ F2 hp hfp
    constructor
    · intro i F1 t1 h
      rw [he] at h
      cases h
      exact ⟨by rw [occCount_withSize]; omega, shape_withSize F2 _ (hsh hS),
        by rw [capacity_withSize, hc], by rw [bucket_size_withSize, hb],
        by rw [fingerprint_size_withSize, hf]⟩
    · intro r hr hnok
      rw [he] at hr
      exact absurd hr.symm (hnok _ _ _)
  · have hfull1 : ∀ u ∈ F.bucketOf (F.index digest x), occupied u = true := by
      have hrn := (replaceFirst_none_iff _ _ _).mp (insertFp_none_replaceFirst F _ _ hp1)
      intro u hu
      have hb := hrn u hu
      simpa using hb
    have hfull2 : ∀ u ∈ F.bucketOf
        (F.altIndex hFp (F.index digest x) (F.fingerprint digest x)),
        occupied u = true := by
      have hrn := (replaceFirst_none_iff _ _ _).mp (insertFp_none_replaceFirst F _ _ hp2)
      intro u hu
      have hb := hrn u hu
      simpa using hb
    have hmem : idx ∈ [F.index digest x,
        F.altIndex hFp (F.index digest x) (F.fingerprint digest x)] := by
      rw [hidx]
      exact List.get_mem _ _ _
    have hidxlt : idx < F.capacity := by
      rcases List.mem_cons.mp hmem with rfl | hmem2
      · exact index_lt digest F x hcap
      · rcases List.mem_cons.mp hmem2 with rfl | hmem3
        · exact altIndex_lt hFp F _ _ hcap
        · simp at hmem3
    have hfullidx : ∀ u ∈ F.bucketOf idx, occupied u = true := by
      rcases List.mem_cons.mp hmem with rfl | hmem2
      · exact hfull1
      · rcases List.mem_cons.mp hmem2 with rfl | hmem3
        · exact hfull2
        · simp at hmem3
    have hko := kick_occ hFp rand F.max_kicks (F.fingerprint digest x) idx F (t + 1)
      hS hcap hidxlt hfp hfullidx
    rcases hk with ⟨Fs, ts, hks, he⟩ | ⟨Ff, tf, hkf, he⟩ | ⟨Fe, ps, te, hke, hrr⟩
    · constructor
      · intro i F1 t1 h
        rw [he] at h
        cases h
        exact hko.1 _ _ hks
      · intro r hr hnok
        rw [he] at hr
        exact absurd hr.symm (hnok _ _ _)
    · constructor
      · intro i F1 t1 h
        rw [he] at h
        cases h
      · intro r hr hnok
        rw [he] at hr
        subst hr
        exact hko.2.2 _ _ hkf
    · obtain ⟨hoe, hse, hce, hbe, hfe, hpse⟩ := hko.2.1 _ _ _ hke
      have hall : ∀ p ∈ ((F.fingerprint digest x, idx) :: ps).reverse,
          occupied p.1 = true := by
        intro p hp
        rw [List.mem_reverse] at hp
        rcases List.mem_cons.mp hp with rfl | hp2
        · exact hfp
        · exact hpse p hp2
      have hro := rollback_occ (((F.fingerprint digest x, idx) :: ps).reverse) Fe hall
      rcases hrr with ⟨Fr, hrb, he⟩ | ⟨Fr, hrb, he⟩
      · simp only [hrb] at hro
        constructor
        · intro i F1 t1 h
          rw [he] at h
          cases h
        · intro r hr hnok
          rw [he] at hr
          subst hr
          obtain ⟨hor, hsr, hcr, hbr, hfr⟩ := hro
          exact ⟨by rw [IRes.stateOf, hor, hoe], hsr hse, by rw [IRes.stateOf, hcr, hce],
            by rw [IRes.stateOf, hbr, hbe], by rw [IRes.stateOf, hfr, hfe]⟩
      · simp only [hrb] at hro
        constructor
        · intro i F1 t1 h
          rw [he] at h
          cases h
        · intro r hr hnok
          rw [he] at hr
          subst hr
          obtain ⟨hor, hsr, hcr, hbr, hfr⟩ := hro
          exact ⟨by rw [IRes.stateOf, hor, hoe], hsr hse, by rw [IRes.stateOf, hcr, hce],
            by rw [IRes.stateOf, hbr, hbe], by rw [IRes.stateOf, hfr, hfe]⟩

theorem delete_occ {α : Type} (digest : α → List Bool) (hFp : FP → ℕ)
    (F : BCuckooFilter) (x : α) (F1 : BCuckooFilter)
    (hd : F.delete digest hFp x = (true, F1))
    (hfp : occupied (F.fingerprint digest x) = true) :
    F1.occCount + 1 = F.occCount ∧ (F.BucketShape → F1.BucketShape) ∧
    F1.capacity = F.capacity ∧ F1.bucket_size = F.bucket_size ∧
    F1.fingerprint_size = F.fingerprint_size := by
  rcases delete_path digest hFp F x with
    ⟨F2, hdf, he⟩ | ⟨hno, F2, hdf, he⟩ | ⟨hno1, hno2, he⟩
  · rw [he] at hd
    cases hd
    obtain ⟨ho, hsh, hc, hb, hf⟩ := deleteFp_occ F _ _ F2 hdf hfp
    exact ⟨by rw [occCount_withSize]; omega, fun h => shape_withSize _ _ (hsh h),
      by rw [capacity_withSize, hc], by rw [bucket_size_withSize, hb],
      by rw [fingerprint_size_withSize, hf]⟩
  · rw [he] at hd
    cases hd
    obtain ⟨ho, hsh, hc, hb, hf⟩ := deleteFp_occ F _ _ F2 hdf hfp
    exact ⟨by rw [occCount_withSize]; omega, fun h => shape_withSize _ _ (hsh h),
      by rw [capacity_withSize, hc], by rw [bucket_size_withSize, hb],
      by rw [fingerprint_size_withSize, hf]⟩
  · rw [he] at hd
    cases hd

theorem runB_occ {α : Type} (digest : α → List Bool) (hFp : FP → ℕ)
    (rand : ℕ → ℕ) (cap b f : ℕ) (hcap : 0 < cap) :
    ∀ (ops : List (OpK × α)) (F : BCuckooFilter) (t : ℕ),
    F.capacity = cap → F.bucket_size = b → F.fingerprint_size = f →
    F.BucketShape → F.size = (F.occCount : ℤ) →
    (∀ px ∈ ops, occupied ((digest px.2).take f) = true) →
    (runB digest hFp rand F ops t).st.capacity = cap ∧
    (runB digest hFp rand F ops t).st.bucket_size = b ∧
    (runB digest hFp rand F ops t).st.BucketShape ∧
    (runB digest hFp rand F ops t).st.size =
      ((runB digest hFp rand F ops t).st.occCount : ℤ) := by
  intro ops
  induction ops with
  | nil =>
    intro F t hc hb hf hS hsz hocc
    exact ⟨hc, hb, hS, hsz⟩
  | cons p rest ih =>
    intro F t hc hb hf hS hsz hocc
    obtain ⟨op, x⟩ := p
    have hfpx : occupied (F.fingerprint digest x) = true := by
      rw [BCuckooFilter.fingerprint, hf]
      exact hocc (op, x) (by simp)
    have hoccr : ∀ px ∈ rest, occupied ((digest px.2).take f) = true := by
      intro px hpx
      exact hocc px (List.mem_cons_of_mem _ hpx)
    have hcapF : 0 < F.capacity := by rw [hc]; exact hcap
    cases op with
    | qry =>
      simp only [runB]
      exact ih F t hc hb hf hS hsz hoccr
    | ins =>
      cases hi : F.insert digest hFp rand x t with
      | ok i F1 t1 =>
        obtain ⟨ho, hsh, hc1, hb1, hf1⟩ :=
          (insert_occ digest hFp rand F x t hS hcapF hfpx).1 i F1 t1 hi
        have hs1 : F1.size = F.size + 1 := insert_size_ok digest hFp rand F x t i F1 t1 hi
        simp only [runB, hi]
        exact ih F1 t1 (by rw [hc1, hc]) (by rw [hb1, hb]) (by rw [hf1, hf])
          hsh (by omega) hoccr
      | capacity F1 t1 =>
        obtain ⟨ho, hsh, hc1, hb1, hf1⟩ :=
          (insert_occ digest hFp rand F x t hS hcapF hfpx).2 _ hi
            (by intro a b2 c2 hh; cases hh)
        have hs1 : F1.size = F.size := by
          have := insert_size_err digest hFp rand F x t _ hi (by intro a b2 c2 hh; cases hh)
          simpa [IRes.stateOf] using this
        simp only [IRes.stateOf] at ho hsh hc1 hb1 hf1
        simp only [runB, hi]
        exact ih F1 t1 (by rw [hc1, hc]) (by rw [hb1, hb]) (by rw [hf1, hf])
          hsh (by omega) hoccr
      | inconsist F1 t1 =>
        obtain ⟨ho, hsh, hc1, hb1, hf1⟩ :=
          (insert_occ digest hFp rand F x t hS hcapF hfpx).2 _ hi
            (by intro a b2 c2 hh; cases hh)
        have hs1 : F1.size = F.size := by
          have := insert_size_err digest hFp rand F x t _ hi (by intro a b2 c2 hh; cases hh)
          simpa [IRes.stateOf] using this
        simp only [IRes.stateOf] at ho hsh hc1 hb1 hf1
        simp only [runB, hi]
        exact ih F1 t1 (by rw [hc1, hc]) (by rw [hb1, hb]) (by rw [hf1, hf])
          hsh (by omega) hoccr
      | idxErr F1 t1 =>
        obtain ⟨ho, hsh, hc1, hb1, hf1⟩ :=
          (insert_occ digest hFp rand F x t hS hcapF hfpx).2 _ hi
            (by intro a b2 c2 hh; cases hh)
        have hs1 : F1.size = F.size := by
          have := insert_size_err digest hFp rand F x t _ hi (by intro a b2 c2 hh; cases hh)
          simpa [IRes.stateOf] using this
        simp only [IRes.stateOf] at ho hsh hc1 hb1 hf1
        simp only [runB, hi]
        exact ih F1 t1 (by rw [hc1, hc]) (by rw [hb1, hb]) (by rw [hf1, hf])
          hsh (by omega) hoccr
    | del =>
      cases hd : F.delete digest hFp x with
      | mk bflag F1 =>
        cases bflag with
        | true =>
          obtain ⟨ho, hsh, hc1, hb1, hf1⟩ := delete_occ digest hFp F x F1 hd hfpx
          have hs1 : F1.size = F.size - 1 := by
            have := (delete_size digest hFp F x).1
            rw [hd] at this
            exact this rfl
          simp only [runB, hd]
          exact ih F1 t (by rw [hc1, hc]) (by rw [hb1, hb]) (by rw [hf1, hf])
            (hsh hS) (by omega) hoccr
        | false =>
          have hFe : F1 = F := by
            have := (delete_size digest hFp F x).2
            rw [hd] at this
            exact this rfl
          subst hFe
          simp only [runB, hd]
          exact ih F1 t hc hb hf hS hsz hoccr

/-- C3 as stated is false: on a freshly constructed filter (`capacity = 1`,
`bucket_size = 1`, `fingerprint_size = 1`) a `delete` of an item whose
fingerprint is the all-zero bit string matches the empty slot, returns `True`
and drives `size` to `-1 < 0`. -/
theorem c3_counterexample :
    (((BCuckooFilter.mk0 1 1 1 0).delete (fun _ : Unit => [false]) (fun _ => 0) ()).1 =
      true) ∧
    ((BCuckooFilter.mk0 1 1 1 0).delete (fun _ : Unit => [false]) (fun _ => 0) ()).2.size
      < 0 := by
  exact ⟨by decide, by decide⟩

/-- C3 (amended): from a freshly constructed filter with positive capacity,
after any sequence of insert/contains/delete operations whose items all have
a fingerprint that is not the all-zero bit string, `0 ≤ size ≤
capacity * bucket_size` holds (in fact `size` equals the number of occupied
slots of the table). -/
theorem c3_size_bounds {α : Type} (digest : α → List Bool) (hFp : FP → ℕ)
    (rand : ℕ → ℕ) (cap b f mk t0 : ℕ) (ops : List (OpK × α)) (hcap : 0 < cap)
    (hocc : ∀ px ∈ ops, occupied ((digest px.2).take f) = true) :
    0 ≤ (runB digest hFp rand (BCuckooFilter.mk0 cap b f mk) ops t0).st.size ∧
    (runB digest hFp rand (BCuckooFilter.mk0 cap b f mk) ops t0).st.size ≤
      (cap : ℤ) * (b : ℤ) := by
  have hS0 : (BCuckooFilter.mk0 cap b f mk).BucketShape := by
    refine ⟨by simp [BCuckooFilter.mk0], ?_⟩
    intro bk hbk
    simp only [BCuckooFilter.mk0] at hbk
    rw [List.eq_of_mem_replicate hbk]
    simp
  have hocc0 : (BCuckooFilter.mk0 cap b f mk).occCount = 0 := by
    have h1 : BCuckooFilter.occB (List.replicate b (zeroFp f)) = 0 := by
      rw [BCuckooFilter.occB, List.countP_eq_zero]
      intro a ha
      rw [List.eq_of_mem_replicate ha]
      simp
    rw [BCuckooFilter.occCount]
    show ((List.replicate cap (List.replicate b (zeroFp f))).map BCuckooFilter.occB).sum = 0
    rw [List.map_replicate, h1, List.sum_replicate]
    simp
  obtain ⟨hc, hb, hS, hsz⟩ := runB_occ digest hFp rand cap b f hcap ops
    (BCuckooFilter.mk0 cap b f mk) t0 rfl rfl rfl hS0 (by rw [hocc0]; simp) hocc
  constructor
  · rw [hsz]
    exact_mod_cast Nat.zero_le _
  · have hle := occCount_le _ hS
    rw [hc, hb] at hle
    rw [hsz]
    exact_mod_cast hle

/-- Witness for the amended C3: one insert followed by one delete of an item
with fingerprint `[true]`. -/
theorem c3_size_bounds_witness :
    (0 < 1 ∧
     ∀ px ∈ ([(OpK.ins, ()), (OpK.del, ())] : List (OpK × Unit)),
       occupied (((fun _ : Unit => [true]) px.2).take 1) = true) ∧
    (0 ≤ (runB (fun _ : Unit => [true]) (fun _ => 0) (fun _ => 0)
        (BCuckooFilter.mk0 1 1 1 0) [(OpK.ins, ()), (OpK.del, ())] 0).st.size ∧
     (runB (fun _ : Unit => [true]) (fun _ => 0) (fun _ => 0)
        (BCuckooFilter.mk0 1 1 1 0) [(OpK.ins, ()), (OpK.del, ())] 0).st.size ≤
       (1 : ℤ) * (1 : ℤ)) :=
  ⟨⟨by decide, by decide⟩,
   c3_size_bounds (fun _ : Unit => [true]) (fun _ => 0) (fun _ => 0) 1 1 1 0 0
     [(OpK.ins, ()), (OpK.del, ())] (by decide) (by decide)⟩

/-! ### C5: the scalable filter's insert -/

theorem getD_reverse {β : Type _} (l : List β) (i : ℕ) (d : β) (h : i < l.length) :
    l.reverse.getD (l.length - 1 - i) d = l.getD i d := by
  have h2 : l.length - 1 - i < l.reverse.length := by simp; omega
  have h3 : l.length - 1 - (l.length - 1 - i) = i := by omega
  rw [List.getD_eq_getElem l.reverse d h2, List.getElem_reverse, List.getD_eq_getElem]
  · simp only [h3]
  · exact h

theorem scan_all_skip {α : Type} (digest : α → List Bool) (hFp : FP → ℕ)
    (rand : ℕ → ℕ) (x : α) :
    ∀ (l : List BCuckooFilter) (t : ℕ),
    (∀ g ∈ l, ScalableCuckooFilter.THRESHOLD_LOAD_FACTOR < g.load_factor) →
    ScalableCuckooFilter.scanFilters digest hFp rand x l t = .through l t := by
  intro l
  induction l with
  | nil =>
    intro t h
    rfl
  | cons g gs ih =>
    intro t h
    rw [ScalableCuckooFilter.scanFilters, if_pos (h g (by simp)),
      ih t (fun g2 hg2 => h g2 (List.mem_cons_of_mem _ hg2))]

theorem scan_skip_then_ok {α : Type} (digest : α → List Bool) (hFp : FP → ℕ)
    (rand : ℕ → ℕ) (x : α) :
    ∀ (pre : List BCuckooFilter) (g : BCuckooFilter) (rest : List BCuckooFilter)
      (t i : ℕ) (g1 : BCuckooFilter) (t1 : ℕ),
    (∀ u ∈ pre, ScalableCuckooFilter.THRESHOLD_LOAD_FACTOR < u.load_factor) →
    ¬ (ScalableCuckooFilter.THRESHOLD_LOAD_FACTOR < g.load_factor) →
    g.insert digest hFp rand x t = .ok i g1 t1 →
    ScalableCuckooFilter.scanFilters digest hFp rand x (pre ++ g :: rest) t =
      .hit i (pre ++ g1 :: rest) t1 := by
  intro pre
  induction pre with
  | nil =>
    intro g rest t i g1 t1 hpre hg hins
    simp only [List.nil_append]
    rw [ScalableCuckooFilter.scanFilters, if_neg hg, hins]
  | cons u pre ih =>
    intro g rest t i g1 t1 hpre hg hins
    simp only [List.cons_append]
    rw [ScalableCuckooFilter.scanFilters, if_pos (hpre u (by simp)),
      ih g rest t i g1 t1 (fun v hv => hpre v (List.mem_cons_of_mem _ hv)) hg hins]

theorem scan_skipped_frame {α : Type} (digest : α → List Bool) (hFp : FP → ℕ)
    (rand : ℕ → ℕ) (x : α) :
    ∀ (l : List BCuckooFilter) (t : ℕ),
    (ScalableCuckooFilter.scanFilters digest hFp rand x l t).revOf.length = l.length ∧
    ∀ k, ScalableCuckooFilter.THRESHOLD_LOAD_FACTOR <
        (l.getD k (BCuckooFilter.mk0 0 0 0 0)).load_factor →
      (ScalableCuckooFilter.scanFilters digest hFp rand x l t).revOf.getD k
          (BCuckooFilter.mk0 0 0 0 0) = l.getD k (BCuckooFilter.mk0 0 0 0 0) := by
  intro l
  induction l with
  | nil =>
    intro t
    exact ⟨rfl, fun k hk => rfl⟩
  | cons g gs ih =>
    intro t
    by_cases hg : ScalableCuckooFilter.THRESHOLD_LOAD_FACTOR < g.load_factor
    · cases hr : ScalableCuckooFilter.scanFilters digest hFp rand x gs t with
      | hit i rev tr =>
        have hres : ScalableCuckooFilter.scanFilters digest hFp rand x (g :: gs) t =
            .hit i (g :: rev) tr := by
          rw [ScalableCuckooFilter.scanFilters, if_pos hg, hr]
        obtain ⟨hlen, hfr⟩ := ih t
        rw [hr] at hlen hfr
        rw [hres]
        refine ⟨by simpa [ScalableCuckooFilter.ScanRes.revOf] using hlen, ?_⟩
        intro k hk
        cases k with
        | zero => rfl
        | succ k =>
          simp only [ScalableCuckooFilter.ScanRes.revOf, List.getD_cons_succ] at hfr hk ⊢
          exact hfr k hk
      | through rev tr =>
        have hres : ScalableCuckooFilter.scanFilters digest hFp rand x (g :: gs) t =
            .through (g :: rev) tr := by
          rw [ScalableCuckooFilter.scanFilters, if_pos hg, hr]
        obtain ⟨hlen, hfr⟩ := ih t
        rw [hr] at hlen hfr
        rw [hres]
        refine ⟨by simpa [ScalableCuckooFilter.ScanRes.revOf] using hlen, ?_⟩
        intro k hk
        cases k with
        | zero => rfl
        | succ k =>
          simp only [ScalableCuckooFilter.ScanRes.revOf, List.getD_cons_succ] at hfr hk ⊢
          exact hfr k hk
      | err e rev tr =>
        have hres : ScalableCuckooFilter.scanFilters digest hFp rand x (g :: gs) t =
            .err e (g :: rev) tr := by
          rw [ScalableCuckooFilter.scanFilters, if_pos hg, hr]
        obtain ⟨hlen, hfr⟩ := ih t
        rw [hr] at hlen hfr
        rw [hres]
        refine ⟨by simpa [ScalableCuckooFilter.ScanRes.revOf] using hlen, ?_⟩
        intro k hk
        cases k with
        | zero => rfl
        | succ k =>
          simp only [ScalableCuckooFilter.ScanRes.revOf, List.getD_cons_succ] at hfr hk ⊢
          exact hfr k hk
    · cases hins : g.insert digest hFp rand x t with
      | ok i g1 t1 =>
        have hres : ScalableCuckooFilter.scanFilters digest hFp rand x (g :: gs) t =
            .hit i (g1 :: gs) t1 := by
          rw [ScalableCuckooFilter.scanFilters, if_neg hg, hins]
        rw [hres]
        refine ⟨by simp [ScalableCuckooFilter.ScanRes.revOf], ?_⟩
        intro k hk
        cases k with
        | zero => exact absurd hk hg
        | succ k => rfl
      | capacity g1 t1 =>
        cases hr : ScalableCuckooFilter.scanFilters digest hFp rand x gs t1 with
        | hit i rev tr =>
          have hres : ScalableCuckooFilter.scanFilters digest hFp rand x (g :: gs) t =
              .hit i (g1 :: rev) tr := by
            rw [ScalableCuckooFilter.scanFilters, if_neg hg, hins]
            dsimp only
            rw [hr]
          obtain ⟨hlen, hfr⟩ := ih t1
          rw [hr] at hlen hfr
          rw [hres]
          refine ⟨by simpa [ScalableCuckooFilter.ScanRes.revOf] using hlen, ?_⟩
          intro k hk
          cases k with
          | zero => exact absurd hk hg
          | succ k =>
            simp only [ScalableCuckooFilter.ScanRes.revOf, List.getD_cons_succ] at hfr hk ⊢
            exact hfr k hk
        | through rev tr =>
          have hres : ScalableCuckooFilter.scanFilters digest hFp rand x (g :: gs) t =
              .through (g1 :: rev) tr := by
            rw [ScalableCuckooFilter.scanFilters, if_neg hg, hins]
            dsimp only
            rw [hr]
          obtain ⟨hlen, hfr⟩ := ih t1
          rw [hr] at hlen hfr
          rw [hres]
          refine ⟨by simpa [ScalableCuckooFilter.ScanRes.revOf] using hlen, ?_⟩
          intro k hk
          cases k with
          | zero => exact absurd hk hg
          | succ k =>
            simp only [ScalableCuckooFilter.ScanRes.revOf, List.getD_cons_succ] at hfr hk ⊢
            exact hfr k hk
        | err e rev tr =>
          have hres : ScalableCuckooFilter.scanFilters digest hFp rand x (g :: gs) t =
              .err e (g1 :: rev) tr := by
            rw [ScalableCuckooFilter.scanFilters, if_neg hg, hins]
            dsimp only
            rw [hr]
          obtain ⟨hlen, hfr⟩ := ih t1
          rw [hr] at hlen hfr
          rw [hres]
          refine ⟨by simpa [ScalableCuckooFilter.ScanRes.revOf] using hlen, ?_⟩
          intro k hk
          cases k with
          | zero => exact absurd hk hg
          | succ k =>
            simp only [ScalableCuckooFilter.ScanRes.revOf, List.getD_cons_succ] at hfr hk ⊢
            exact hfr k hk
      | idxErr g1 t1 =>
        have hres : ScalableCuckooFilter.scanFilters digest hFp rand x (g :: gs) t =
            .err true (g1 :: gs) t1 := by
          rw [ScalableCuckooFilter.scanFilters, if_neg hg, hins]
        rw [hres]
        refine ⟨by simp [ScalableCuckooFilter.ScanRes.revOf], ?_⟩
        intro k hk
        cases k with
        | zero => exact absurd hk hg
        | succ k => rfl
      | inconsist g1 t1 =>
        have hres : ScalableCuckooFilter.scanFilters digest hFp rand x (g :: gs) t =
            .err false (g1 :: gs) t1 := by
          rw [ScalableCuckooFilter.scanFilters, if_neg hg, hins]
        rw [hres]
        refine ⟨by simp [ScalableCuckooFilter.ScanRes.revOf], ?_⟩
        intro k hk
        cases k with
        | zero => exact absurd hk hg
        | succ k => rfl

theorem scan_pre_through {α : Type} (digest : α → List Bool) (hFp : FP → ℕ)
    (rand : ℕ → ℕ) (x : α) :
    ∀ (l l2 : List BCuckooFilter) (t t2 : ℕ),
    ScanSteps digest hFp rand x l l2 t t2 →
    ScalableCuckooFilter.scanFilters digest hFp rand x l t = .through l2 t2 := by
  intro l
  induction l with
  | nil =>
    intro l2 t t2 hs
    cases l2 with
    | nil =>
      have ht : t = t2 := hs
      subst ht
      rfl
    | cons b l2 => cases hs
  | cons g gs ih =>
    intro l2 t t2 hs
    cases l2 with
    | nil => cases hs
    | cons g2 gs2 =>
      rcases hs with ⟨hlf, hg, hrec⟩ | ⟨hlf, t1, hcap, hrec⟩
      · subst hg
        rw [ScalableCuckooFilter.scanFilters, if_pos hlf, ih gs2 t t2 hrec]
      · rw [ScalableCuckooFilter.scanFilters, if_neg hlf, hcap]
        dsimp only
        rw [ih gs2 t1 t2 hrec]

theorem scan_pre_ok {α : Type} (digest : α → List Bool) (hFp : FP → ℕ)
    (rand : ℕ → ℕ) (x : α) :
    ∀ (pre pre2 : List BCuckooFilter) (t t2 : ℕ),
    ScanSteps digest hFp rand x pre pre2 t t2 →
    ∀ (g : BCuckooFilter) (rest : List BCuckooFilter) (i : ℕ)
      (g1 : BCuckooFilter) (t3 : ℕ),
    ¬ (ScalableCuckooFilter.THRESHOLD_LOAD_FACTOR < g.load_factor) →
    g.insert digest hFp rand x t2 = .ok i g1 t3 →
    ScalableCuckooFilter.scanFilters digest hFp rand x (pre ++ g :: rest) t =
      .hit i (pre2 ++ g1 :: rest) t3 := by
  intro pre
  induction pre with
  | nil =>
    intro pre2 t t2 hs g rest i g1 t3 hg hins
    cases pre2 with
    | cons u pre2 => cases hs
    | nil =>
      have ht : t = t2 := hs
      subst ht
      simp only [List.nil_append]
      rw [ScalableCuckooFilter.scanFilters, if_neg hg, hins]
  | cons u pre ih =>
    intro pre2 t t2 hs g rest i g1 t3 hg hins
    cases pre2 with
    | nil => cases hs
    | cons u2 pre2 =>
      rcases hs with ⟨hlf, hu, hrec⟩ | ⟨hlf, t1, hcap, hrec⟩
      · subst hu
        simp only [List.cons_append]
        rw [ScalableCuckooFilter.scanFilters, if_pos hlf,
          ih pre2 t t2 hrec g rest i g1 t3 hg hins]
      · simp only [List.cons_append]
        rw [ScalableCuckooFilter.scanFilters, if_neg hlf, hcap]
        dsimp only
        rw [ih pre2 t1 t2 hrec g rest i g1 t3 hg hins]

/-- C5: `ScalableCuckooFilter.insert` scans the member filters from newest to
oldest, skipping every member whose `load_factor()` exceeds the `0.90`
threshold and attempting insertion on the others, swallowing
`CapacityException` and continuing with the next older member.  (1) If the
members newer than `g` are each skipped or capacity-fail in that way
(`ScanSteps`, which threads the draw counter and each failed member's
post-exception state) and `g`, not over the threshold, accepts the item, the
call returns `g`'s bucket index, `g` is replaced by its post-insert state,
and older members are untouched.  (2) If every member is passed over that
way (no existing filter accepts), a fresh filter of capacity
`SCALE_FACTOR * capacity(newest)` (same bucket size, fingerprint size and
kick budget, read from the newest member's post-scan state) is appended and
the item is inserted into it, its outcome propagating.  (3) Any member over
the threshold is skipped: it is left untouched at its position, whatever the
outcome. -/
theorem c5_scalable_insert {α : Type} (digest : α → List Bool) (hFp : FP → ℕ)
    (rand : ℕ → ℕ) (x : α) :
    (∀ (init : List BCuckooFilter) (g : BCuckooFilter)
       (newer newer2 : List BCuckooFilter) (t t2 i : ℕ) (g1 : BCuckooFilter)
       (t3 : ℕ),
      ScanSteps digest hFp rand x newer.reverse newer2.reverse t t2 →
      ¬ (ScalableCuckooFilter.THRESHOLD_LOAD_FACTOR < g.load_factor) →
      g.insert digest hFp rand x t2 = .ok i g1 t3 →
      ScalableCuckooFilter.insert digest hFp rand ⟨init ++ g :: newer⟩ x t =
        .ok i ⟨init ++ g1 :: newer2⟩ t3) ∧
    (∀ (fs fs2 : List BCuckooFilter) (t t2 : ℕ), fs ≠ [] →
      ScanSteps digest hFp rand x fs.reverse fs2.reverse t t2 →
      ScalableCuckooFilter.insert digest hFp rand ⟨fs⟩ x t =
        (match (BCuckooFilter.mk0
            ((fs2.getLastD (BCuckooFilter.mk0 0 0 0 0)).capacity *
              ScalableCuckooFilter.SCALE_FACTOR)
            (fs2.getLastD (BCuckooFilter.mk0 0 0 0 0)).bucket_size
            (fs2.getLastD (BCuckooFilter.mk0 0 0 0 0)).fingerprint_size
            (fs2.getLastD (BCuckooFilter.mk0 0 0 0 0)).max_kicks).insert
              digest hFp rand x t2 with
         | .ok i nf ts => .ok i (⟨fs2 ++ [nf]⟩ : ScalableCuckooFilter) ts
         | .capacity nf ts => .capacity (⟨fs2 ++ [nf]⟩ : ScalableCuckooFilter) ts
         | .idxErr nf ts => .idxErr (⟨fs2 ++ [nf]⟩ : ScalableCuckooFilter) ts
         | .inconsist nf ts =>
             .inconsist (⟨fs2 ++ [nf]⟩ : ScalableCuckooFilter) ts)) ∧
    (∀ (S : ScalableCuckooFilter) (t k : ℕ), k < S.filters.length →
      ScalableCuckooFilter.THRESHOLD_LOAD_FACTOR <
        (S.filters.getD k (BCuckooFilter.mk0 0 0 0 0)).load_factor →
      (ScalableCuckooFilter.insert digest hFp rand S x t).stateOf.filters.getD k
          (BCuckooFilter.mk0 0 0 0 0) =
        S.filters.getD k (BCuckooFilter.mk0 0 0 0 0)) := by
  refine ⟨?_, ?_, ?_⟩
  · intro init g newer newer2 t t2 i g1 t3 hsteps hg hins
    have hsc : ScalableCuckooFilter.scanFilters digest hFp rand x
        (ScalableCuckooFilter.mk (init ++ g :: newer)).filters.reverse t =
        .hit i (newer2.reverse ++ g1 :: init.reverse) t3 := by
      show ScalableCuckooFilter.scanFilters digest hFp rand x
        (init ++ g :: newer).reverse t = _
      rw [show (init ++ g :: newer).reverse = newer.reverse ++ g :: init.reverse
        by simp]
      exact scan_pre_ok digest hFp rand x newer.reverse newer2.reverse t t2 hsteps
        g init.reverse i g1 t3 hg hins
    rw [ScalableCuckooFilter.insert, hsc]
    simp
  · intro fs fs2 t t2 hne hsteps
    have hsc : ScalableCuckooFilter.scanFilters digest hFp rand x
        (ScalableCuckooFilter.mk fs).filters.reverse t = .through fs2.reverse t2 := by
      show ScalableCuckooFilter.scanFilters digest hFp rand x fs.reverse t = _
      exact scan_pre_through digest hFp rand x fs.reverse fs2.reverse t t2 hsteps
    rw [ScalableCuckooFilter.insert, hsc]
    dsimp only
    simp only [List.reverse_reverse]
  · intro S t k hk hlf
    obtain ⟨hlen0, hfr⟩ := scan_skipped_frame digest hFp rand x S.filters.reverse t
    have hcond : ScalableCuckooFilter.THRESHOLD_LOAD_FACTOR <
        (S.filters.reverse.getD (S.filters.length - 1 - k)
          (BCuckooFilter.mk0 0 0 0 0)).load_factor := by
      rw [getD_reverse S.filters k _ hk]
      exact hlf
    have huntouched := hfr (S.filters.length - 1 - k) hcond
    cases hs : ScalableCuckooFilter.scanFilters digest hFp rand x S.filters.reverse t with
    | hit i rev tr =>
      rw [hs] at hlen0 huntouched
      simp only [ScalableCuckooFilter.ScanRes.revOf] at hlen0 huntouched
      have hlen : rev.length = S.filters.length := by simpa using hlen0
      have hjlen : S.filters.length - 1 - k < rev.length := by omega
      have hgr := getD_reverse rev (S.filters.length - 1 - k)
        (BCuckooFilter.mk0 0 0 0 0) hjlen
      have harith : rev.length - 1 - (S.filters.length - 1 - k) = k := by omega
      rw [harith] at hgr
      have hgoal : rev.reverse.getD k (BCuckooFilter.mk0 0 0 0 0) =
          S.filters.getD k (BCuckooFilter.mk0 0 0 0 0) := by
        rw [hgr, huntouched, getD_reverse S.filters k _ hk]
      have hres : ScalableCuckooFilter.insert digest hFp rand S x t =
          .ok i ⟨rev.reverse⟩ tr := by
        rw [ScalableCuckooFilter.insert, hs]
      rw [hres]
      exact hgoal
    | err e rev tr =>
      rw [hs] at hlen0 huntouched
      simp only [ScalableCuckooFilter.ScanRes.revOf] at hlen0 huntouched
      have hlen : rev.length = S.filters.length := by simpa using hlen0
      have hjlen : S.filters.length - 1 - k < rev.length := by omega
      have hgr := getD_reverse rev (S.filters.length - 1 - k)
        (BCuckooFilter.mk0 0 0 0 0) hjlen
      have harith : rev.length - 1 - (S.filters.length - 1 - k) = k := by omega
      rw [harith] at hgr
      have hgoal : rev.reverse.getD k (BCuckooFilter.mk0 0 0 0 0) =
          S.filters.getD k (BCuckooFilter.mk0 0 0 0 0) := by
        rw [hgr, huntouched, getD_reverse S.filters k _ hk]
      cases e with
      | true =>
        have hres : ScalableCuckooFilter.insert digest hFp rand S x t =
            .idxErr ⟨rev.reverse⟩ tr := by
          rw [ScalableCuckooFilter.insert, hs]
        rw [hres]
        exact hgoal
      | false =>
        have hres : ScalableCuckooFilter.insert digest hFp rand S x t =
            .inconsist ⟨rev.reverse⟩ tr := by
          rw [ScalableCuckooFilter.insert, hs]
        rw [hres]
        exact hgoal
    | through rev tr =>
      rw [hs] at hlen0 huntouched
      simp only [ScalableCuckooFilter.ScanRes.revOf] at hlen0 huntouched
      have hlen : rev.length = S.filters.length := by simpa using hlen0
      have hjlen : S.filters.length - 1 - k < rev.length := by omega
      have hgr := getD_reverse rev (S.filters.length - 1 - k)
        (BCuckooFilter.mk0 0 0 0 0) hjlen
      have harith : rev.length - 1 - (S.filters.length - 1 - k) = k := by omega
      rw [harith] at hgr
      have hgoal : rev.reverse.getD k (BCuckooFilter.mk0 0 0 0 0) =
          S.filters.getD k (BCuckooFilter.mk0 0 0 0 0) := by
        rw [hgr, huntouched, getD_reverse S.filters k _ hk]
      have hklt : k < rev.reverse.length := by simp; omega
      cases hni : (BCuckooFilter.mk0
          ((rev.reverse.getLastD (BCuckooFilter.mk0 0 0 0 0)).capacity *
            ScalableCuckooFilter.SCALE_FACTOR)
          (rev.reverse.getLastD (BCuckooFilter.mk0 0 0 0 0)).bucket_size
          (rev.reverse.getLastD (BCuckooFilter.mk0 0 0 0 0)).fingerprint_size
          (rev.reverse.getLastD (BCuckooFilter.mk0 0 0 0 0)).max_kicks).insert
            digest hFp rand x tr with
      | ok i nf ts =>
        have hres : ScalableCuckooFilter.insert digest hFp rand S x t =
            .ok i ⟨rev.reverse ++ [nf]⟩ ts := by
          rw [ScalableCuckooFilter.insert, hs]
          dsimp only
          rw [hni]
        rw [hres]
        show (rev.reverse ++ [nf]).getD k (BCuckooFilter.mk0 0 0 0 0) = _
        rw [List.getD_append _ _ _ _ hklt]
        exact hgoal
      | capacity nf ts =>
        have hres : ScalableCuckooFilter.insert digest hFp rand S x t =
            .capacity ⟨rev.reverse ++ [nf]⟩ ts := by
          rw [ScalableCuckooFilter.insert, hs]
          dsimp only
          rw [hni]
        rw [hres]
        show (rev.reverse ++ [nf]).getD k (BCuckooFilter.mk0 0 0 0 0) = _
        rw [List.getD_append _ _ _ _ hklt]
        exact hgoal
      | idxErr nf ts =>
        have hres : ScalableCuckooFilter.insert digest hFp rand S x t =
            .idxErr ⟨rev.reverse ++ [nf]⟩ ts := by
          rw [ScalableCuckooFilter.insert, hs]
          dsimp only
          rw [hni]
        rw [hres]
        show (rev.reverse ++ [nf]).getD k (BCuckooFilter.mk0 0 0 0 0) = _
        rw [List.getD_append _ _ _ _ hklt]
        exact hgoal
      | inconsist nf ts =>
        have hres : ScalableCuckooFilter.insert digest hFp rand S x t =
            .inconsist ⟨rev.reverse ++ [nf]⟩ ts := by
          rw [ScalableCuckooFilter.insert, hs]
          dsimp only
          rw [hni]
        rw [hres]
        show (rev.reverse ++ [nf]).getD k (BCuckooFilter.mk0 0 0 0 0) = _
        rw [List.getD_append _ _ _ _ hklt]
        exact hgoal

/-- Witness for C5: the newest member (one slot, already holding a
fingerprint) is attempted, raises `CapacityException` and is passed over;
behind it a fresh filter of capacity 1 accepts the item (part 1).  Standing
alone, that capacity-failing member forces an appended filter of capacity 2
that takes the item (part 2).  A saturated member (load factor 1) is skipped
untouched (part 3). -/
theorem c5_scalable_insert_witness :
    ((ScanSteps (fun _ : Unit => [true]) (fun _ => 0) (fun _ => 0) ()
        [(⟨1, 1, 1, 0, 0, [[[true]]]⟩ : BCuckooFilter)]
        [(⟨1, 1, 1, 0, 0, [[[true]]]⟩ : BCuckooFilter)] 0 1 ∧
      ¬ (ScalableCuckooFilter.THRESHOLD_LOAD_FACTOR <
        (BCuckooFilter.mk0 1 1 1 0).load_factor)) ∧
     ScalableCuckooFilter.insert (fun _ : Unit => [true]) (fun _ => 0) (fun _ => 0)
        ⟨[BCuckooFilter.mk0 1 1 1 0, (⟨1, 1, 1, 0, 0, [[[true]]]⟩ : BCuckooFilter)]⟩
        () 0 =
       .ok 0 ⟨[(⟨1, 1, 1, 0, 1, [[[true]]]⟩ : BCuckooFilter),
               (⟨1, 1, 1, 0, 0, [[[true]]]⟩ : BCuckooFilter)]⟩ 1) ∧
    (ScalableCuckooFilter.insert (fun _ : Unit => [true]) (fun _ => 0) (fun _ => 0)
        ⟨[(⟨1, 1, 1, 0, 0, [[[true]]]⟩ : BCuckooFilter)]⟩ () 0 =
       .ok 1 ⟨[(⟨1, 1, 1, 0, 0, [[[true]]]⟩ : BCuckooFilter),
               (⟨2, 1, 1, 0, 1, [[[false]], [[true]]]⟩ : BCuckooFilter)]⟩ 1) ∧
    ((ScalableCuckooFilter.THRESHOLD_LOAD_FACTOR <
        (⟨1, 1, 1, 0, 1, [[[true]]]⟩ : BCuckooFilter).load_factor) ∧
     (ScalableCuckooFilter.insert (fun _ : Unit => [true]) (fun _ => 0) (fun _ => 0)
        ⟨[(⟨1, 1, 1, 0, 1, [[[true]]]⟩ : BCuckooFilter)]⟩ () 0).stateOf.filters.getD 0
          (BCuckooFilter.mk0 0 0 0 0) =
       (⟨1, 1, 1, 0, 1, [[[true]]]⟩ : BCuckooFilter)) := by
  have hlowA : ¬ (ScalableCuckooFilter.THRESHOLD_LOAD_FACTOR <
      (⟨1, 1, 1, 0, 0, [[[true]]]⟩ : BCuckooFilter).load_factor) := by
    norm_num [BCuckooFilter.load_factor, ScalableCuckooFilter.THRESHOLD_LOAD_FACTOR]
  have hlow : ¬ (ScalableCuckooFilter.THRESHOLD_LOAD_FACTOR <
      (BCuckooFilter.mk0 1 1 1 0).load_factor) := by
    norm_num [BCuckooFilter.load_factor, ScalableCuckooFilter.THRESHOLD_LOAD_FACTOR]
  have hhigh : ScalableCuckooFilter.THRESHOLD_LOAD_FACTOR <
      (⟨1, 1, 1, 0, 1, [[[true]]]⟩ : BCuckooFilter).load_factor := by
    norm_num [BCuckooFilter.load_factor, ScalableCuckooFilter.THRESHOLD_LOAD_FACTOR]
  have hsteps : ScanSteps (fun _ : Unit => [true]) (fun _ => 0) (fun _ => 0) ()
      [(⟨1, 1, 1, 0, 0, [[[true]]]⟩ : BCuckooFilter)]
      [(⟨1, 1, 1, 0, 0, [[[true]]]⟩ : BCuckooFilter)] 0 1 :=
    Or.inr ⟨hlowA, 1, by decide, rfl⟩
  refine ⟨⟨⟨hsteps, hlow⟩, ?_⟩, ?_, ⟨hhigh, ?_⟩⟩
  · exact (c5_scalable_insert (fun _ : Unit => [true]) (fun _ => 0) (fun _ => 0) ()).1
      [] (BCuckooFilter.mk0 1 1 1 0)
      [(⟨1, 1, 1, 0, 0, [[[true]]]⟩ : BCuckooFilter)]
      [(⟨1, 1, 1, 0, 0, [[[true]]]⟩ : BCuckooFilter)] 0 1 0
      (⟨1, 1, 1, 0, 1, [[[true]]]⟩ : BCuckooFilter) 1 hsteps hlow (by decide)
  · have hb := (c5_scalable_insert (fun _ : Unit => [true]) (fun _ => 0) (fun _ => 0)
        ()).2.1 [(⟨1, 1, 1, 0, 0, [[[true]]]⟩ : BCuckooFilter)]
      [(⟨1, 1, 1, 0, 0, [[[true]]]⟩ : BCuckooFilter)] 0 1 (by simp) hsteps
    refine hb.trans ?_
    decide
  · exact (c5_scalable_insert (fun _ : Unit => [true]) (fun _ => 0) (fun _ => 0) ()).2.2
      ⟨[(⟨1, 1, 1, 0, 1, [[[true]]]⟩ : BCuckooFilter)]⟩ 0 0 (by simp) hhigh


/-! ### C10: the two filter variants -/

@[simp] theorem setBucketL_capacity (F : CuckooFilter) (i : ℕ) (bk : List FP) :
    (F.setBucket i bk).capacity = F.capacity := rfl

@[simp] theorem setBucketL_bucket_size (F : CuckooFilter) (i : ℕ) (bk : List FP) :
    (F.setBucket i bk).bucket_size = F.bucket_size := rfl

@[simp] theorem setBucketL_fingerprint_size (F : CuckooFilter) (i : ℕ) (bk : List FP) :
    (F.setBucket i bk).fingerprint_size = F.fingerprint_size := rfl

@[simp] theorem setBucketL_max_kicks (F : CuckooFilter) (i : ℕ) (bk : List FP) :
    (F.setBucket i bk).max_kicks = F.max_kicks := rfl

@[simp] theorem setBucketL_size (F : CuckooFilter) (i : ℕ) (bk : List FP) :
    (F.setBucket i bk).size = F.size := rfl

@[simp] theorem setBucketL_buckets_length (F : CuckooFilter) (i : ℕ) (bk : List FP) :
    (F.setBucket i bk).buckets.length = F.buckets.length := by
  simp [CuckooFilter.setBucket]

@[simp] theorem ensureL_capacity (F : CuckooFilter) (i : ℕ) :
    (F.ensureBucket i).capacity = F.capacity := by
  rw [CuckooFilter.ensureBucket]
  split <;> rfl

@[simp] theorem ensureL_bucket_size (F : CuckooFilter) (i : ℕ) :
    (F.ensureBucket i).bucket_size = F.bucket_size := by
  rw [CuckooFilter.ensureBucket]
  split <;> rfl

@[simp] theorem ensureL_fingerprint_size (F : CuckooFilter) (i : ℕ) :
    (F.ensureBucket i).fingerprint_size = F.fingerprint_size := by
  rw [CuckooFilter.ensureBucket]
  split <;> rfl

@[simp] theorem ensureL_max_kicks (F : CuckooFilter) (i : ℕ) :
    (F.ensureBucket i).max_kicks = F.max_kicks := by
  rw [CuckooFilter.ensureBucket]
  split <;> rfl

@[simp] theorem ensureL_size (F : CuckooFilter) (i : ℕ) :
    (F.ensureBucket i).size = F.size := by
  rw [CuckooFilter.ensureBucket]
  split <;> rfl

@[simp] theorem ensureL_buckets_length (F : CuckooFilter) (i : ℕ) :
    (F.ensureBucket i).buckets.length = F.buckets.length := by
  rw [CuckooFilter.ensureBucket]
  split
  · simp [CuckooFilter.setBucket]
  · rfl

@[simp] theorem withSizeL_capacity (F : CuckooFilter) (s : ℤ) :
    ({ F with size := s } : CuckooFilter).capacity = F.capacity := rfl

@[simp] theorem withSizeL_bucket_size (F : CuckooFilter) (s : ℤ) :
    ({ F with size := s } : CuckooFilter).bucket_size = F.bucket_size := rfl

@[simp] theorem withSizeL_fingerprint_size (F : CuckooFilter) (s : ℤ) :
    ({ F with size := s } : CuckooFilter).fingerprint_size = F.fingerprint_size := rfl

@[simp] theorem withSizeL_max_kicks (F : CuckooFilter) (s : ℤ) :
    ({ F with size := s } : CuckooFilter).max_kicks = F.max_kicks := rfl

@[simp] theorem withSizeL_buckets (F : CuckooFilter) (s : ℤ) :
    ({ F with size := s } : CuckooFilter).buckets = F.buckets := rfl

@[simp] theorem bucketOfL_withSize (F : CuckooFilter) (s : ℤ) (j : ℕ) :
    ({ F with size := s } : CuckooFilter).bucketOf j = F.bucketOf j := rfl

theorem ensureL_bucketOf (F : CuckooFilter) (i j : ℕ) :
    (F.ensureBucket i).bucketOf j = F.bucketOf j := by
  rw [CuckooFilter.ensureBucket]
  split
  case isTrue hnone =>
    rw [CuckooFilter.bucketOf, CuckooFilter.bucketOf]
    show ((F.buckets.set i (some [])).getD j none).getD [] = (F.buckets.getD j none).getD []
    by_cases hij : i = j
    · subst hij
      by_cases hilt : i < F.buckets.length
      · rw [getD_set_self _ _ _ _ hilt, hnone]
        rfl
      · rw [List.getD_eq_default _ _ (by simpa using (by omega : F.buckets.length ≤ i)),
          List.getD_eq_default _ _ (by omega)]
    · rw [getD_set_ne _ _ _ _ _ hij]
  case isFalse => rfl

theorem bucketOfL_setBucket_self (F : CuckooFilter) (i : ℕ) (bk : List FP)
    (h : i < F.buckets.length) : (F.setBucket i bk).bucketOf i = bk := by
  rw [CuckooFilter.bucketOf]
  show ((F.buckets.set i (some bk)).getD i none).getD [] = bk
  rw [getD_set_self _ _ _ _ h]
  rfl

theorem bucketOfL_setBucket_ne (F : CuckooFilter) (i j : ℕ) (bk : List FP)
    (h : i ≠ j) : (F.setBucket i bk).bucketOf j = F.bucketOf j := by
  rw [CuckooFilter.bucketOf, CuckooFilter.bucketOf]
  show ((F.buckets.set i (some bk)).getD j none).getD [] = (F.buckets.getD j none).getD []
  rw [getD_set_ne _ _ _ _ _ h]

theorem simBucket_mem (b f : ℕ) (lb bb : List FP) (h : SimBucket b f lb bb) (fp : FP)
    (hfp : occupied fp = true) : fp ∈ bb ↔ fp ∈ lb := by
  obtain ⟨hbb, hle, hocc⟩ := h
  subst hbb
  simp only [List.mem_append]
  constructor
  · rintro (h1 | h1)
    · exact h1
    · exfalso
      have hz := List.eq_of_mem_replicate h1
      rw [hz] at hfp
      simp at hfp
  · exact Or.inl

theorem sim_mk0 (cap b f mk : ℕ) :
    Sim (CuckooFilter.mk0 cap b f mk) (BCuckooFilter.mk0 cap b f mk) := by
  refine ⟨rfl, rfl, rfl, rfl, rfl, by simp [CuckooFilter.mk0],
    by simp [BCuckooFilter.mk0], ?_⟩
  intro j hj
  have hL : (CuckooFilter.mk0 cap b f mk).bucketOf j = [] := by
    rw [CuckooFilter.bucketOf]
    show ((List.replicate cap none).getD j none).getD [] = []
    rw [getD_replicate cap j none none (by simpa using hj)]
    rfl
  have hB := bucketOf_mk0 cap b f mk j hj
  rw [hL, hB]
  exact ⟨by simp, by simp, by simp⟩

theorem sim_ensure (Fl : CuckooFilter) (Fb : BCuckooFilter) (i : ℕ) (h : Sim Fl Fb) :
    Sim (Fl.ensureBucket i) Fb := by
  obtain ⟨h1, h2, h3, h4, h5, h6, h7, h8⟩ := h
  refine ⟨by simpa using h1, by simpa using h2, by simpa using h3, by simpa using h4,
    by simpa using h5, by simpa using h6, h7, ?_⟩
  intro j hj
  rw [ensureL_bucketOf]
  exact h8 j hj

theorem index_sim {α : Type} (digest : α → List Bool) (Fl : CuckooFilter)
    (Fb : BCuckooFilter) (x : α) (h : Fl.capacity = Fb.capacity) :
    CuckooFilter.index digest Fl x = BCuckooFilter.index digest Fb x := by
  rw [CuckooFilter.index, BCuckooFilter.index, h]

theorem altIndex_sim (hFp : FP → ℕ) (Fl : CuckooFilter) (Fb : BCuckooFilter)
    (i : ℕ) (fp : FP) (h : Fl.capacity = Fb.capacity) :
    CuckooFilter.altIndex hFp Fl i fp = BCuckooFilter.altIndex hFp Fb i fp := by
  rw [CuckooFilter.altIndex, BCuckooFilter.altIndex, h]

theorem fingerprint_sim {α : Type} (digest : α → List Bool) (Fl : CuckooFilter)
    (Fb : BCuckooFilter) (x : α) (h : Fl.fingerprint_size = Fb.fingerprint_size) :
    CuckooFilter.fingerprint digest Fl x = BCuckooFilter.fingerprint digest Fb x := by
  rw [CuckooFilter.fingerprint, BCuckooFilter.fingerprint, h]

theorem replaceFirst_append_right (p : FP → Bool) (new : FP) (pre post : List FP)
    (hpost : ∀ u ∈ post, p u = false) :
    replaceFirst p new (pre ++ post) = (replaceFirst p new pre).map (· ++ post) := by
  induction pre with
  | nil =>
    simp only [List.nil_append]
    rw [(replaceFirst_none_iff p new post).mpr hpost]
    rfl
  | cons a pre ih =>
    by_cases ha : p a = true
    · rw [List.cons_append, replaceFirst, if_pos ha, replaceFirst, if_pos ha]
      rfl
    · have ha' : ¬ p a = true := ha
      rw [List.cons_append, replaceFirst, if_neg ha', replaceFirst, if_neg ha', ih]
      cases replaceFirst p new pre <;> simp

theorem replaceFirst_append_left (p : FP → Bool) (new : FP) (pre rest : List FP)
    (hpre : ∀ u ∈ pre, p u = false) :
    replaceFirst p new (pre ++ rest) = (replaceFirst p new rest).map (pre ++ ·) := by
  induction pre with
  | nil =>
    simp only [List.nil_append]
    cases replaceFirst p new rest <;> simp
  | cons a pre ih =>
    have ha : p a = false := hpre a (by simp)
    rw [List.cons_append, replaceFirst, if_neg (by simp [ha]),
      ih (fun u hu => hpre u (List.mem_cons_of_mem _ hu))]
    cases replaceFirst p new rest <;> simp

theorem simBucket_insert (b f : ℕ) (lb bb : List FP) (h : SimBucket b f lb bb)
    (fp : FP) (hfp : occupied fp = true) :
    (¬ lb.length < b → replaceFirst (fun s => !occupied s) fp bb = none) ∧
    (lb.length < b → replaceFirst (fun s => !occupied s) fp bb =
      some (lb ++ fp :: List.replicate (b - lb.length - 1) (zeroFp f)) ∧
      SimBucket b f (lb ++ [fp])
        (lb ++ fp :: List.replicate (b - lb.length - 1) (zeroFp f))) := by
  obtain ⟨hbb, hle, hocc⟩ := h
  have hpre : ∀ u ∈ lb, (fun s => !occupied s) u = false := by
    intro u hu
    simp [hocc u hu]
  constructor
  · intro hnlt
    rw [hbb, show b - lb.length = 0 by omega, List.replicate_zero, List.append_nil]
    exact (replaceFirst_none_iff _ _ _).mpr hpre
  · intro hlt
    have hm : b - lb.length - 1 + 1 = b - lb.length := by omega
    have hz : zeroFp f :: List.replicate (b - lb.length - 1) (zeroFp f) =
        List.replicate (b - lb.length) (zeroFp f) := by
      rw [← List.replicate_succ, hm]
    rw [hbb, ← hz, replaceFirst_append_left _ _ _ _ hpre, replaceFirst,
      if_pos (by simp)]
    refine ⟨rfl, ?_, ?_, ?_⟩
    · rw [List.append_assoc, List.singleton_append,
        show b - (lb ++ [fp]).length = b - lb.length - 1 by simp; omega]
    · simp
      omega
    · intro s hs
      rcases List.mem_append.mp hs with hs | hs
      · exact hocc s hs
      · rw [List.mem_singleton.mp hs]
        exact hfp

theorem sim_probe (Fl : CuckooFilter) (Fb : BCuckooFilter) (fp : FP) (i : ℕ)
    (h : Sim Fl Fb) (hi : i < Fb.capacity) (hfp : occupied fp = true) :
    (Fl.bucketInsert fp i = none ∧ Fb.insertFp fp i = none) ∨
    (∃ Gl Gb, Fl.bucketInsert fp i = some Gl ∧ Fb.insertFp fp i = some Gb ∧
      Sim Gl Gb) := by
  obtain ⟨h1, h2, h3, h4, h5, h6, h7, h8⟩ := h
  have hSB := h8 i hi
  have hins := simBucket_insert Fb.bucket_size Fb.fingerprint_size
    (Fl.bucketOf i) (Fb.bucketOf i) hSB fp hfp
  by_cases hlt : (Fl.bucketOf i).length < Fb.bucket_size
  · right
    obtain ⟨hrf, hSB2⟩ := hins.2 hlt
    have hilt_l : i < Fl.buckets.length := by rw [h6]; exact hi
    have hilt_b : i < Fb.buckets.length := by rw [h7]; exact hi
    refine ⟨Fl.setBucket i (Fl.bucketOf i ++ [fp]),
      Fb.setBucket i (Fl.bucketOf i ++ fp ::
        List.replicate (Fb.bucket_size - (Fl.bucketOf i).length - 1)
          (zeroFp Fb.fingerprint_size)), ?_, ?_, ?_⟩
    · rw [CuckooFilter.bucketInsert]
      rw [if_pos (by rw [h2]; exact hlt)]
    · rw [BCuckooFilter.insertFp, hrf]
    · refine ⟨by simpa using h1, by simpa using h2, by simpa using h3,
        by simpa using h4, by simpa using h5, by simpa using h6, by simpa using h7, ?_⟩
      intro j hj
      have hj2 : j < Fb.capacity := by simpa using hj
      by_cases hij : i = j
      · subst hij
        rw [bucketOfL_setBucket_self _ _ _ hilt_l, bucketOf_setBucket_self _ _ _ hilt_b]
        simpa using hSB2
      · rw [bucketOfL_setBucket_ne _ _ _ _ hij, bucketOf_setBucket_ne _ _ _ _ hij]
        simpa using h8 j hj2
  · left
    constructor
    · rw [CuckooFilter.bucketInsert]
      rw [if_neg (by rw [h2]; exact hlt)]
    · rw [BCuckooFilter.insertFp, hins.1 hlt]

theorem sim_swap (Fl : CuckooFilter) (Fb : BCuckooFilter) (fp : FP) (i : ℕ)
    (rand : ℕ → ℕ) (t : ℕ) (h : Sim Fl Fb) (hi : i < Fb.capacity)
    (hfull : (Fl.bucketOf i).length = Fb.bucket_size) (hfp : occupied fp = true) :
    (Fl.swap fp i rand t = none ∧ Fb.swap fp i rand t = none) ∨
    (∃ d Gl Gb, Fl.swap fp i rand t = some (d, Gl, t + 1) ∧
      Fb.swap fp i rand t = some (d, Gb, t + 1) ∧ occupied d = true ∧ Sim Gl Gb ∧
      (Gl.bucketOf i).length = Fb.bucket_size ∧
      Gb.capacity = Fb.capacity ∧ Gb.bucket_size = Fb.bucket_size) := by
  obtain ⟨h1, h2, h3, h4, h5, h6, h7, h8⟩ := h
  obtain ⟨hbb, hle, hocc⟩ := h8 i hi
  have hbbeq : Fb.bucketOf i = Fl.bucketOf i := by
    rw [hbb, hfull, Nat.sub_self, List.replicate_zero, List.append_nil]
  have hilt_l : i < Fl.buckets.length := by rw [h6]; exact hi
  have hilt_b : i < Fb.buckets.length := by rw [h7]; exact hi
  rw [CuckooFilter.swap, BCuckooFilter.swap, hbbeq, hfull]
  cases hcs : (List.range Fb.bucket_size).filter
      (fun k => (Fl.bucketOf i).getD k [] != fp) with
  | nil =>
    left
    exact ⟨rfl, rfl⟩
  | cons c cs =>
    right
    set k := (c :: cs).get ⟨rand t % (c :: cs).length, Nat.mod_lt _ (Nat.succ_pos _)⟩
      with hk
    have hkmem : k ∈ c :: cs := List.get_mem _ _ _
    have hkr : k ∈ (List.range Fb.bucket_size).filter
        (fun k => (Fl.bucketOf i).getD k [] != fp) := by rw [hcs]; exact hkmem
    have hklt : k < Fb.bucket_size := by
      have := List.mem_filter.mp hkr
      simpa using List.mem_range.mp this.1
    have hklen : k < (Fl.bucketOf i).length := by rw [hfull]; exact hklt
    have hdocc : occupied ((Fl.bucketOf i).getD k []) = true :=
      hocc _ (getD_mem _ _ _ hklen)
    refine ⟨(Fl.bucketOf i).getD k [], Fl.setBucket i ((Fl.bucketOf i).set k fp),
      Fb.setBucket i ((Fl.bucketOf i).set k fp), rfl, rfl, hdocc, ?_, ?_, by simp,
      by simp⟩
    · refine ⟨by simpa using h1, by simpa using h2, by simpa using h3,
        by simpa using h4, by simpa using h5, by simpa using h6, by simpa using h7, ?_⟩
      intro j hj
      have hj2 : j < Fb.capacity := by simpa using hj
      by_cases hij : i = j
      · subst hij
        rw [bucketOfL_setBucket_self _ _ _ hilt_l, bucketOf_setBucket_self _ _ _ hilt_b]
        refine ⟨?_, ?_, ?_⟩
        · simp only [setBucket_bucket_size, setBucket_fingerprint_size,
            List.length_set, hfull, Nat.sub_self, List.replicate_zero, List.append_nil]
        · simp [List.length_set, hfull]
        · intro s hs
          rcases List.mem_or_eq_of_mem_set hs with hs | rfl
          · exact hocc s hs
          · exact hfp
      · rw [bucketOfL_setBucket_ne _ _ _ _ hij, bucketOf_setBucket_ne _ _ _ _ hij]
        simpa using h8 j hj2
    · rw [bucketOfL_setBucket_self _ _ _ hilt_l]
      simp [List.length_set, hfull]

theorem sim_addSize (Fl : CuckooFilter) (Fb : BCuckooFilter) (h : Sim Fl Fb) (z : ℤ) :
    Sim ({ Fl with size := Fl.size + z } : CuckooFilter)
      ({ Fb with size := Fb.size + z } : BCuckooFilter) := by
  obtain ⟨h1, h2, h3, h4, h5, h6, h7, h8⟩ := h
  exact ⟨h1, h2, h3, h4, by rw [h5], by simpa using h6, h7, fun j hj => h8 j hj⟩

theorem sim_setBucket (Fl : CuckooFilter) (Fb : BCuckooFilter) (i : ℕ)
    (h : Sim Fl Fb) (hi : i < Fb.capacity) (lb2 bb2 : List FP)
    (hSB : SimBucket Fb.bucket_size Fb.fingerprint_size lb2 bb2) :
    Sim (Fl.setBucket i lb2) (Fb.setBucket i bb2) := by
  obtain ⟨h1, h2, h3, h4, h5, h6, h7, h8⟩ := h
  have hilt_l : i < Fl.buckets.length := by rw [h6]; exact hi
  have hilt_b : i < Fb.buckets.length := by rw [h7]; exact hi
  refine ⟨by simpa using h1, by simpa using h2, by simpa using h3,
    by simpa using h4, by simpa using h5, by simpa using h6, by simpa using h7, ?_⟩
  intro j hj
  have hj2 : j < Fb.capacity := by simpa using hj
  by_cases hij : i = j
  · subst hij
    rw [bucketOfL_setBucket_self _ _ _ hilt_l, bucketOf_setBucket_self _ _ _ hilt_b]
    simpa using hSB
  · rw [bucketOfL_setBucket_ne _ _ _ _ hij, bucketOf_setBucket_ne _ _ _ _ hij]
    simpa using h8 j hj2

theorem bucketInsertL_none (F : CuckooFilter) (fp : FP) (i : ℕ)
    (h : F.bucketInsert fp i = none) :
    ¬ ((F.bucketOf i).length < F.bucket_size) := by
  intro hlt
  rw [CuckooFilter.bucketInsert, if_pos hlt] at h
  cases h

theorem sim_kickLoop (hFp : FP → ℕ) (rand : ℕ → ℕ) :
    ∀ (n : ℕ) (fp : FP) (i : ℕ) (Fl : CuckooFilter) (Fb : BCuckooFilter) (t : ℕ),
    Sim Fl Fb → 0 < Fb.capacity → i < Fb.capacity → occupied fp = true →
    (Fl.bucketOf i).length = Fb.bucket_size →
    KickResSim (CuckooFilter.kickLoop hFp rand n fp i Fl t)
      (BCuckooFilter.kickLoop hFp rand n fp i Fb t) := by
  intro n
  induction n with
  | zero =>
    intro fp i Fl Fb t hsim hcap hi hfp hfull
    rw [CuckooFilter.kickLoop, BCuckooFilter.kickLoop]
    exact ⟨hsim, rfl, rfl, by intro p hp; simp at hp⟩
  | succ n ih =>
    intro fp i Fl Fb t hsim hcap hi hfp hfull
    rw [CuckooFilter.kickLoop, BCuckooFilter.kickLoop]
    rcases sim_swap Fl Fb fp i rand t hsim hi hfull hfp with
      ⟨hl, hb⟩ | ⟨d, Gl, Gb, hl, hb, hdocc, hsim2, hfull2, hcapeq, hbseq⟩
    · rw [hl, hb]
      exact ⟨hsim, rfl⟩
    · rw [hl, hb]
      dsimp only
      have hidx : CuckooFilter.altIndex hFp Gl i d = BCuckooFilter.altIndex hFp Gb i d :=
        altIndex_sim hFp Gl Gb i d hsim2.1
      rw [hidx]
      have hcap2 : 0 < Gb.capacity := by rw [hcapeq]; exact hcap
      have hi2 : Gb.altIndex hFp i d < Gb.capacity := altIndex_lt hFp Gb i d hcap2
      have hsime : Sim (Gl.ensureBucket (Gb.altIndex hFp i d)) Gb :=
        sim_ensure Gl Gb _ hsim2
      rcases sim_probe (Gl.ensureBucket (Gb.altIndex hFp i d)) Gb d
          (Gb.altIndex hFp i d) hsime hi2 hdocc with
        ⟨hpl, hpb⟩ | ⟨Hl, Hb, hpl, hpb, hsim3⟩
      · rw [hpl, hpb]
        have hnlt := bucketInsertL_none _ _ _ hpl
        rw [ensureL_bucket_size] at hnlt
        have hble : ((Gl.ensureBucket (Gb.altIndex hFp i d)).bucketOf
            (Gb.altIndex hFp i d)).length ≤ Gb.bucket_size :=
          (hsime.2.2.2.2.2.2.2 _ hi2).2.1
        have hbs2 : Gl.bucket_size = Gb.bucket_size := hsim2.2.1
        have hfull3 : ((Gl.ensureBucket (Gb.altIndex hFp i d)).bucketOf
            (Gb.altIndex hFp i d)).length = Gb.bucket_size := by
          rw [hbs2] at hnlt
          omega
        have hrec := ih d (Gb.altIndex hFp i d)
          (Gl.ensureBucket (Gb.altIndex hFp i d)) Gb (t + 1) hsime hcap2 hi2 hdocc hfull3
        dsimp only
        cases hkl : CuckooFilter.kickLoop hFp rand n d (Gb.altIndex hFp i d)
            (Gl.ensureBucket (Gb.altIndex hFp i d)) (t + 1) with
        | success Fls tls =>
          cases hkb : BCuckooFilter.kickLoop hFp rand n d (Gb.altIndex hFp i d)
              Gb (t + 1) with
          | success Fbs tbs =>
            rw [hkl, hkb] at hrec
            exact hrec
          | exhausted Fbe psb tbe =>
            rw [hkl, hkb] at hrec
            cases hrec
          | fail Fbf tbf =>
            rw [hkl, hkb] at hrec
            cases hrec
        | exhausted Fle psl tle =>
          cases hkb : BCuckooFilter.kickLoop hFp rand n d (Gb.altIndex hFp i d)
              Gb (t + 1) with
          | success Fbs tbs =>
            rw [hkl, hkb] at hrec
            cases hrec
          | exhausted Fbe psb tbe =>
            rw [hkl, hkb] at hrec
            obtain ⟨hsimE, hpsE, htE, hoccE⟩ := hrec
            refine ⟨hsimE, by rw [hpsE], htE, ?_⟩
            intro p hp
            rcases List.mem_cons.mp hp with rfl | hp2
            · exact hdocc
            · exact hoccE p hp2
          | fail Fbf tbf =>
            rw [hkl, hkb] at hrec
            cases hrec
        | fail Flf tlf =>
          cases hkb : BCuckooFilter.kickLoop hFp rand n d (Gb.altIndex hFp i d)
              Gb (t + 1) with
          | success Fbs tbs =>
            rw [hkl, hkb] at hrec
            cases hrec
          | exhausted Fbe psb tbe =>
            rw [hkl, hkb] at hrec
            cases hrec
          | fail Fbf tbf =>
            rw [hkl, hkb] at hrec
            exact hrec
      · rw [hpl, hpb]
        exact ⟨sim_addSize Hl Hb hsim3 1, rfl⟩

theorem sim_rollback : ∀ (ps : List (FP × ℕ)) (Fl : CuckooFilter)
    (Fb : BCuckooFilter), Sim Fl Fb → (∀ p ∈ ps, occupied p.1 = true) →
    (CuckooFilter.rollback ps Fl).1 = (BCuckooFilter.rollback ps Fb).1 ∧
    Sim (CuckooFilter.rollback ps Fl).2 (BCuckooFilter.rollback ps Fb).2 := by
  intro ps
  induction ps with
  | nil =>
    intro Fl Fb h hps
    exact ⟨rfl, h⟩
  | cons a rest ih =>
    intro Fl Fb h hps
    obtain ⟨fpT, iT⟩ := a
    cases rest with
    | nil => exact ⟨rfl, h⟩
    | cons q rest2 =>
      obtain ⟨fpP, iP⟩ := q
      have hlkP : occupied fpP = true := hps (fpP, iP) (by simp)
      have hlkT : occupied fpT = true := hps (fpT, iT) (by simp)
      have hrest : ∀ p ∈ (fpP, iP) :: rest2, occupied p.1 = true := by
        intro p hp
        exact hps p (List.mem_cons_of_mem _ hp)
      rw [CuckooFilter.rollback, BCuckooFilter.rollback]
      by_cases hiP : iP < Fb.capacity
      · obtain ⟨hbb, hle2, hocc2⟩ := h.2.2.2.2.2.2.2 iP hiP
        have hz : ∀ u ∈ List.replicate (Fb.bucket_size - (Fl.bucketOf iP).length)
            (zeroFp Fb.fingerprint_size), (· == fpP) u = false := by
          intro u hu
          rw [List.eq_of_mem_replicate hu]
          exact beq_false_of_ne
            (fun he => by rw [← he] at hlkP; simp at hlkP)
        cases hrf : replaceFirst (· == fpP) fpT (Fl.bucketOf iP) with
        | none =>
          have hfb : Fb.findAndReplace fpP fpT iP = none := by
            rw [BCuckooFilter.findAndReplace, hbb,
              replaceFirst_append_right _ _ _ _ hz, hrf]
            rfl
          rw [hfb]
          exact ⟨rfl, h⟩
        | some bk =>
          have hfb : Fb.findAndReplace fpP fpT iP = some (Fb.setBucket iP
              (bk ++ List.replicate (Fb.bucket_size - (Fl.bucketOf iP).length)
                (zeroFp Fb.fingerprint_size))) := by
            rw [BCuckooFilter.findAndReplace, hbb,
              replaceFirst_append_right _ _ _ _ hz, hrf]
            rfl
          rw [hfb]
          have hlen : bk.length = (Fl.bucketOf iP).length :=
            replaceFirst_length _ _ _ _ hrf
          have hSB : SimBucket Fb.bucket_size Fb.fingerprint_size bk
              (bk ++ List.replicate (Fb.bucket_size - (Fl.bucketOf iP).length)
                (zeroFp Fb.fingerprint_size)) := by
            refine ⟨by rw [hlen], by omega, ?_⟩
            obtain ⟨pre, s, post, hl2, hpre2, hs2, hbk2⟩ :=
              replaceFirst_some _ _ _ _ hrf
            intro u hu
            rw [hbk2] at hu
            rcases List.mem_append.mp hu with hu | hu
            · exact hocc2 u (by rw [hl2]; exact List.mem_append.mpr (Or.inl hu))
            · rcases List.mem_cons.mp hu with rfl | hu2
              · exact hlkT
              · exact hocc2 u (by
                  rw [hl2]
                  exact List.mem_append.mpr (Or.inr (List.mem_cons_of_mem _ hu2)))
          exact ih _ _ (sim_setBucket Fl Fb iP h hiP bk _ hSB) hrest
      · have hlnil : Fl.bucketOf iP = [] := by
          rw [CuckooFilter.bucketOf, List.getD_eq_default _ _ (by
            rw [h.2.2.2.2.2.1]
            omega)]
          rfl
        have hbnil : Fb.bucketOf iP = [] := by
          rw [BCuckooFilter.bucketOf, List.getD_eq_default _ _ (by
            rw [h.2.2.2.2.2.2.1]
            omega)]
        have hrfl : replaceFirst (· == fpP) fpT (Fl.bucketOf iP) = none := by
          rw [hlnil]
          rfl
        have hfb : Fb.findAndReplace fpP fpT iP = none := by
          rw [BCuckooFilter.findAndReplace, hbnil]
          rfl
        rw [hrfl, hfb]
        exact ⟨rfl, h⟩

theorem insertL_path {α : Type} (digest : α → List Bool) (hFp : FP → ℕ)
    (rand : ℕ → ℕ) (F : CuckooFilter) (x : α) (t : ℕ) :
    (∃ F1, (F.ensureBucket (F.index digest x)).bucketInsert (F.fingerprint digest x)
        (F.index digest x) = some F1 ∧
      F.insert digest hFp rand x t =
        .ok (F.index digest x) { F1 with size := F1.size + 1 } t) ∨
    ((F.ensureBucket (F.index digest x)).bucketInsert (F.fingerprint digest x)
        (F.index digest x) = none ∧
     ∃ F1, ((F.ensureBucket (F.index digest x)).ensureBucket
        (F.altIndex hFp (F.index digest x) (F.fingerprint digest x))).bucketInsert
          (F.fingerprint digest x)
          (F.altIndex hFp (F.index digest x) (F.fingerprint digest x)) = some F1 ∧
      F.insert digest hFp rand x t =
        .ok (F.altIndex hFp (F.index digest x) (F.fingerprint digest x))
          { F1 with size := F1.size + 1 } t) ∨
    ((F.ensureBucket (F.index digest x)).bucketInsert (F.fingerprint digest x)
        (F.index digest x) = none ∧
     ((F.ensureBucket (F.index digest x)).ensureBucket
        (F.altIndex hFp (F.index digest x) (F.fingerprint digest x))).bucketInsert
          (F.fingerprint digest x)
          (F.altIndex hFp (F.index digest x) (F.fingerprint digest x)) = none ∧
     ∃ idx, idx = [F.index digest x,
         F.altIndex hFp (F.index digest x) (F.fingerprint digest x)].get
           ⟨rand t % 2, by simp only [List.length_cons, List.length_nil]; omega⟩ ∧
     ((∃ Fs ts, CuckooFilter.kickLoop hFp rand F.max_kicks
          (F.fingerprint digest x) idx
          ((F.ensureBucket (F.index digest x)).ensureBucket
            (F.altIndex hFp (F.index digest x) (F.fingerprint digest x))) (t + 1) =
            .success Fs ts ∧
        F.insert digest hFp rand x t = .ok idx Fs ts) ∨
      (∃ Ff tf, CuckooFilter.kickLoop hFp rand F.max_kicks
          (F.fingerprint digest x) idx
          ((F.ensureBucket (F.index digest x)).ensureBucket
            (F.altIndex hFp (F.index digest x) (F.fingerprint digest x))) (t + 1) =
            .fail Ff tf ∧
        F.insert digest hFp rand x t = .idxErr Ff tf) ∨
      (∃ Fe ps te, CuckooFilter.kickLoop hFp rand F.max_kicks
          (F.fingerprint digest x) idx
          ((F.ensureBucket (F.index digest x)).ensureBucket
            (F.altIndex hFp (F.index digest x) (F.fingerprint digest x))) (t + 1) =
            .exhausted Fe ps te ∧
        ((∃ Fr, CuckooFilter.rollback (((F.fingerprint digest x, idx) :: ps).reverse)
            Fe = (true, Fr) ∧ F.insert digest hFp rand x t = .capacity Fr te) ∨
         (∃ Fr, CuckooFilter.rollback (((F.fingerprint digest x, idx) :: ps).reverse)
            Fe = (false, Fr) ∧
          F.insert digest hFp rand x t = .inconsist Fr te))))) := by
  cases hp1 : (F.ensureBucket (F.index digest x)).bucketInsert (F.fingerprint digest x)
      (F.index digest x) with
  | some F1 =>
    left
    exact ⟨F1, rfl, by rw [CuckooFilter.insert, hp1]⟩
  | none =>
    cases hp2 : ((F.ensureBucket (F.index digest x)).ensureBucket
        (F.altIndex hFp (F.index digest x) (F.fingerprint digest x))).bucketInsert
          (F.fingerprint digest x)
          (F.altIndex hFp (F.index digest x) (F.fingerprint digest x)) with
    | some F1 =>
      right; left
      exact ⟨rfl, F1, rfl, by rw [CuckooFilter.insert, hp1]; dsimp only; rw [hp2]⟩
    | none =>
      right; right
      refine ⟨rfl, rfl, _, rfl, ?_⟩
      cases hk : CuckooFilter.kickLoop hFp rand F.max_kicks (F.fingerprint digest x)
          ([F.index digest x,
            F.altIndex hFp (F.index digest x) (F.fingerprint digest x)].get
              ⟨rand t % 2, by simp only [List.length_cons, List.length_nil]; omega⟩)
          ((F.ensureBucket (F.index digest x)).ensureBucket
            (F.altIndex hFp (F.index digest x) (F.fingerprint digest x))) (t + 1) with
      | success Fs ts =>
        left
        refine ⟨Fs, ts, rfl, ?_⟩
        rw [CuckooFilter.insert, hp1]
        dsimp only
        rw [hp2]
        dsimp only
        rw [hk]
      | fail Ff tf =>
        right; left
        refine ⟨Ff, tf, rfl, ?_⟩
        rw [CuckooFilter.insert, hp1]
        dsimp only
        rw [hp2]
        dsimp only
        rw [hk]
      | exhausted Fe ps te =>
        right; right
        refine ⟨Fe, ps, te, rfl, ?_⟩
        cases hr : CuckooFilter.rollback
            (((F.fingerprint digest x,
              [F.index digest x,
               F.altIndex hFp (F.index digest x) (F.fingerprint digest x)].get
                ⟨rand t % 2, by simp only [List.length_cons, List.length_nil]; omega⟩) ::
              ps).reverse) Fe with
        | mk b Fr =>
          cases b with
          | true =>
            left
            refine ⟨Fr, rfl, ?_⟩
            rw [CuckooFilter.insert, hp1]
            dsimp only
            rw [hp2]
            dsimp only
            rw [hk]
            dsimp only
            rw [hr]
          | false =>
            right
            refine ⟨Fr, rfl, ?_⟩
            rw [CuckooFilter.insert, hp1]
            dsimp only
            rw [hp2]
            dsimp only
            rw [hk]
            dsimp only
            rw [hr]

theorem sim_insert {α : Type} (digest : α → List Bool) (hFp : FP → ℕ)
    (rand : ℕ → ℕ) (Fl : CuckooFilter) (Fb : BCuckooFilter) (x : α) (t : ℕ)
    (h : Sim Fl Fb) (hcap : 0 < Fb.capacity)
    (hfp : occupied (Fb.fingerprint digest x) = true) :
    IResSim (Fl.insert digest hFp rand x t) (Fb.insert digest hFp rand x t) := by
  obtain ⟨h1, h2, h3, h4, h5, h6, h7, h8⟩ := h
  have hsim : Sim Fl Fb := ⟨h1, h2, h3, h4, h5, h6, h7, h8⟩
  have hfpe : CuckooFilter.fingerprint digest Fl x = Fb.fingerprint digest x :=
    fingerprint_sim digest Fl Fb x h3
  have hie : CuckooFilter.index digest Fl x = Fb.index digest x :=
    index_sim digest Fl Fb x h1
  have haie : CuckooFilter.altIndex hFp Fl (Fb.index digest x) (Fb.fingerprint digest x) =
      Fb.altIndex hFp (Fb.index digest x) (Fb.fingerprint digest x) :=
    altIndex_sim hFp Fl Fb _ _ h1
  have hi1 : Fb.index digest x < Fb.capacity := index_lt digest Fb x hcap
  have hi2 : Fb.altIndex hFp (Fb.index digest x) (Fb.fingerprint digest x) <
      Fb.capacity := altIndex_lt hFp Fb _ _ hcap
  have hsim0 : Sim (Fl.ensureBucket (Fb.index digest x)) Fb := sim_ensure _ _ _ hsim
  have hsim1e : Sim ((Fl.ensureBucket (Fb.index digest x)).ensureBucket
      (Fb.altIndex hFp (Fb.index digest x) (Fb.fingerprint digest x))) Fb :=
    sim_ensure _ _ _ hsim0
  rcases insertL_path digest hFp rand Fl x t with
    ⟨F1l, hpL, heL⟩ | ⟨hpL0, F1l, hpL, heL⟩ | ⟨hpL0, hpL1, idxL, hidxL, hkL⟩
  · rw [hfpe, hie] at hpL
    rw [hie] at heL
    rcases sim_probe (Fl.ensureBucket (Fb.index digest x)) Fb (Fb.fingerprint digest x)
        (Fb.index digest x) hsim0 hi1 hfp with ⟨hq1, hq2⟩ | ⟨Gl, Gb, hq1, hq2, hqs⟩
    · rw [hpL] at hq1
      cases hq1
    · rw [hpL] at hq1
      cases hq1
      rcases insert_path digest hFp rand Fb x t with
        ⟨F1b, hpB, heB⟩ | ⟨hpB0, F1b, hpB, heB⟩ | ⟨hpB0, hpB1, idxB, hidxB, hkB⟩
      · rw [hq2] at hpB
        cases hpB
        rw [heL, heB]
        exact ⟨sim_addSize F1l Gb hqs 1, rfl, rfl⟩
      · rw [hq2] at hpB0
        cases hpB0
      · rw [hq2] at hpB0
        cases hpB0
  · rw [hfpe, hie] at hpL0 hpL heL
    rw [haie] at hpL heL
    rcases sim_probe (Fl.ensureBucket (Fb.index digest x)) Fb (Fb.fingerprint digest x)
        (Fb.index digest x) hsim0 hi1 hfp with ⟨hq1, hq2⟩ | ⟨Gl, Gb, hq1, hq2, hqs⟩
    · rcases sim_probe ((Fl.ensureBucket (Fb.index digest x)).ensureBucket
          (Fb.altIndex hFp (Fb.index digest x) (Fb.fingerprint digest x))) Fb
          (Fb.fingerprint digest x)
          (Fb.altIndex hFp (Fb.index digest x) (Fb.fingerprint digest x))
          hsim1e hi2 hfp with ⟨hr1, hr2⟩ | ⟨Gl, Gb, hr1, hr2, hrs⟩
      · rw [hpL] at hr1
        cases hr1
      · rw [hpL] at hr1
        cases hr1
        rcases insert_path digest hFp rand Fb x t with
          ⟨F1b, hpB, heB⟩ | ⟨hpB0, F1b, hpB, heB⟩ | ⟨hpB0, hpB1, idxB, hidxB, hkB⟩
        · rw [hq2] at hpB
          cases hpB
        · rw [hr2] at hpB
          cases hpB
          rw [heL, heB]
          exact ⟨sim_addSize F1l Gb hrs 1, rfl, rfl⟩
        · rw [hr2] at hpB1
          cases hpB1
    · rw [hpL0] at hq1
      cases hq1
  · rw [hfpe, hie] at hpL0 hpL1 hkL
    rw [haie] at hpL1 hkL
    rw [h4] at hkL
    rcases sim_probe (Fl.ensureBucket (Fb.index digest x)) Fb (Fb.fingerprint digest x)
        (Fb.index digest x) hsim0 hi1 hfp with ⟨hq1, hq2⟩ | ⟨Gl, Gb, hq1, hq2, hqs⟩
    · rcases sim_probe ((Fl.ensureBucket (Fb.index digest x)).ensureBucket
          (Fb.altIndex hFp (Fb.index digest x) (Fb.fingerprint digest x))) Fb
          (Fb.fingerprint digest x)
          (Fb.altIndex hFp (Fb.index digest x) (Fb.fingerprint digest x))
          hsim1e hi2 hfp with ⟨hr1, hr2⟩ | ⟨Gl, Gb, hr1, hr2, hrs⟩
      · rcases insert_path digest hFp rand Fb x t with
          ⟨F1b, hpB, heB⟩ | ⟨hpB0, F1b, hpB, heB⟩ | ⟨hpB0, hpB1, idxB, hidxB, hkB⟩
        · rw [hq2] at hpB
          cases hpB
        · rw [hr2] at hpB
          cases hpB
        · have hlist : [CuckooFilter.index digest Fl x,
              CuckooFilter.altIndex hFp Fl (CuckooFilter.index digest Fl x)
                (CuckooFilter.fingerprint digest Fl x)] =
              [Fb.index digest x,
               Fb.altIndex hFp (Fb.index digest x) (Fb.fingerprint digest x)] := by
            rw [hfpe, hie, haie]
          have hidxeq : idxL = idxB := by
            rw [hidxL, hidxB, List.get_of_eq hlist]
          subst hidxeq
          have hmemL : idxL ∈ [Fb.index digest x,
              Fb.altIndex hFp (Fb.index digest x) (Fb.fingerprint digest x)] := by
            rw [hidxB]
            exact List.get_mem _ _ _
          have hidxlt : idxL < Fb.capacity := by
            rcases List.mem_cons.mp hmemL with heq | hmem2
            · rw [heq]; exact hi1
            · rcases List.mem_cons.mp hmem2 with heq | hmem3
              · rw [heq]; exact hi2
              · simp at hmem3
          have hnlt1 := bucketInsertL_none _ _ _ hpL0
          have hnlt2 := bucketInsertL_none _ _ _ hpL1
          rw [ensureL_bucket_size, h2] at hnlt1
          rw [ensureL_bucket_size, ensureL_bucket_size, h2] at hnlt2
          have hble1 : (((Fl.ensureBucket (Fb.index digest x)).ensureBucket
              (Fb.altIndex hFp (Fb.index digest x) (Fb.fingerprint digest x))).bucketOf
                (Fb.index digest x)).length ≤ Fb.bucket_size :=
            (hsim1e.2.2.2.2.2.2.2 _ hi1).2.1
          have hble2 : (((Fl.ensureBucket (Fb.index digest x)).ensureBucket
              (Fb.altIndex hFp (Fb.index digest x) (Fb.fingerprint digest x))).bucketOf
                (Fb.altIndex hFp (Fb.index digest x) (Fb.fingerprint digest x))).length ≤
              Fb.bucket_size :=
            (hsim1e.2.2.2.2.2.2.2 _ hi2).2.1
          have hf1 : (((Fl.ensureBucket (Fb.index digest x)).ensureBucket
              (Fb.altIndex hFp (Fb.index digest x) (Fb.fingerprint digest x))).bucketOf
                (Fb.index digest x)).length = Fb.bucket_size := by
            rw [ensureL_bucketOf] at hble1 ⊢
            omega
          have hf2 : (((Fl.ensureBucket (Fb.index digest x)).ensureBucket
              (Fb.altIndex hFp (Fb.index digest x) (Fb.fingerprint digest x))).bucketOf
                (Fb.altIndex hFp (Fb.index digest x) (Fb.fingerprint digest x))).length =
              Fb.bucket_size := by
            omega
          have hfullI : (((Fl.ensureBucket (Fb.index digest x)).ensureBucket
              (Fb.altIndex hFp (Fb.index digest x) (Fb.fingerprint digest x))).bucketOf
                idxL).length = Fb.bucket_size := by
            rcases List.mem_cons.mp hmemL with heq | hmem2
            · rw [heq]; exact hf1
            · rcases List.mem_cons.mp hmem2 with heq | hmem3
              · rw [heq]; exact hf2
              · simp at hmem3
          have hK := sim_kickLoop hFp rand Fb.max_kicks (Fb.fingerprint digest x) idxL
            ((Fl.ensureBucket (Fb.index digest x)).ensureBucket
              (Fb.altIndex hFp (Fb.index digest x) (Fb.fingerprint digest x))) Fb (t + 1)
            hsim1e hcap hidxlt hfp hfullI
          rcases hkL with ⟨Fls, tls, hksL, heL⟩ | ⟨Flf, tlf, hkfL, heL⟩ |
            ⟨Fle, psl, tle, hkeL, hrbL⟩
          · rcases hkB with ⟨Fbs, tbs, hksB, heB⟩ | ⟨Fbf, tbf, hkfB, heB⟩ |
              ⟨Fbe, psb, tbe, hkeB, hrbB⟩
            · rw [hksL, hksB] at hK
              obtain ⟨hs, ht⟩ := hK
              rw [heL, heB]
              exact ⟨hs, rfl, ht⟩
            · rw [hksL, hkfB] at hK
              cases hK
            · rw [hksL, hkeB] at hK
              cases hK
          · rcases hkB with ⟨Fbs, tbs, hksB, heB⟩ | ⟨Fbf, tbf, hkfB, heB⟩ |
              ⟨Fbe, psb, tbe, hkeB, hrbB⟩
            · rw [hkfL, hksB] at hK
              cases hK
            · rw [hkfL, hkfB] at hK
              obtain ⟨hs, ht⟩ := hK
              rw [heL, heB]
              exact ⟨hs, ht⟩
            · rw [hkfL, hkeB] at hK
              cases hK
          · rcases hkB with ⟨Fbs, tbs, hksB, heB⟩ | ⟨Fbf, tbf, hkfB, heB⟩ |
              ⟨Fbe, psb, tbe, hkeB, hrbB⟩
            · rw [hkeL, hksB] at hK
              cases hK
            · rw [hkeL, hkfB] at hK
              cases hK
            · rw [hkeL, hkeB] at hK
              obtain ⟨hsimE, hpsE, htE, hoccE⟩ := hK
              subst hpsE
              subst htE
              have hoccR : ∀ p ∈ ((Fb.fingerprint digest x, idxL) :: psl).reverse,
                  occupied p.1 = true := by
                intro p hp
                rw [List.mem_reverse] at hp
                rcases List.mem_cons.mp hp with heq | hp2
                · rw [heq]
                  exact hfp
                · exact hoccE p hp2
              obtain ⟨hflag, hsimR⟩ :=
                sim_rollback (((Fb.fingerprint digest x, idxL) :: psl).reverse)
                  Fle Fbe hsimE hoccR
              rcases hrbL with ⟨Frl, hrlEq, heL⟩ | ⟨Frl, hrlEq, heL⟩ <;>
                rcases hrbB with ⟨Frb, hrbEq, heB⟩ | ⟨Frb, hrbEq, heB⟩
              · rw [hrlEq, hrbEq] at hflag hsimR
                rw [heL, heB]
                exact ⟨hsimR, rfl⟩
              · rw [hrlEq, hrbEq] at hflag
                cases hflag
              · rw [hrlEq, hrbEq] at hflag
                cases hflag
              · rw [hrlEq, hrbEq] at hflag hsimR
                rw [heL, heB]
                exact ⟨hsimR, rfl⟩
      · rw [hpL1] at hr1
        cases hr1
    · rw [hpL0] at hq1
      cases hq1

theorem sim_containsOp {α : Type} (digest : α → List Bool) (hFp : FP → ℕ)
    (Fl : CuckooFilter) (Fb : BCuckooFilter) (x : α) (h : Sim Fl Fb)
    (hcap : 0 < Fb.capacity) (hfp : occupied (Fb.fingerprint digest x) = true) :
    (Fl.contains digest hFp x).1 = Fb.contains digest hFp x ∧
    Sim (Fl.contains digest hFp x).2 Fb := by
  obtain ⟨h1, h2, h3, h4, h5, h6, h7, h8⟩ := h
  have hsim : Sim Fl Fb := ⟨h1, h2, h3, h4, h5, h6, h7, h8⟩
  have hfpe : CuckooFilter.fingerprint digest Fl x = Fb.fingerprint digest x :=
    fingerprint_sim digest Fl Fb x h3
  have hie : CuckooFilter.index digest Fl x = Fb.index digest x :=
    index_sim digest Fl Fb x h1
  have haie : CuckooFilter.altIndex hFp Fl (Fb.index digest x) (Fb.fingerprint digest x) =
      Fb.altIndex hFp (Fb.index digest x) (Fb.fingerprint digest x) :=
    altIndex_sim hFp Fl Fb _ _ h1
  have hi1 : Fb.index digest x < Fb.capacity := index_lt digest Fb x hcap
  have hi2 : Fb.altIndex hFp (Fb.index digest x) (Fb.fingerprint digest x) <
      Fb.capacity := altIndex_lt hFp Fb _ _ hcap
  have hsim0 : Sim (Fl.ensureBucket (Fb.index digest x)) Fb := sim_ensure _ _ _ hsim
  have hsim1 : Sim ((Fl.ensureBucket (Fb.index digest x)).ensureBucket
      (Fb.altIndex hFp (Fb.index digest x) (Fb.fingerprint digest x))) Fb :=
    sim_ensure _ _ _ hsim0
  have hmem1 := simBucket_mem Fb.bucket_size Fb.fingerprint_size _ _
    (hsim0.2.2.2.2.2.2.2 _ hi1) (Fb.fingerprint digest x) hfp
  have hmem2 := simBucket_mem Fb.bucket_size Fb.fingerprint_size _ _
    (hsim1.2.2.2.2.2.2.2 _ hi2) (Fb.fingerprint digest x) hfp
  rw [CuckooFilter.contains, BCuckooFilter.contains, hfpe, hie, haie]
  dsimp only
  by_cases hin1 : Fb.fingerprint digest x ∈
      (Fl.ensureBucket (Fb.index digest x)).bucketOf (Fb.index digest x)
  · rw [if_pos hin1]
    have hB1 : Fb.includeFp (Fb.fingerprint digest x) (Fb.index digest x) = true := by
      rw [BCuckooFilter.includeFp]
      exact decide_eq_true (hmem1.mpr hin1)
    refine ⟨?_, hsim0⟩
    rw [hB1, Bool.true_or]
  · rw [if_neg hin1]
    have hB1 : Fb.includeFp (Fb.fingerprint digest x) (Fb.index digest x) = false := by
      rw [BCuckooFilter.includeFp]
      exact decide_eq_false (fun hm => hin1 (hmem1.mp hm))
    refine ⟨?_, hsim1⟩
    rw [hB1, Bool.false_or, BCuckooFilter.includeFp]
    exact decide_eq_decide.mpr hmem2.symm

theorem sim_trace {α : Type} (digest : α → List Bool) (hFp : FP → ℕ) (rand : ℕ → ℕ) :
    ∀ (ops : List (OpK × α)) (Fl : CuckooFilter) (Fb : BCuckooFilter) (t : ℕ),
    Sim Fl Fb → 0 < Fb.capacity → Fb.BucketShape →
    (∀ px ∈ ops, px.1 ≠ OpK.del) →
    (∀ px ∈ ops, occupied ((digest px.2).take Fb.fingerprint_size) = true) →
    (traceL digest hFp rand Fl ops t).1 = (traceB digest hFp rand Fb ops t).1 ∧
    (traceL digest hFp rand Fl ops t).2.2 = (traceB digest hFp rand Fb ops t).2.2 := by
  intro ops
  induction ops with
  | nil =>
    intro Fl Fb t h hcap hS hdel hocc
    exact ⟨rfl, rfl⟩
  | cons p rest ih =>
    intro Fl Fb t h hcap hS hdel hocc
    obtain ⟨op, x⟩ := p
    have hfpx : occupied (Fb.fingerprint digest x) = true := by
      rw [BCuckooFilter.fingerprint]
      exact hocc (op, x) (by simp)
    have hdelr : ∀ px ∈ rest, px.1 ≠ OpK.del :=
      fun px hpx => hdel px (List.mem_cons_of_mem _ hpx)
    have hoccr : ∀ px ∈ rest, occupied ((digest px.2).take Fb.fingerprint_size) = true :=
      fun px hpx => hocc px (List.mem_cons_of_mem _ hpx)
    cases op with
    | qry =>
      obtain ⟨hb, hsim1⟩ := sim_containsOp digest hFp Fl Fb x h hcap hfpx
      cases hcl : Fl.contains digest hFp x with
      | mk bl Fl1 =>
        rw [hcl] at hb hsim1
        dsimp only at hb hsim1
        obtain ⟨ih1, ih2⟩ := ih Fl1 Fb t hsim1 hcap hS hdelr hoccr
        simp only [traceL, traceB, hcl]
        exact ⟨by rw [hb, ih1], ih2⟩
    | ins =>
      have hI := sim_insert digest hFp rand Fl Fb x t h hcap hfpx
      have hIB := insert_occ digest hFp rand Fb x t hS hcap hfpx
      cases hil : Fl.insert digest hFp rand x t with
      | ok il F1l tl =>
        cases hib : Fb.insert digest hFp rand x t with
        | ok ib F1b tb =>
          rw [hil, hib] at hI
          obtain ⟨hs1, hieq, hteq⟩ := hI
          subst hieq
          subst hteq
          obtain ⟨ho2, hsh2, hc2, hb2, hf2⟩ := hIB.1 _ _ _ hib
          have hcap2 : 0 < F1b.capacity := by rw [hc2]; exact hcap
          have hoccr2 : ∀ px ∈ rest,
              occupied ((digest px.2).take F1b.fingerprint_size) = true := by
            rw [hf2]
            exact hoccr
          obtain ⟨ih1, ih2⟩ := ih F1l F1b tl hs1 hcap2 hsh2 hdelr hoccr2
          simp only [traceL, traceB, hil, hib]
          exact ⟨by rw [ih1], ih2⟩
        | capacity F1b tb => rw [hil, hib] at hI; cases hI
        | inconsist F1b tb => rw [hil, hib] at hI; cases hI
        | idxErr F1b tb => rw [hil, hib] at hI; cases hI
      | capacity F1l tl =>
        cases hib : Fb.insert digest hFp rand x t with
        | ok ib F1b tb => rw [hil, hib] at hI; cases hI
        | capacity F1b tb =>
          rw [hil, hib] at hI
          obtain ⟨hs1, hteq⟩ := hI
          subst hteq
          obtain ⟨ho2, hsh2, hc2, hb2, hf2⟩ := hIB.2 _ hib
            (by intro a b2 c2 hh; cases hh)
          simp only [IRes.stateOf] at ho2 hsh2 hc2 hb2 hf2
          have hcap2 : 0 < F1b.capacity := by rw [hc2]; exact hcap
          have hoccr2 : ∀ px ∈ rest,
              occupied ((digest px.2).take F1b.fingerprint_size) = true := by
            rw [hf2]
            exact hoccr
          obtain ⟨ih1, ih2⟩ := ih F1l F1b tl hs1 hcap2 hsh2 hdelr hoccr2
          simp only [traceL, traceB, hil, hib]
          exact ⟨by rw [ih1], ih2⟩
        | inconsist F1b tb => rw [hil, hib] at hI; cases hI
        | idxErr F1b tb => rw [hil, hib] at hI; cases hI
      | inconsist F1l tl =>
        cases hib : Fb.insert digest hFp rand x t with
        | ok ib F1b tb => rw [hil, hib] at hI; cases hI
        | capacity F1b tb => rw [hil, hib] at hI; cases hI
        | inconsist F1b tb =>
          rw [hil, hib] at hI
          obtain ⟨hs1, hteq⟩ := hI
          subst hteq
          obtain ⟨ho2, hsh2, hc2, hb2, hf2⟩ := hIB.2 _ hib
            (by intro a b2 c2 hh; cases hh)
          simp only [IRes.stateOf] at ho2 hsh2 hc2 hb2 hf2
          have hcap2 : 0 < F1b.capacity := by rw [hc2]; exact hcap
          have hoccr2 : ∀ px ∈ rest,
              occupied ((digest px.2).take F1b.fingerprint_size) = true := by
            rw [hf2]
            exact hoccr
          obtain ⟨ih1, ih2⟩ := ih F1l F1b tl hs1 hcap2 hsh2 hdelr hoccr2
          simp only [traceL, traceB, hil, hib]
          exact ⟨by rw [ih1], ih2⟩
        | idxErr F1b tb => rw [hil, hib] at hI; cases hI
      | idxErr F1l tl =>
        cases hib : Fb.insert digest hFp rand x t with
        | ok ib F1b tb => rw [hil, hib] at hI; cases hI
        | capacity F1b tb => rw [hil, hib] at hI; cases hI
        | inconsist F1b tb => rw [hil, hib] at hI; cases hI
        | idxErr F1b tb =>
          rw [hil, hib] at hI
          obtain ⟨hs1, hteq⟩ := hI
          subst hteq
          obtain ⟨ho2, hsh2, hc2, hb2, hf2⟩ := hIB.2 _ hib
            (by intro a b2 c2 hh; cases hh)
          simp only [IRes.stateOf] at ho2 hsh2 hc2 hb2 hf2
          have hcap2 : 0 < F1b.capacity := by rw [hc2]; exact hcap
          have hoccr2 : ∀ px ∈ rest,
              occupied ((digest px.2).take F1b.fingerprint_size) = true := by
            rw [hf2]
            exact hoccr
          obtain ⟨ih1, ih2⟩ := ih F1l F1b tl hs1 hcap2 hsh2 hdelr hoccr2
          simp only [traceL, traceB, hil, hib]
          exact ⟨by rw [ih1], ih2⟩
    | del =>
      exact absurd rfl (hdel (OpK.del, x) (by simp))

/-- C10 as stated is false: on the same fresh parameters (`capacity = 1`,
`bucket_size = 1`, `fingerprint_size = 1`) and an item with the all-zero
fingerprint, `contains` answers `False` in the list-of-buckets variant but
`True` in the bit-packed one (an empty packed slot equals the all-zero
fingerprint). -/
theorem c10_counterexample :
    (traceL (fun _ : Unit => [false]) (fun _ => 0) (fun _ => 0)
       (CuckooFilter.mk0 1 1 1 0) [(OpK.qry, ())] 0).1 ≠
    (traceB (fun _ : Unit => [false]) (fun _ => 0) (fun _ => 0)
       (BCuckooFilter.mk0 1 1 1 0) [(OpK.qry, ())] 0).1 := by
  decide

/-- C10 (amended): from the same constructor parameters with positive
capacity, the two variants produce the same observable outcome for every
operation of a delete-free insert/contains sequence over items whose
fingerprints are not all-zero, under identically coupled random choices
(same draw stream, and the final draw counters agree). -/
theorem c10_trace_equiv {α : Type} (digest : α → List Bool) (hFp : FP → ℕ)
    (rand : ℕ → ℕ) (cap b f mk t0 : ℕ) (ops : List (OpK × α)) (hcap : 0 < cap)
    (hdel : ∀ px ∈ ops, px.1 ≠ OpK.del)
    (hocc : ∀ px ∈ ops, occupied ((digest px.2).take f) = true) :
    (traceL digest hFp rand (CuckooFilter.mk0 cap b f mk) ops t0).1 =
      (traceB digest hFp rand (BCuckooFilter.mk0 cap b f mk) ops t0).1 ∧
    (traceL digest hFp rand (CuckooFilter.mk0 cap b f mk) ops t0).2.2 =
      (traceB digest hFp rand (BCuckooFilter.mk0 cap b f mk) ops t0).2.2 := by
  have hS0 : (BCuckooFilter.mk0 cap b f mk).BucketShape := by
    refine ⟨by simp [BCuckooFilter.mk0], ?_⟩
    intro bk hbk
    simp only [BCuckooFilter.mk0] at hbk
    rw [List.eq_of_mem_replicate hbk]
    simp
  exact sim_trace digest hFp rand ops (CuckooFilter.mk0 cap b f mk)
    (BCuckooFilter.mk0 cap b f mk) t0 (sim_mk0 cap b f mk) (by simpa using hcap)
    hS0 hdel (by simpa using hocc)

/-- Witness for the amended C10: one insert followed by one query of an item
with fingerprint `[true]`. -/
theorem c10_trace_equiv_witness :
    ((0 < 1) ∧
     (∀ px ∈ ([(OpK.ins, ()), (OpK.qry, ())] : List (OpK × Unit)),
       px.1 ≠ OpK.del) ∧
     (∀ px ∈ ([(OpK.ins, ()), (OpK.qry, ())] : List (OpK × Unit)),
       occupied (((fun _ : Unit => [true]) px.2).take 1) = true)) ∧
    ((traceL (fun _ : Unit => [true]) (fun _ => 0) (fun _ => 0)
        (CuckooFilter.mk0 1 1 1 0) [(OpK.ins, ()), (OpK.qry, ())] 0).1 =
      (traceB (fun _ : Unit => [true]) (fun _ => 0) (fun _ => 0)
        (BCuckooFilter.mk0 1 1 1 0) [(OpK.ins, ()), (OpK.qry, ())] 0).1 ∧
     (traceL (fun _ : Unit => [true]) (fun _ => 0) (fun _ => 0)
        (CuckooFilter.mk0 1 1 1 0) [(OpK.ins, ()), (OpK.qry, ())] 0).2.2 =
      (traceB (fun _ : Unit => [true]) (fun _ => 0) (fun _ => 0)
        (BCuckooFilter.mk0 1 1 1 0) [(OpK.ins, ()), (OpK.qry, ())] 0).2.2) :=
  ⟨⟨by decide, by decide, by decide⟩,
   c10_trace_equiv (fun _ : Unit => [true]) (fun _ => 0) (fun _ => 0) 1 1 1 0 0
     [(OpK.ins, ()), (OpK.qry, ())] (by decide) (by decide) (by decide)⟩

end Cuckoo
